import Mathlib

/-!
# qemu-csd key-value store: a shallow embedding

Definitions follow `util/kv_utils.c`, `util/kv_store.c`, `util/select-results.c`,
`util/kv-tasks.c`, `util/query.c` and `hw/nvme/ctrl_kv.c`.

Conventions of the embedding

* A byte (`unsigned char`) is a `Nat` below 256; a byte buffer is a `List Nat`
  and its C length argument is the length of the list.
* A C string (`char *`, NUL-terminated) is the `List Char` of its characters
  before the terminator.
* `size_t` values are `Nat`; where the C code converts or wraps them the
  conversion is written out.
* The file system is explicit state.  It is ideal: `malloc`, `mkdir` of a
  missing directory under an existing parent, and `fwrite` never fail for lack
  of resources or permissions.  Objects are smaller than `2 ^ 63` bytes, so a
  byte count converted to `ssize_t` keeps its value.
* A file system has a largest file offset (`max_offset`, the bound above which
  `fseek` fails); it supports large files, so the bound is not below
  `2 ^ 32 - 1`, and no file is larger than the bound.
* Object paths are paths of keys of one byte or more.  The path of the
  namespace directory itself (`key_len = 0`) is only listed; the calls that
  open, test or remove a path treat it as a name that no entry has.
* `char` is signed.
* An access outside a block is a result of its own (`heap_overflow` in
  `list_objects`, `none` from the switch of a worker whose callee left a heap
  block or read behind the sql text): C gives the rest of such a run no
  meaning.
* What the code takes from `nvme.h` and from QEMU (status codes, option
  macros, `nvme_map_dptr`, the scatter/gather helpers) is a parameter of the
  definitions that use it.
-/

namespace KV

/-! ## Error codes (`include/qemu/kv_utils.h`) -/

def KV_ERROR_INVALID_PARAMETER : Int := -1
def KV_ERROR_FILE_PATH : Int := -2
def KV_ERROR_FILE_EXISTS : Int := -3
def KV_ERROR_FILE_NOT_FOUND : Int := -4
def KV_ERROR_CANNOT_OPEN : Int := -5
def KV_ERROR_FILE_WRITE : Int := -6
def KV_ERROR_FILE_OFFSET : Int := -7
def KV_ERROR_MEMORY_ALLOCATION : Int := -10
def KV_ERROR_REMOVE : Int := -14
def KV_ERROR_KEY_TOO_LONG : Int := -15

/-- The `ObjectKey` struct: `key` holds the first `key_len` bytes of the
16-byte array (the remaining bytes are never written by the code). -/
structure ObjectKey where
  key : List Nat
  key_len : Nat
deriving DecidableEq, Repr

/-! ## `hex` (`util/kv_utils.c`) -/

/-- The lookup table `hexout` of `hex`. -/
def hexout : List Char :=
  ['0', '1', '2', '3', '4', '5', '6', '7', '8', '9', 'A', 'B', 'C', 'D', 'E', 'F']

/-- The function `hex`: two characters per key byte, `hexout[c >> 4]` then
`hexout[c & 0xF]`.  The result is the text written to `buffer`. -/
def hex : List Nat → List Char
  | [] => []
  | c :: rest => hexout.getD (c >>> 4) '0' :: hexout.getD (c &&& 0xF) '0' :: hex rest

/-! ## Name handling of `util/kv_store.c` -/

/-- The libc `strcmp`, by its contract: the sign of the comparison at the first
position where the strings differ (a proper prefix is smaller). -/
def strcmp : List Char → List Char → Int
  | [], [] => 0
  | [], _ :: _ => -1
  | _ :: _, [] => 1
  | a :: as, b :: bs =>
    if a.toNat < b.toNat then -1 else if b.toNat < a.toNat then 1 else strcmp as bs

/-- The comparator `compareStrings` handed to `qsort`. -/
def compareStrings (a b : List Char) : Int := strcmp a b

/-- The value of a `char` that holds the byte `c`: `char` is signed, so the
bytes from 128 on are negative. -/
def char_value (c : Char) : Int :=
  if c.toNat % 256 < 128 then ((c.toNat % 256 : Nat) : Int)
  else ((c.toNat % 256 : Nat) : Int) - 256

/-- The function `hex_str_to_uchar`: `hex - '0'` when `hex <= '9'` as a
`char`, `hex - 'A' + 10` otherwise, converted to `unsigned char`. -/
def hex_str_to_uchar (c : Char) : Nat :=
  if char_value c ≤ ('9'.toNat : Int) then ((char_value c - ('0'.toNat : Int)) % 256).toNat
  else ((char_value c - ('A'.toNat : Int) + 10) % 256).toNat

/-- The name decoder in the last loop of `list_objects`:
`key_len = strlen(name) / 2` and, for `j < key_len`,
`key[j] = hex_str_to_uchar(name[2j]) * 16 + hex_str_to_uchar(name[2j+1])`
stored into an `unsigned char`. -/
def decode_name (name : List Char) : ObjectKey :=
  let key_len := name.length / 2
  { key := (List.range key_len).map (fun j =>
      (hex_str_to_uchar (name.getD (j * 2) '0') * 16
        + hex_str_to_uchar (name.getD (j * 2 + 1) '0')) % 256)
    key_len := key_len }

/-! ## The file system

The store keeps one directory per `(bus, namespace)` under the base directory:
`<base>/<bus>/<ns>/<HEXKEY>`.  A path built by `get_path_str` is kept in its
three components; the decimal rendering of the two numbers is injective and is
not spelled out. -/

/-- The `d_type` of a directory entry, as far as the code tells them apart. -/
inductive DType where
  | DT_REG
  | DT_DIR
deriving DecidableEq, Repr

/-- One entry of a namespace directory, in the shape `readdir` reports it,
together with the bytes of the file.  For a directory entry `data` only stands
for whatever size a seek to its end reports. -/
structure Entry where
  d_name : List Char
  d_type : DType
  data : List Nat
deriving DecidableEq, Repr

/-- The state of the file system below the base directory: whether the base
directory and each bus directory exist, and for each namespace directory its
entries in the order `readdir` yields them (`none` when it does not exist).
`max_offset` is the largest file offset of the file system, the bound above
which `lseek` and `fseek` fail (`2 ^ 44 - 4096` on ext4 with blocks of 4 KiB);
`large_files` says that it is not below the largest 32-bit offset. -/
structure FS where
  base : Bool
  bus_dirs : Nat → Bool
  ns_dirs : Nat → Nat → Option (List Entry)
  max_offset : Nat
  large_files : 2 ^ 32 - 1 ≤ max_offset

/-- A path returned by `get_path_str`; `name` is empty for the key-less form
that denotes the namespace directory itself. -/
structure Path where
  bus : Nat
  ns : Nat
  name : List Char
deriving DecidableEq, Repr

/-- The entries of a directory right after `mkdir`. -/
def fresh_dir : List Entry :=
  [⟨['.'], DType.DT_DIR, []⟩, ⟨['.', '.'], DType.DT_DIR, []⟩]

/-- The call `mkdir(base_dir)`: creates the base directory when it is missing. -/
def mkdir_base (fs : FS) : FS := { fs with base := true }

/-- The call `mkdir(<base>/<bus>)`: needs the parent, changes nothing when the
directory exists. -/
def mkdir_bus (fs : FS) (bus : Nat) : FS :=
  if fs.base then { fs with bus_dirs := fun b => if b = bus then true else fs.bus_dirs b }
  else fs

/-- Replace the entries of one namespace directory. -/
def set_dir (fs : FS) (bus ns : Nat) (d : List Entry) : FS :=
  { fs with ns_dirs := fun b n => if b = bus ∧ n = ns then some d else fs.ns_dirs b n }

/-- The call `mkdir(<base>/<bus>/<ns>)`: needs the parent, changes nothing when
the directory exists. -/
def mkdir_ns (fs : FS) (bus ns : Nat) : FS :=
  if fs.bus_dirs bus && (fs.ns_dirs bus ns).isNone then set_dir fs bus ns fresh_dir
  else fs

/-- The function `get_path_str` (`util/kv_utils.c`): the three `mkdir` calls
guarded by `create_folder_on_absence`, and the path with the hex name of the
key when `key_len` is not zero. -/
def get_path_str (fs : FS) (bus_number namespace_id : Nat) (key : List Nat)
    (create_folder_on_absence : Bool) : FS × Path :=
  let fs1 := if create_folder_on_absence then mkdir_base fs else fs
  let fs2 := if create_folder_on_absence then mkdir_bus fs1 bus_number else fs1
  let fs3 := if create_folder_on_absence then mkdir_ns fs2 bus_number namespace_id else fs2
  (fs3, ⟨bus_number, namespace_id, if key.length ≠ 0 then hex key else []⟩)

/-- The first entry of a directory with the given name. -/
def find_entry (d : List Entry) (name : List Char) : Option Entry :=
  d.find? (fun e => decide (e.d_name = name))

/-- Path resolution: the entry a path names, if any.  The names are those of
keys of one byte or more; the empty name of the key-less path is the name of
no entry. -/
def lookup (fs : FS) (p : Path) : Option Entry :=
  match fs.ns_dirs p.bus p.ns with
  | none => none
  | some d => find_entry d p.name

/-- The call `access(path, F_OK)`: 0 when the path exists, -1 otherwise. -/
def access (fs : FS) (p : Path) : Int :=
  if (lookup fs p).isSome then 0 else -1

/-- Give the file called `name` new contents. -/
def set_data (d : List Entry) (name : List Char) (f : List Nat → List Nat) : List Entry :=
  d.map (fun e => if e.d_name = name then { e with data := f e.data } else e)

/-- The calls `fopen(path, "wb")` (`append = false`) and `fopen(path, "ab")`:
a missing file is created empty, `"wb"` truncates an existing file, and the
call fails (`none`, the C `NULL`) on a directory or under a missing directory. -/
def fopen_write (fs : FS) (p : Path) (append : Bool) : Option FS :=
  match fs.ns_dirs p.bus p.ns with
  | none => none
  | some d =>
    match find_entry d p.name with
    | none => some (set_dir fs p.bus p.ns (d ++ [⟨p.name, DType.DT_REG, []⟩]))
    | some e =>
      if e.d_type = DType.DT_REG then
        if append then some fs
        else some (set_dir fs p.bus p.ns (set_data d p.name (fun _ => [])))
      else none

/-- The call `fwrite(value, 1, value_len, filePtr)` on a stream opened by
`fopen_write`: the bytes go to the end of the file; returns the number of
elements written. -/
def fwrite (fs : FS) (p : Path) (value : List Nat) : FS × Nat :=
  match fs.ns_dirs p.bus p.ns with
  | none => (fs, 0)
  | some d => (set_dir fs p.bus p.ns (set_data d p.name (fun old => old ++ value)), value.length)

/-- The function `store_object`.  Returns the new file system and the
`ssize_t` result. -/
def store_object (fs : FS) (bus_number namespace_id : Nat) (key value : List Nat)
    (append must_exist must_not_exist : Bool) : FS × Int :=
  if must_exist && must_not_exist then (fs, KV_ERROR_INVALID_PARAMETER)
  else
    let (fs1, path_str) := get_path_str fs bus_number namespace_id key true
    let exist := access fs1 path_str
    if must_exist && exist == -1 then (fs1, KV_ERROR_FILE_NOT_FOUND)
    else if must_not_exist && exist == 0 then (fs1, KV_ERROR_FILE_EXISTS)
    else
      match fopen_write fs1 path_str append with
      | none => (fs1, KV_ERROR_CANNOT_OPEN)
      | some fs2 =>
        let (fs3, elementsWritten) := fwrite fs2 path_str value
        if elementsWritten ≠ value.length then (fs3, KV_ERROR_FILE_WRITE)
        else (fs3, (elementsWritten : Int))

/-- The conversion of a `size_t` argument to the `long` parameter of `fseek`
(64-bit two's complement). -/
def size_t_to_long (x : Nat) : Int :=
  if x % 2 ^ 64 < 2 ^ 63 then ((x % 2 ^ 64 : Nat) : Int) else ((x % 2 ^ 64 : Nat) : Int) - 2 ^ 64

/-- What `read_object` hands back: the return value, the bytes it put at the
start of `buffer`, and `*total_object_size` (`none` when it was not written). -/
structure ReadResult where
  ret : Int
  buffer : List Nat
  total_object_size : Option Nat
deriving DecidableEq, Repr

/-- The call `fread(buffer, 1, max_buffer_len, filePtr)` at file position
`pos`: the bytes of a regular file from `pos` on, at most `max_buffer_len`;
reading a directory fails and yields no bytes. -/
def fread (e : Entry) (pos max_buffer_len : Nat) : List Nat :=
  if e.d_type = DType.DT_REG then (e.data.drop pos).take max_buffer_len else []

/-- The call `fseek(filePtr, offset, SEEK_SET)` on a file system whose largest
file offset is `max_offset`: -1 when the offset is negative or above
`max_offset`, 0 otherwise; a position behind the end of the file is accepted
up to that bound.  No file is larger than the bound of its file system, so an
offset inside the file is accepted. -/
def fseek_set (max_offset : Nat) (filePtr : Entry) (offset : Int) : Int :=
  if offset < 0 then -1
  else if offset.toNat ≤ filePtr.data.length ∨ offset.toNat ≤ max_offset then 0
  else -1

/-- The function `read_object`.  `fopen(path, "rb")` fails when the path does
not exist; `fseek(filePtr, 0, SEEK_END)` and `ftell` give the size; the
`size_t` offset is passed to `fseek` as a `long`, and the call returns
`KV_ERROR_FILE_OFFSET` whenever that `fseek` fails. -/
def read_object (fs : FS) (bus_number namespace_id : Nat) (key : List Nat)
    (offset max_buffer_len : Nat) : FS × ReadResult :=
  let (fs1, path_str) := get_path_str fs bus_number namespace_id key true
  match lookup fs1 path_str with
  | none => (fs1, ⟨KV_ERROR_CANNOT_OPEN, [], none⟩)
  | some filePtr =>
    let total_object_size := filePtr.data.length
    if fseek_set fs1.max_offset filePtr (size_t_to_long offset) ≠ 0 then
      (fs1, ⟨KV_ERROR_FILE_OFFSET, [], some total_object_size⟩)
    else
      let bytesRead := fread filePtr (size_t_to_long offset).toNat max_buffer_len
      (fs1, ⟨(bytesRead.length : Int), bytesRead, some total_object_size⟩)

/-- The call `remove(path)`: `some` of the new file system when the file was
removed, otherwise `none` with the flag telling whether `errno` is `ENOENT`.
Removing a directory entry fails (contents of sub-directories are not
modelled; `.`, `..` and non-empty directories cannot be removed). -/
def remove (fs : FS) (p : Path) : Option FS × Bool :=
  match fs.ns_dirs p.bus p.ns with
  | none => (none, true)
  | some d =>
    match find_entry d p.name with
    | none => (none, true)
    | some e =>
      if e.d_type = DType.DT_REG then
        (some (set_dir fs p.bus p.ns (d.filter (fun x => decide (x.d_name ≠ p.name)))), false)
      else (none, false)

/-- The function `delete_object`. -/
def delete_object (fs : FS) (bus_number namespace_id : Nat) (key : List Nat) : FS × Int :=
  let (fs1, path_str) := get_path_str fs bus_number namespace_id key true
  match remove fs1 path_str with
  | (some fs2, _) => (fs2, 0)
  | (none, errno_is_ENOENT) =>
    if errno_is_ENOENT then (fs1, KV_ERROR_FILE_NOT_FOUND) else (fs1, KV_ERROR_REMOVE)

/-- The function `file_exist`: the path is resolved without creating
directories; the result is `access(path, F_OK) + 1`. -/
def file_exist (fs : FS) (bus_number namespace_id : Nat) (key : List Nat) : FS × Int :=
  let (fs1, path_str) := get_path_str fs bus_number namespace_id key false
  (fs1, access fs1 path_str + 1)

/-- The content of the object stored under a key, read off the state: the data
of the regular file `<base>/<bus>/<ns>/hex(key)`. -/
def object_data (fs : FS) (bus ns : Nat) (key : List Nat) : Option (List Nat) :=
  match lookup fs ⟨bus, ns, hex key⟩ with
  | some e => if e.d_type = DType.DT_REG then some e.data else none
  | none => none

/-- The file system before anything is stored: no directory exists.  The
largest file offset is that of ext4 with blocks of 4 KiB. -/
def empty_fs : FS := ⟨false, fun _ => false, fun _ _ => none, 2 ^ 44 - 4096, by decide⟩

/-! ## `list_objects` (`util/kv_store.c`) -/

/-- The result of `list_objects`: either it returns, with the return value and
the `*objects` array (empty for `NULL` and when it was not written;
`*num_objects_returned` is its length), or it accesses memory outside a heap
block, after which C defines no behaviour. -/
inductive ListOutcome where
  | returned (ret : Int) (objects : List ObjectKey)
  | heap_overflow
deriving DecidableEq, Repr

/-- The macro `MIN`. -/
def MIN (a b : Nat) : Nat := if a < b then a else b

/-- The local `max_key_str_len = 2 * 16 + 1`, the size of each name buffer. -/
def max_key_str_len : Nat := 2 * 16 + 1

/-- The locals of the `readdir` loop: the names copied so far
(`dir_list_size` is their number) and the number of slots of the array. -/
structure ScanState where
  dir_list : List (List Char)
  dir_list_capacity : Nat
deriving DecidableEq, Repr

/-- One round of the `readdir` loop of `list_objects`, `none` standing for an
access outside a heap block.  When the array is full its capacity becomes
`MIN(dir_list_capacity * 2, max_to_return + offset)` (in `size_t` arithmetic)
and `realloc` resizes the block; when the new capacity is below
`dir_list_size` the block no longer holds the names collected so far, which
`qsort` and the `free` loop on every way out of the function go through.
Entries that are not regular files or compare below the prefix are skipped.
Otherwise slot `dir_list_size` is written, which lies in the block only when
`dir_list_size` is below the capacity, and the name is copied with `strcpy`
into a block of `max_key_str_len` bytes. -/
def scan_step ( prefix_hex_str : List Char) (key_prefix_len offset max_to_return : Nat)
    (st : ScanState) (entry : Entry) : Option ScanState :=
  let dir_list_size := st.dir_list.length
  let dir_list_capacity :=
    if dir_list_size = st.dir_list_capacity then
      MIN (st.dir_list_capacity * 2 % 2 ^ 64) ((max_to_return + offset) % 2 ^ 64)
    else st.dir_list_capacity
  if dir_list_capacity < dir_list_size then none
  else if entry.d_type ≠ DType.DT_REG then some ⟨st.dir_list, dir_list_capacity⟩
  else if key_prefix_len ≠ 0 ∧ strcmp entry.d_name prefix_hex_str < 0 then
    some ⟨st.dir_list, dir_list_capacity⟩
  else if ¬ dir_list_size < dir_list_capacity then none
  else if ¬ entry.d_name.length + 1 ≤ max_key_str_len then none
  else some ⟨st.dir_list ++ [entry.d_name], dir_list_capacity⟩

/-- The whole `readdir` loop over the entries of the directory. -/
def scan_dir ( prefix_hex_str : List Char) (key_prefix_len offset max_to_return : Nat) :
    ScanState → List Entry → Option ScanState
  | st, [] => some st
  | st, entry :: rest =>
    match scan_step prefix_hex_str key_prefix_len offset max_to_return st entry with
    | none => none
    | some st1 => scan_dir prefix_hex_str key_prefix_len offset max_to_return st1 rest

/-- The libc `qsort` with `compareStrings`, by its contract: the array in
ascending order of the comparator. -/
def qsort (l : List (List Char)) : List (List Char) :=
  l.insertionSort (fun a b => compareStrings a b ≤ 0)

/-- The conversion loop of `list_objects` over the selected names: each name
is decoded; a name whose `key_len` exceeds 16 ends the loop (`none`). -/
def convert_names : List (List Char) → Option (List ObjectKey)
  | [] => some []
  | name :: rest =>
    if (decode_name name).key_len > 16 then none
    else
      match convert_names rest with
      | none => none
      | some ks => some (decode_name name :: ks)

/-- The function `list_objects`. -/
def list_objects (fs : FS) (bus_number namespace_id : Nat) ( key_prefix : List Nat)
    (offset max_to_return : Nat) : FS × ListOutcome :=
  let max_to_return := if max_to_return = 0 then 0xFFFFFFFF else max_to_return
  let (fs1, path_str) := get_path_str fs bus_number namespace_id [] true
  match fs1.ns_dirs path_str.bus path_str.ns with
  | none => (fs1, ListOutcome.returned KV_ERROR_FILE_PATH [])
  | some dir =>
    let prefix_hex_str := hex key_prefix
    match scan_dir prefix_hex_str key_prefix.length offset max_to_return ⟨[], 128⟩ dir with
    | none => (fs1, ListOutcome.heap_overflow)
    | some st =>
      let dir_list_size := st.dir_list.length
      if dir_list_size ≤ offset then (fs1, ListOutcome.returned 0 [])
      else
        let dir_list := qsort st.dir_list
        let num_objects_returned := MIN (dir_list_size - offset) max_to_return
        match convert_names ((dir_list.drop offset).take num_objects_returned) with
        | none => (fs1, ListOutcome.returned KV_ERROR_KEY_TOO_LONG [])
        | some objects => (fs1, ListOutcome.returned 0 objects)

/-! ## `nvme_kv_get_key` (`hw/nvme/ctrl_kv.c`) -/

/-- The fields of the submission entry `NvmeKvCmd` that the key decoder reads,
each as the 32-bit number it denotes (`le32_to_cpu` already applied). -/
structure NvmeKvCmd where
  key_length_and_options : Nat
  key_word_1 : Nat
  key_word_2 : Nat
  key_word_3 : Nat
  key_word_4 : Nat
deriving DecidableEq, Repr

/-- Modelled from the spec: the macro `NVME_KV_GET_KEY_LENGTH` of `nvme.h`,
which is not among the sources; the spec gives it as the low 8 bits of the
option/length word. -/
def NVME_KV_GET_KEY_LENGTH (key_length_and_options : Nat) : Nat :=
  key_length_and_options &&& 0xFF

/-- The inner loop `for (j = 3; j >= 0 && len > 0; j--, len--, p++)` over the
remaining values of `j`; the state is `len` and the bytes written through `p`. -/
def key_inner_loop (word : Nat) : List Nat → Nat × List Nat → Nat × List Nat
  | [], st => st
  | j :: js, (len, p) =>
    if len > 0 then key_inner_loop word js (len - 1, p ++ [(word >>> (8 * j)) &&& 0xFF])
    else (len, p)

/-- The outer loop `for (i = 0; i < 4 && len > 0; i++)` over the remaining
words. -/
def key_outer_loop : List Nat → Nat × List Nat → Nat × List Nat
  | [], st => st
  | word :: words, (len, p) =>
    if len > 0 then key_outer_loop words (key_inner_loop word [3, 2, 1, 0] (len, p))
    else (len, p)

/-- The function `nvme_kv_get_key`: `none` is the return value -1, `some`
carries the bytes written to `key_buf` and `*key_len` on return value 0. -/
def nvme_kv_get_key (cmd : NvmeKvCmd) (empty_allowed : Bool) : Option (List Nat × Nat) :=
  let kv_length := NVME_KV_GET_KEY_LENGTH cmd.key_length_and_options
  if (!empty_allowed && kv_length == 0) || decide (kv_length > 16) then none
  else if kv_length = 0 then some ([], 0)
  else
    let words := [cmd.key_word_4, cmd.key_word_3, cmd.key_word_2, cmd.key_word_1]
    let (_, key_buf) := key_outer_loop words (kv_length, [])
    some (key_buf, kv_length)

/-- A well-formed object name: an even number of characters, all of them
among the sixteen of `hexout`. -/
def is_hex_name : List Char → Bool
  | [] => true
  | [_] => false
  | a :: b :: rest => decide (a ∈ hexout) && decide (b ∈ hexout) && is_hex_name rest

/-! ## The select result cache (`util/select-results.c`) -/

/-- The constant `SELECT_NUM_CACHE_ENTRIES`. -/
def SELECT_NUM_CACHE_ENTRIES : Nat := 32

/-- The struct `select_store_data_entry`; `data` is `none` for the `NULL`
pointer and otherwise the bytes of the buffer it points to. -/
structure select_store_data_entry where
  data : Option (List Nat)
  data_len : Nat
  id : Nat
  last_id : Nat
  in_use : Bool
deriving DecidableEq, Repr

/-- The module state of `select-results.c`: the array `data_cache`, indexed by
slot (only the indices below `SELECT_NUM_CACHE_ENTRIES` belong to it), and
`next_id`. -/
structure SelectCache where
  data_cache : Nat → select_store_data_entry
  next_id : Nat

/-- The assignment `data_cache[i] = e`. -/
def set_entry (c : Nat → select_store_data_entry) (i : Nat) (e : select_store_data_entry) :
    Nat → select_store_data_entry :=
  fun j => if j = i then e else c j

/-- The state after `select_results_init`: the zero-initialised static array
with `last_id = i` in slot `i`, and `next_id = 0`. -/
def select_results_init : SelectCache :=
  ⟨fun i => ⟨none, 0, 0, i, false⟩, 0⟩

/-- The loop of `select_results_store` with `n` rounds left, and the code
after it.  `oldest_entry` is the slot the pointer of that name refers to.  A
slot that is not in use takes the results with `id = last_id + 32` (in
`uint32_t`); when the rounds are used up the oldest entry takes them with
`id = id + 32`. -/
def store_scan (results : Option (List Nat)) (results_len : Nat) :
    Nat → SelectCache → Option Nat → SelectCache × Nat
  | 0, st, oldest_entry =>
    match oldest_entry with
    | none => (st, 0)
    | some o =>
      let id := ((st.data_cache o).id + SELECT_NUM_CACHE_ENTRIES) % 2 ^ 32
      (⟨set_entry st.data_cache o
          { st.data_cache o with data := results, data_len := results_len, id := id },
        st.next_id⟩, id)
  | n + 1, st, oldest_entry =>
    let entry := st.data_cache st.next_id
    if !entry.in_use then
      let id := (entry.last_id + SELECT_NUM_CACHE_ENTRIES) % 2 ^ 32
      (⟨set_entry st.data_cache st.next_id
          { entry with in_use := true, data := results, data_len := results_len, id := id },
        (st.next_id + 1) % SELECT_NUM_CACHE_ENTRIES⟩, id)
    else
      let oldest1 :=
        match oldest_entry with
        | none => some st.next_id
        | some o => if (st.data_cache o).id > entry.id then some st.next_id else some o
      store_scan results results_len n
        ⟨st.data_cache, (st.next_id + 1) % SELECT_NUM_CACHE_ENTRIES⟩ oldest1

/-- The function `select_results_store`: the new state and the returned id. -/
def select_results_store (st : SelectCache) (results : Option (List Nat)) (results_len : Nat) :
    SelectCache × Nat :=
  store_scan results results_len SELECT_NUM_CACHE_ENTRIES st none

/-- What `select_results_retrieve` hands back: the returned pointer (`none`
for `NULL`), `*data_len` and `*found`. -/
structure RetrieveResult where
  data : Option (List Nat)
  data_len : Nat
  found : Bool
deriving DecidableEq, Repr

/-- The function `select_results_retrieve`.  When the entry is kept, the
caller gets `g_malloc(data_len)` filled by `memcpy`; `g_malloc(0)` is `NULL`. -/
def select_results_retrieve (st : SelectCache) (id : Nat)
    (do_not_remove do_not_remove_if_size_gt : Bool) (size_check : Nat) :
    SelectCache × RetrieveResult :=
  let entry := st.data_cache (id % SELECT_NUM_CACHE_ENTRIES)
  match entry.data with
  | none => (st, ⟨none, 0, false⟩)
  | some data =>
    if entry.id ≠ id then (st, ⟨none, 0, false⟩)
    else if !do_not_remove && (!do_not_remove_if_size_gt || decide (entry.data_len ≤ size_check))
    then
      (⟨set_entry st.data_cache (id % SELECT_NUM_CACHE_ENTRIES)
          { entry with data_len := 0, data := none, last_id := entry.id, id := 0,
                       in_use := false },
        st.next_id⟩, ⟨some data, entry.data_len, true⟩)
    else
      (st, ⟨if entry.data_len = 0 then none else some (data.take entry.data_len),
        entry.data_len, true⟩)

/-- A call on the cache: a store of a buffer with its length, or a retrieve. -/
inductive CacheOp where
  | store (results : Option (List Nat)) (results_len : Nat)
  | retrieve (id : Nat) (do_not_remove do_not_remove_if_size_gt : Bool) (size_check : Nat)
deriving DecidableEq, Repr

/-- The contract of a call: `results_len` is the size of the buffer handed to
`select_results_store`, and an id is a `uint32_t`. -/
def valid_op : CacheOp → Bool
  | CacheOp.store none _ => true
  | CacheOp.store (some b) results_len => b.length == results_len
  | CacheOp.retrieve id _ _ _ => decide (id < 2 ^ 32)

/-- One call applied to the cache, keeping the list of the ids that
`select_results_store` has returned so far. -/
def cache_step (p : SelectCache × List Nat) : CacheOp → SelectCache × List Nat
  | CacheOp.store results results_len =>
    ((select_results_store p.1 results results_len).1,
      p.2 ++ [(select_results_store p.1 results results_len).2])
  | CacheOp.retrieve id do_not_remove do_not_remove_if_size_gt size_check =>
    ((select_results_retrieve p.1 id do_not_remove do_not_remove_if_size_gt size_check).1, p.2)

/-- The cache and the ids issued after a sequence of calls on the initial
state. -/
def cache_run (ops : List CacheOp) : SelectCache × List Nat :=
  ops.foldl cache_step (select_results_init, [])

/-- A cache state reachable from `select_results_init` by store and retrieve
calls, with the ids issued on the way. -/
def CacheReachable (st : SelectCache) (issued : List Nat) : Prop :=
  ∃ ops : List CacheOp, (∀ op ∈ ops, valid_op op = true) ∧ cache_run ops = (st, issued)

/-! ## What the code takes from `nvme.h` and from QEMU -/

/-- The names the code takes from `nvme.h`, which is not among the sources:
the status codes, the marker `NVME_DNR`, and the macros that cut the options
out of the option/length word.  They are a parameter of the model; nothing
below depends on their values. -/
structure NvmeHeader where
  NVME_SUCCESS : Nat
  NVME_DNR : Nat
  NVME_NO_COMPLETE : Nat
  NVME_CMD_SIZE_LIMIT : Nat
  NVME_KV_NOT_FOUND : Nat
  NVME_KV_EXISTS : Nat
  NVME_KV_ERROR : Nat
  NVME_INVALID_KV_SIZE : Nat
  NVME_KV_INVALID_PARAMETER : Nat
  NVME_KV_GET_CMD_OPTIONS : Nat → Nat
  NVME_STORE_CMD_OPTION_MUST_EXIST : Nat → Bool
  NVME_STORE_CMD_OPTION_MUST_NOT_EXIST : Nat → Bool
  NVME_STORE_CMD_OPTION_APPEND : Nat → Bool
  NVME_SELECT_CMD_INPUT_TYPE : Nat → Nat
  NVME_SELECT_CMD_OUTPUT_TYPE : Nat → Nat
  NVME_SELECT_TYPE_CSV : Nat
  NVME_SELECT_TYPE_JSON : Nat
  NVME_SELECT_TYPE_PARQUET : Nat
  NVME_SELECT_CMD_OUTPUT_TYPE_USE_CSV_HEADERS_INPUT : Nat → Bool
  NVME_SELECT_CMD_OUTPUT_TYPE_USE_CSV_HEADERS_OUTPUT : Nat → Bool
  NVME_SELECT_CMD_OPTION_DO_NOT_FREE : Nat → Bool
  NVME_SELECT_CMD_OPTION_DO_NOT_FREE_IF_NOT_ALL_DATA_FETCHED : Nat → Bool

/-- The request `NvmeRequest` as the key-value code reads it: the fields of
its command that the key decoder reads (`cmd`), and the fields `nsid`,
`host_buffer_size`, `read_offset` and `select_id` of the same command, each as
the 32-bit number it denotes. -/
structure NvmeRequest where
  cmd : NvmeKvCmd
  nsid : Nat
  host_buffer_size : Nat
  read_offset : Nat
  select_id : Nat
deriving DecidableEq, Repr

/-- What the handlers use of the controller `NvmeCtrl` and of QEMU behind it:
the bus number `pci_dev_bus_num(&n->parent_obj)`, the status `nvme_map_dptr`
returns for a request and a length, and, for `nvme_kv_read_data` on a request
and a buffer length, the bytes it copies to the start of the buffer with the
count it returns (the scatter/gather helpers are not modelled). -/
structure NvmeCtrl where
  bus_num : Nat
  map_dptr : NvmeRequest → Nat → Nat
  read_data : NvmeRequest → Nat → List Nat × Nat

/-- The GLib call `g_malloc(n_bytes)`: `NULL` for `n_bytes = 0`, as GLib
documents, otherwise a block of `n_bytes` bytes holding whatever the heap
held, `heap 0`, `heap 1`, ...; an allocation that cannot be served ends the
program and is not modelled. -/
def g_malloc (heap : Nat → Nat) (n_bytes : Nat) : Option (List Nat) :=
  if n_bytes = 0 then none else some ((List.range n_bytes).map heap)

/-- The GLib call `g_malloc0(n_bytes)`: as `g_malloc`, the block zeroed. -/
def g_malloc0 (n_bytes : Nat) : Option (List Nat) :=
  if n_bytes = 0 then none else some (List.replicate n_bytes 0)

/-- The bytes `src` copied to the start of the block `dst` (`memcpy(dst, src,
src.length)`). -/
def memcpy (dst src : List Nat) : List Nat :=
  src ++ dst.drop src.length

/-! ## The command of `run_query` (`util/query.c`) -/

/-- The member `QUERY_TYPE_CSV` of the enum `Query_Data_Type` (`query.h`). -/
def QUERY_TYPE_CSV : Nat := 0
/-- The member `QUERY_TYPE_JSON` of the enum `Query_Data_Type`. -/
def QUERY_TYPE_JSON : Nat := 1
/-- The member `QUERY_TYPE_PARQUET` of the enum `Query_Data_Type`. -/
def QUERY_TYPE_PARQUET : Nat := 2

/-- The zero byte that ends a C string. -/
def NUL : Char := Char.ofNat 0

/-- The single quote character. -/
def QUOTE : Char := Char.ofNat 39

/-- The libc `strcasestr(haystack, needle)`: the offset of the first
occurrence of `needle` in `haystack`, letters compared without regard to
case, `none` for `NULL`. -/
def strcasestr : List Char → List Char → Option Nat
  | [], needle => if needle.isEmpty then some 0 else none
  | c :: rest, needle =>
    if (needle.map Char.toLower).isPrefixOf ((c :: rest).map Char.toLower) then some 0
    else
      match strcasestr rest needle with
      | some i => some (i + 1)
      | none => none

/-- The loop `while (sql_second_part_pos < total_sql_len &&
sql[sql_second_part_pos] != ' ') ++sql_second_part_pos`, with the number of
rounds left as fuel; `total_sql_len` rounds are enough. -/
def second_part_loop (sql : List Char) (total_sql_len : Nat) : Nat → Nat → Nat
  | 0, sql_second_part_pos => sql_second_part_pos
  | fuel + 1, sql_second_part_pos =>
    if sql_second_part_pos < total_sql_len ∧ sql.getD sql_second_part_pos NUL ≠ ' ' then
      second_part_loop sql total_sql_len fuel (sql_second_part_pos + 1)
    else sql_second_part_pos

/-- The three offsets `run_query` computes from the sql text. -/
structure QueryOffsets where
  sql_first_part_len : Nat
  total_sql_len : Nat
  sql_second_part_pos : Nat
deriving DecidableEq, Repr

/-- Lines 86 to 102 of `run_query`: `none` when `strcasestr` finds no `from`,
otherwise `sql_first_part_len = end - sql + 5`, `total_sql_len` without a
semicolon at the end, and `sql_second_part_pos` after the loop. -/
def run_query_offsets (sql : List Char) : Option QueryOffsets :=
  match strcasestr sql ['f', 'r', 'o', 'm'] with
  | none => none
  | some from_pos =>
    let sql_first_part_len := from_pos + 5
    let total_sql_len := sql.length
    let total_sql_len :=
      if sql.getD (total_sql_len - 1) NUL = ';' then total_sql_len - 1 else total_sql_len
    some ⟨sql_first_part_len, total_sql_len,
      second_part_loop sql total_sql_len total_sql_len sql_first_part_len⟩

/-- The chars `s` stored in the array `mem` from index `pos` on; `mem` holds
the array from index 0 up to the highest index written so far. -/
def write_at (mem : List Char) (pos : Nat) (s : List Char) : List Char :=
  mem.take pos ++ List.replicate (pos - mem.length) NUL ++ s ++ mem.drop (pos + s.length)

/-- The call `strcpy(mem + pos, src)`: the chars of `src` and the zero byte. -/
def strcpy (mem : List Char) (pos : Nat) (src : List Char) : List Char :=
  write_at mem pos (src ++ [NUL])

/-- The call `strncpy(mem + pos, src, n)`: the first `n` chars of `src`,
padded with zero bytes when `src` is shorter than `n`. -/
def strncpy (mem : List Char) (pos : Nat) (src : List Char) (n : Nat) : List Char :=
  write_at mem pos (src.take n ++ List.replicate (n - src.length) NUL)

/-- The string written by `switch (input_format)` with the number added to
`pos`; no case matches any other value. -/
def query_reader (input_format : Nat) : Option (List Char × Nat) :=
  if input_format = QUERY_TYPE_JSON then some ("read_json_auto(".toList ++ [QUOTE], 16)
  else if input_format = QUERY_TYPE_CSV then some ("read_csv_auto(".toList ++ [QUOTE], 15)
  else if input_format = QUERY_TYPE_PARQUET then some ("read_parquet(".toList ++ [QUOTE], 14)
  else none

/-- The header clause written after the path for CSV input. -/
def query_header (input_format : Nat) (use_csv_headers_input : Bool) :
    Option (List Char × Nat) :=
  if input_format = QUERY_TYPE_CSV then
    if use_csv_headers_input then some (", HEADER=TRUE".toList, 13)
    else some (", HEADER=FALSE".toList, 14)
  else none

/-- The extension `switch (output_format)` adds to `result_path`. -/
def query_extension (output_format : Nat) : List Char :=
  if output_format = QUERY_TYPE_JSON then ".json".toList
  else if output_format = QUERY_TYPE_CSV then ".csv".toList
  else if output_format = QUERY_TYPE_PARQUET then ".parquet".toList
  else []

/-- The options written after the result path. -/
def query_options (output_format : Nat) (use_csv_headers_output : Bool) :
    Option (List Char × Nat) :=
  if output_format = QUERY_TYPE_CSV ∧ use_csv_headers_output = true then
    some (" ( header )".toList, 11)
  else if output_format = QUERY_TYPE_PARQUET then some (" ( format parquet )".toList, 19)
  else none

/-- The pair `strcpy(command + pos, s); pos += n`; the state is the array and
`pos`. -/
def put_str (st : List Char × Nat) (s : List Char) (n : Nat) : List Char × Nat :=
  (strcpy st.1 st.2 s, st.2 + n)

/-- The statement `command[pos++] = c`. -/
def put_chr (st : List Char × Nat) (c : Char) : List Char × Nat :=
  (write_at st.1 st.2 [c], st.2 + 1)

/-- An optional `strcpy(command + pos, s); pos += n`. -/
def emit (st : List Char × Nat) : Option (List Char × Nat) → List Char × Nat
  | none => st
  | some (s, n) => put_str st s n

/-- What `run_query` has built when it calls `duckdb_query`: the array
`command` from index 0 up to the highest index written, the size the array
was declared with, the result path and the offsets. -/
structure QueryCommand where
  command : List Char
  command_size : Nat
  result_path : List Char
  offsets : QueryOffsets
deriving DecidableEq, Repr

/-- How the construction of the command ends: no `from` in the sql text
(`KV_ERROR_INVALID_PARAMETER`), a `strcpy` from `sql + sql_second_part_pos`
that starts behind the zero byte of the sql text, or the command. -/
inductive QueryOutcome where
  | invalid_parameter
  | read_past_sql (offsets : QueryOffsets)
  | built (q : QueryCommand)
deriving DecidableEq, Repr

/-- Lines 85 to 176 of `run_query`, for the path `get_path_str` returned and
the value `counter` of the static counter.  `pos += total_sql_len -
sql_second_part_pos` is `size_t` arithmetic: when `sql_second_part_pos` is the
larger, `pos` goes back by the difference. -/
def run_query_command (path sql : List Char) (input_format output_format : Nat)
    (use_csv_headers_input use_csv_headers_output : Bool) (counter : Nat) : QueryOutcome :=
  let path_len := path.length
  match run_query_offsets sql with
  | none => QueryOutcome.invalid_parameter
  | some o =>
    let command_size :=
      6 + o.sql_first_part_len + 16 + path_len + 84 + o.total_sql_len - o.sql_second_part_pos
    let st := put_str ([], 0) "copy (".toList 6
    let st : List Char × Nat := (strncpy st.1 st.2 sql o.sql_first_part_len,
      st.2 + o.sql_first_part_len)
    let st := emit st (query_reader input_format)
    let st := put_str st path path_len
    let st := put_chr st QUOTE
    let st := emit st (query_header input_format use_csv_headers_input)
    let st := put_chr st ')'
    if sql.length < o.sql_second_part_pos then QueryOutcome.read_past_sql o
    else
      let st : List Char × Nat := (strcpy st.1 st.2 (sql.drop o.sql_second_part_pos),
        if o.sql_second_part_pos ≤ o.total_sql_len then
          st.2 + (o.total_sql_len - o.sql_second_part_pos)
        else st.2 - (o.sql_second_part_pos - o.total_sql_len))
      let st := put_str st (") to ".toList ++ [QUOTE]) 6
      let result_path := Nat.toDigits 10 (counter % 2 ^ 32) ++ query_extension output_format
      let st := put_str st result_path result_path.length
      let st := put_chr st QUOTE
      let st := emit st (query_options output_format use_csv_headers_output)
      let command := write_at st.1 st.2 [NUL]
      QueryOutcome.built ⟨command, command_size, result_path, o⟩

/-- The C string an array holds: the chars before the first zero byte. -/
def c_string (mem : List Char) : List Char :=
  mem.takeWhile (fun c => c != NUL)

/-! ## The task queues (`include/qemu/kv-tasks.h`, `util/kv-tasks.c`) -/

/-- The member `KV_TASK_STORE` of the enum `kv_task_type`. -/
def KV_TASK_STORE : Nat := 0
/-- The member `KV_TASK_RETRIEVE` of the enum `kv_task_type`. -/
def KV_TASK_RETRIEVE : Nat := 1
/-- The member `KV_TASK_LIST` of the enum `kv_task_type`. -/
def KV_TASK_LIST : Nat := 2
/-- The member `KV_TASK_DELETE` of the enum `kv_task_type`. -/
def KV_TASK_DELETE : Nat := 3
/-- The member `KV_TASK_EXISTS` of the enum `kv_task_type`. -/
def KV_TASK_EXISTS : Nat := 4
/-- The member `KV_TASK_SEND_SELECT` of the enum `kv_task_type`. -/
def KV_TASK_SEND_SELECT : Nat := 5

/-- The macro `KV_TASK_KEY_MAX_LENGTH`. -/
def KV_TASK_KEY_MAX_LENGTH : Nat := 16

/-- The struct `kv_task_request`, without the queue link.  `nvme_cmd` is the
request the pointer refers to, `key` the 16-byte array, `data` the block the
pointer refers to (`none` for `NULL`). -/
structure kv_task_request where
  task_type : Nat
  bus_number : Nat
  namespace_id : Nat
  nvme_cmd : NvmeRequest
  key : List Nat
  key_length : Nat
  data : Option (List Nat)
  data_length : Nat
  max_length : Nat
  must_exist : Bool
  must_not_exist : Bool
  append : Bool
  offset : Nat
  select_input_type : Nat
  select_output_type : Nat
  use_csv_headers_input : Bool
  use_csv_headers_output : Bool
deriving DecidableEq, Repr

/-- What the pointer `result` of a `kv_task_result` refers to: nothing
(`NULL`), a block of bytes, or an array of `ObjectKey`. -/
inductive ResultData where
  | null
  | bytes (block : List Nat)
  | keys (objects : List ObjectKey)
deriving DecidableEq, Repr

/-- The block of bytes behind a result pointer read as `unsigned char *`. -/
def ResultData.as_bytes : ResultData → Option (List Nat)
  | ResultData.bytes block => some block
  | _ => none

/-- The array behind a result pointer read as `ObjectKey *`. -/
def ResultData.as_keys : ResultData → List ObjectKey
  | ResultData.keys objects => objects
  | _ => []

/-- The struct `kv_task_result`, without the queue link. -/
structure kv_task_result where
  task_type : Nat
  nvme_cmd : NvmeRequest
  status : Int
  result : ResultData
  result_length : Nat
  max_length : Nat
deriving DecidableEq, Repr

/-- The two static queues `requests` and `results` of `kv-tasks.c`, head
first. -/
structure TaskQueues where
  requests : List kv_task_request
  results : List kv_task_result
deriving DecidableEq, Repr

/-- The function `kv_tasks_add_request`: `QSIMPLEQ_INSERT_TAIL`. -/
def kv_tasks_add_request (q : TaskQueues) (request : kv_task_request) : TaskQueues :=
  { q with requests := q.requests ++ [request] }

/-- The function `kv_tasks_add_request_with_params`; `g_new0` serves the
request, so the return value is 0.  The key array is zeroed and receives
`key_length` bytes of `key` when `key_length` is in 1..16. -/
def kv_tasks_add_request_with_params (q : TaskQueues) (task_type bus_number namespace_id : Nat)
    (nvme_cmd : NvmeRequest) (key : List Nat) (key_length : Nat) (data : Option (List Nat))
    (data_length max_length : Nat) (must_exist must_not_exist append : Bool) (offset : Nat)
    (select_input_type select_output_type : Nat)
    (use_csv_headers_input use_csv_headers_output : Bool) : TaskQueues × Int :=
  let key_array :=
    if key_length ≠ 0 ∧ key_length ≤ KV_TASK_KEY_MAX_LENGTH then
      memcpy (List.replicate KV_TASK_KEY_MAX_LENGTH 0) (key.take key_length)
    else List.replicate KV_TASK_KEY_MAX_LENGTH 0
  (kv_tasks_add_request q
    { task_type := task_type, bus_number := bus_number, namespace_id := namespace_id,
      nvme_cmd := nvme_cmd, key := key_array, key_length := key_length, data := data,
      data_length := data_length, max_length := max_length, must_exist := must_exist,
      must_not_exist := must_not_exist, append := append, offset := offset,
      select_input_type := select_input_type, select_output_type := select_output_type,
      use_csv_headers_input := use_csv_headers_input,
      use_csv_headers_output := use_csv_headers_output }, 0)

/-- The function `kv_tasks_get_next_result`: the head of `results`, removed,
or `NULL`. -/
def kv_tasks_get_next_result (q : TaskQueues) : TaskQueues × Option kv_task_result :=
  match q.results with
  | [] => (q, none)
  | result :: rest => ({ q with results := rest }, some result)

/-- The function `kv_tasks_send_result`. -/
def kv_tasks_send_result (q : TaskQueues) (request : kv_task_request) (status : Int)
    (result_data : ResultData) (result_data_length max_length : Nat) : TaskQueues :=
  { q with results := q.results ++
      [{ task_type := request.task_type, nvme_cmd := request.nvme_cmd, status := status,
         result := result_data, result_length := result_data_length,
         max_length := max_length }] }

/-- What `run_query` hands back: the return value, `*output_len` and `*result`. -/
structure QueryResult where
  status : Int
  output_len : Nat
  result : Option (List Nat)
deriving DecidableEq, Repr

/-- The locals `status`, `result_data`, `result_data_length` and `max_length`
of `kv_tasks_run_thread` at the call of `kv_tasks_send_result`. -/
structure TaskOutcome where
  status : Int
  result_data : ResultData
  result_data_length : Nat
  max_length : Nat
deriving DecidableEq, Repr

/-- The sql text a worker hands to `run_query`: the C string in the block
`request->data`.  `none` when the pointer is `NULL` or the block holds no zero
byte, so that `strcasestr` and `strlen` read behind it. -/
def request_sql (data : Option (List Nat)) : Option (List Char) :=
  match data with
  | none => none
  | some block =>
    if 0 ∈ block then some ((block.takeWhile (fun b => b != 0)).map Char.ofNat) else none

/-- The `switch (request->task_type)` of `kv_tasks_run_thread`, for one
request.  `heap` is the content of fresh heap blocks.  The call of `run_query`
in the SEND_SELECT branch is followed through the source of `run_query`:
`get_path_str` is called without creating directories, a text without `from`
gives `KV_ERROR_INVALID_PARAMETER`, and the command is built as in
`run_query_command`, where the `strcpy` from `sql + sql_second_part_pos` reads
behind the zero byte of the sql text when `sql_second_part_pos` exceeds its
length.  The parameter `run_query` stands for the rest of the call, which is
`duckdb_query` on the command and the reading of the result file.  `none`
stands for a callee that left a block: `list_objects` its heap block,
`run_query` the sql text. -/
def kv_task_switch (heap : Nat → Nat) (run_query : FS → kv_task_request → FS × QueryResult)
    (fs : FS) (request : kv_task_request) : Option (FS × TaskOutcome) :=
  let key := request.key.take request.key_length
  if request.task_type = KV_TASK_STORE then
    let r := store_object fs request.bus_number request.namespace_id key
      ((request.data.getD []).take request.data_length)
      request.append request.must_exist request.must_not_exist
    some (r.1, ⟨r.2, ResultData.null, 0, 0⟩)
  else if request.task_type = KV_TASK_RETRIEVE then
    match g_malloc heap request.max_length with
    | none => some (fs, ⟨-1, ResultData.null, 0, 0⟩)
    | some buffer =>
      let r := read_object fs request.bus_number request.namespace_id key request.offset
        request.max_length
      let total_size := r.2.total_object_size.getD 0
      if r.2.ret > 0 then
        some (r.1, ⟨r.2.ret, ResultData.bytes (memcpy buffer r.2.buffer),
          if request.max_length < total_size then request.max_length else total_size,
          total_size⟩)
      else some (r.1, ⟨r.2.ret, ResultData.null, 0, 0⟩)
  else if request.task_type = KV_TASK_LIST then
    match list_objects fs request.bus_number request.namespace_id key request.offset
        request.max_length with
    | (fs1, ListOutcome.returned ret objects) =>
      some (fs1, ⟨ret, ResultData.keys objects, objects.length, 0⟩)
    | (_, ListOutcome.heap_overflow) => none
  else if request.task_type = KV_TASK_DELETE then
    let r := delete_object fs request.bus_number request.namespace_id key
    some (r.1, ⟨r.2, ResultData.null, 0, 0⟩)
  else if request.task_type = KV_TASK_EXISTS then
    let r := file_exist fs request.bus_number request.namespace_id key
    some (r.1, ⟨r.2, ResultData.null, 0, 0⟩)
  else if request.task_type = KV_TASK_SEND_SELECT then
    match request_sql request.data with
    | none => none
    | some sql =>
      match run_query_offsets sql with
      | none => some (fs, ⟨KV_ERROR_INVALID_PARAMETER, ResultData.null, 0, 0⟩)
      | some o =>
        if sql.length < o.sql_second_part_pos then none
        else
          let r := run_query fs request
          if r.2.status = 0 then
            some (r.1, ⟨r.2.status,
              match r.2.result with
              | none => ResultData.null
              | some block => ResultData.bytes block,
              r.2.output_len, 0⟩)
          else some (r.1, ⟨r.2.status, ResultData.null, 0, 0⟩)
  else some (fs, ⟨-1, ResultData.null, 0, 0⟩)

/-- One pass of the `while (1)` loop of `kv_tasks_run_thread`: with an empty
request queue nothing changes, otherwise the head request is taken, run, and
its result appended to the result queue; `none` when the callee of the switch
left a block, after which C gives the run no meaning and no result is sent. -/
def kv_tasks_run_thread (heap : Nat → Nat)
    (run_query : FS → kv_task_request → FS × QueryResult) (fs : FS) (q : TaskQueues) :
    Option (FS × TaskQueues) :=
  match q.requests with
  | [] => some (fs, q)
  | request :: rest =>
    match kv_task_switch heap run_query fs request with
    | none => none
    | some (fs1, o) =>
      some (fs1, kv_tasks_send_result { q with requests := rest } request o.status
        o.result_data o.result_data_length o.max_length)

/-! ## The handlers and the notifier (`hw/nvme/ctrl_kv.c`) -/

/-- The macro `NVME_KV_MAX_LEN_LENGTH`. -/
def NVME_KV_MAX_LEN_LENGTH : Nat := 16

/-- What `nvme_build_kv_list_response` hands back: the return value, the
block `list_buffer` and `*list_buffer_size`. -/
structure ListResponse where
  status : Nat
  list_buffer : List Nat
  list_buffer_size : Nat
deriving DecidableEq, Repr

/-- The four bytes of a 32-bit number in memory, lowest first (`cpu_to_le32`
followed by `memcpy`). -/
def le32_bytes (x : Nat) : List Nat :=
  [x % 256, x / 256 % 256, x / 65536 % 256, x / 16777216 % 256]

/-- The loop `for (i = 0; i < num_keys; i++)` of `nvme_build_kv_list_response`
over the remaining keys: the state is what is left of `max_list_buffer_size`,
the bytes written from the fifth byte of `list_buffer` on, and
`num_keys_written`.  The two bytes copied from `key_length_le` are the low two
bytes of the key length (the host is little-endian). -/
def build_kv_list_loop : List ObjectKey → Nat → List Nat → Nat → List Nat × Nat
  | [], _, p, num_keys_written => (p, num_keys_written)
  | key :: rest, max_list_buffer_size, p, num_keys_written =>
    let key_length := key.key_len
    let key_length_le := key.key_len % 2 ^ 16
    let pad := (4 - (key_length % 4)) % 4
    if max_list_buffer_size < 2 + key_length + pad then (p, num_keys_written)
    else
      build_kv_list_loop rest (max_list_buffer_size - (2 + key_length + pad))
        (p ++ [key_length_le % 256, key_length_le / 256] ++ key.key.take key_length
          ++ List.replicate pad 0)
        (num_keys_written + 1)

/-- The function `nvme_build_kv_list_response` on the array `keys`, of which
it reads the first `num_keys`, and the block `list_buffer`. -/
def nvme_build_kv_list_response (h : NvmeHeader) (keys : List ObjectKey) (num_keys : Nat)
    (list_buffer : List Nat) (max_list_buffer_size : Nat) : ListResponse :=
  if max_list_buffer_size < 4 then ⟨h.NVME_CMD_SIZE_LIMIT, list_buffer, 0⟩
  else
    let r := build_kv_list_loop (keys.take num_keys) (max_list_buffer_size - 4) [] 0
    let len_le := r.2 % 2 ^ 32
    ⟨h.NVME_SUCCESS, memcpy list_buffer (le32_bytes len_le ++ r.1), 4 + r.1.length⟩

/-- The function `nvme_kv_list`: the new queues and the return value. -/
def nvme_kv_list (h : NvmeHeader) (n : NvmeCtrl) (req : NvmeRequest) (q : TaskQueues) :
    TaskQueues × Nat :=
  match nvme_kv_get_key req.cmd true with
  | none => (q, h.NVME_INVALID_KV_SIZE ||| h.NVME_DNR)
  | some (key, key_length) =>
    let max_len := req.host_buffer_size
    let status := n.map_dptr req max_len
    if status ≠ h.NVME_SUCCESS then (q, status ||| h.NVME_DNR)
    else
      ((kv_tasks_add_request_with_params q KV_TASK_LIST n.bus_num req.nsid req key key_length
          none 0 0 false false false 0 0 0 false false).1, h.NVME_NO_COMPLETE)

/-- The function `nvme_kv_exist`. -/
def nvme_kv_exist (h : NvmeHeader) (n : NvmeCtrl) (req : NvmeRequest) (q : TaskQueues) :
    TaskQueues × Nat :=
  match nvme_kv_get_key req.cmd false with
  | none => (q, h.NVME_INVALID_KV_SIZE ||| h.NVME_DNR)
  | some (key, key_length) =>
    ((kv_tasks_add_request_with_params q KV_TASK_EXISTS n.bus_num req.nsid req key key_length
        none 0 0 false false false 0 0 0 false false).1, h.NVME_NO_COMPLETE)

/-- The function `nvme_kv_delete`. -/
def nvme_kv_delete (h : NvmeHeader) (n : NvmeCtrl) (req : NvmeRequest) (q : TaskQueues) :
    TaskQueues × Nat :=
  match nvme_kv_get_key req.cmd false with
  | none => (q, h.NVME_INVALID_KV_SIZE ||| h.NVME_DNR)
  | some (key, key_length) =>
    ((kv_tasks_add_request_with_params q KV_TASK_DELETE n.bus_num req.nsid req key key_length
        none 0 0 false false false 0 0 0 false false).1, h.NVME_NO_COMPLETE)

/-- The function `nvme_kv_store`.  `store_options` is a `uint8_t`. -/
def nvme_kv_store (h : NvmeHeader) (n : NvmeCtrl) (req : NvmeRequest) (q : TaskQueues) :
    TaskQueues × Nat :=
  match nvme_kv_get_key req.cmd false with
  | none => (q, h.NVME_INVALID_KV_SIZE ||| h.NVME_DNR)
  | some (key, key_length) =>
    let store_options := h.NVME_KV_GET_CMD_OPTIONS req.cmd.key_length_and_options % 2 ^ 8
    let must_exist := h.NVME_STORE_CMD_OPTION_MUST_EXIST store_options
    let must_not_exist := h.NVME_STORE_CMD_OPTION_MUST_NOT_EXIST store_options
    let append := h.NVME_STORE_CMD_OPTION_APPEND store_options
    let value_size := req.host_buffer_size
    let status := n.map_dptr req value_size
    if status ≠ h.NVME_SUCCESS then (q, status ||| h.NVME_DNR)
    else
      let buffer := g_malloc0 value_size
      if buffer.isNone && decide (value_size ≠ 0) then (q, h.NVME_KV_ERROR ||| h.NVME_DNR)
      else
        let buffer := buffer.map (fun b => memcpy b ((n.read_data req value_size).1.take b.length))
        ((kv_tasks_add_request_with_params q KV_TASK_STORE n.bus_num req.nsid req key key_length
            buffer value_size 0 must_exist must_not_exist append 0 0 0 false false).1,
          h.NVME_NO_COMPLETE)

/-- The function `nvme_kv_retrieve`. -/
def nvme_kv_retrieve (h : NvmeHeader) (n : NvmeCtrl) (req : NvmeRequest) (q : TaskQueues) :
    TaskQueues × Nat :=
  match nvme_kv_get_key req.cmd false with
  | none => (q, h.NVME_INVALID_KV_SIZE ||| h.NVME_DNR)
  | some (key, key_length) =>
    let max_len := req.host_buffer_size
    let offset := req.read_offset
    let status := n.map_dptr req max_len
    if status ≠ h.NVME_SUCCESS then (q, status ||| h.NVME_DNR)
    else
      ((kv_tasks_add_request_with_params q KV_TASK_RETRIEVE n.bus_num req.nsid req key
          key_length none 0 max_len false false false offset 0 0 false false).1,
        h.NVME_NO_COMPLETE)

/-- The function `nvme_select_type_to_data_type`: the return value and
`*found`.  `select_type` is a `uint8_t`. -/
def nvme_select_type_to_data_type (h : NvmeHeader) (select_type : Nat) : Nat × Bool :=
  if select_type = h.NVME_SELECT_TYPE_CSV then (QUERY_TYPE_CSV, true)
  else if select_type = h.NVME_SELECT_TYPE_JSON then (QUERY_TYPE_JSON, true)
  else if select_type = h.NVME_SELECT_TYPE_PARQUET then (QUERY_TYPE_PARQUET, true)
  else (QUERY_TYPE_CSV, false)

/-- The function `nvme_kv_send_select`.  The block of `len + 1` zero bytes
receives the bytes read from the host and a zero byte at `bytes_read`. -/
def nvme_kv_send_select (h : NvmeHeader) (n : NvmeCtrl) (req : NvmeRequest) (q : TaskQueues) :
    TaskQueues × Nat :=
  match nvme_kv_get_key req.cmd false with
  | none => (q, h.NVME_INVALID_KV_SIZE ||| h.NVME_DNR)
  | some (key, key_length) =>
    let input_type := nvme_select_type_to_data_type h
      (h.NVME_SELECT_CMD_INPUT_TYPE req.cmd.key_length_and_options % 2 ^ 8)
    if !input_type.2 then (q, h.NVME_KV_INVALID_PARAMETER ||| h.NVME_DNR)
    else
      let output_type := nvme_select_type_to_data_type h
        (h.NVME_SELECT_CMD_OUTPUT_TYPE req.cmd.key_length_and_options % 2 ^ 8)
      if !output_type.2 then (q, h.NVME_KV_INVALID_PARAMETER ||| h.NVME_DNR)
      else
        let select_options := h.NVME_KV_GET_CMD_OPTIONS req.cmd.key_length_and_options % 2 ^ 8
        let use_csv_headers_input :=
          h.NVME_SELECT_CMD_OUTPUT_TYPE_USE_CSV_HEADERS_INPUT select_options
        let use_csv_headers_output :=
          h.NVME_SELECT_CMD_OUTPUT_TYPE_USE_CSV_HEADERS_OUTPUT select_options
        let len := req.host_buffer_size
        let status := n.map_dptr req len
        if status ≠ h.NVME_SUCCESS then (q, status ||| h.NVME_DNR)
        else
          match g_malloc0 (len + 1) with
          | none => (q, h.NVME_KV_ERROR ||| h.NVME_DNR)
          | some buffer =>
            let bytes_read := (n.read_data req len).2
            let buffer := (memcpy buffer ((n.read_data req len).1.take len)).set bytes_read 0
            ((kv_tasks_add_request_with_params q KV_TASK_SEND_SELECT n.bus_num req.nsid req key
                key_length (some buffer) (bytes_read + 1) 0 false false false 0 input_type.1
                output_type.1 use_csv_headers_input use_csv_headers_output).1,
              h.NVME_NO_COMPLETE)

/-- The call `nvme_kv_write_data(req, data, data_len)`: the bytes handed to
the scatter/gather helpers for the host buffer of the request. -/
def nvme_kv_write_data (data : Option (List Nat)) (data_len : Nat) : List Nat :=
  (data.getD []).take data_len

/-- What one pass of the loop of `nvme_kv_notifier` does to a request:
`req->status`, `req->cqe.result` as a number, and the bytes of the call of
`nvme_kv_write_data` (`none` when there was no call). -/
structure Completion where
  req : NvmeRequest
  status : Nat
  result : Nat
  written : Option (List Nat)
deriving DecidableEq, Repr

/-- The `switch (result->task_type)` of `nvme_kv_notifier`: the select cache
after it, `cqe_status`, `cqe_result` (a `uint32_t`) and the bytes written. -/
def nvme_kv_notifier_switch (h : NvmeHeader) (heap : Nat → Nat) (cache : SelectCache)
    (result : kv_task_result) : SelectCache × Nat × Nat × Option (List Nat) :=
  let kv := result.nvme_cmd
  if result.task_type = KV_TASK_STORE then
    if result.status < 0 then
      if result.status = KV_ERROR_FILE_NOT_FOUND then (cache, h.NVME_KV_NOT_FOUND, 0, none)
      else if result.status = KV_ERROR_FILE_EXISTS then (cache, h.NVME_KV_EXISTS, 0, none)
      else (cache, h.NVME_KV_ERROR, 0, none)
    else (cache, h.NVME_SUCCESS, 0, none)
  else if result.task_type = KV_TASK_DELETE then
    if result.status < 0 then
      if result.status = KV_ERROR_FILE_NOT_FOUND then (cache, h.NVME_KV_NOT_FOUND, 0, none)
      else (cache, h.NVME_KV_ERROR, 0, none)
    else (cache, h.NVME_SUCCESS, 0, none)
  else if result.task_type = KV_TASK_EXISTS then
    if result.status ≠ 1 then (cache, h.NVME_KV_NOT_FOUND, 0, none)
    else (cache, h.NVME_SUCCESS, 0, none)
  else if result.task_type = KV_TASK_RETRIEVE then
    if result.status < 0 then
      (cache, if result.status = KV_ERROR_CANNOT_OPEN then h.NVME_KV_NOT_FOUND
        else h.NVME_KV_ERROR, 0, none)
    else
      let len := kv.host_buffer_size
      (cache, h.NVME_SUCCESS, result.max_length % 2 ^ 32,
        some (nvme_kv_write_data result.result.as_bytes
          (if result.result_length < len then result.result_length else len)))
  else if result.task_type = KV_TASK_LIST then
    if result.status < 0 then (cache, h.NVME_KV_ERROR, 0, none)
    else
      let len := kv.host_buffer_size
      let keys := result.result.as_keys
      let num_keys := result.result_length
      match g_malloc heap len with
      | none => (cache, h.NVME_KV_ERROR, 0, none)
      | some list_buffer =>
        let r := nvme_build_kv_list_response h keys num_keys list_buffer len
        if r.status ≠ h.NVME_SUCCESS then (cache, r.status, 0, none)
        else
          (cache, h.NVME_SUCCESS, num_keys % 2 ^ 32,
            some (nvme_kv_write_data (some r.list_buffer)
              (if r.list_buffer_size < len then r.list_buffer_size else len)))
  else if result.task_type = KV_TASK_SEND_SELECT then
    if result.status ≠ 0 then (cache, h.NVME_KV_ERROR, 0, none)
    else
      let r := select_results_store cache result.result.as_bytes result.result_length
      (r.1, h.NVME_SUCCESS, r.2, none)
  else (cache, h.NVME_SUCCESS, 0, none)

/-- One pass of the loop of `nvme_kv_notifier`, for the result `result` taken
from the queue: the switch, then the marker `NVME_DNR` on every status other
than `NVME_SUCCESS`. -/
def nvme_kv_notifier_step (h : NvmeHeader) (heap : Nat → Nat) (cache : SelectCache)
    (result : kv_task_result) : SelectCache × Completion :=
  let r := nvme_kv_notifier_switch h heap cache result
  let cqe_status := r.2.1
  let cqe_status := if cqe_status ≠ h.NVME_SUCCESS then cqe_status ||| h.NVME_DNR else cqe_status
  (r.1, ⟨result.nvme_cmd, cqe_status, r.2.2.1, r.2.2.2⟩)

/-- The loop `while ((result = kv_tasks_get_next_result()))` of
`nvme_kv_notifier` over the results in the queue: the queues and the cache
after it and the completions posted, in order. -/
def nvme_kv_notifier_loop (h : NvmeHeader) (heap : Nat → Nat) :
    List kv_task_result → SelectCache → List Completion → SelectCache × List Completion
  | [], cache, done => (cache, done)
  | result :: rest, cache, done =>
    let r := nvme_kv_notifier_step h heap cache result
    nvme_kv_notifier_loop h heap rest r.1 (done ++ [r.2])

/-- The function `nvme_kv_notifier`: every result is taken from the queue. -/
def nvme_kv_notifier (h : NvmeHeader) (heap : Nat → Nat) (q : TaskQueues) (cache : SelectCache) :
    TaskQueues × SelectCache × List Completion :=
  ({ q with results := [] }, nvme_kv_notifier_loop h heap q.results cache [])

/-! ## The worker count of `kv_tasks_init` (`util/kv-tasks.c`) -/

/-- The macro `KV_TASK_NUM_THREADS`. -/
def KV_TASK_NUM_THREADS : Int := 5

/-- The value of the static `num_threads` when `kv_tasks_init` creates the
workers.  `num_threads_env` is the value `atoi` gives for the environment
variable `KV_NUM_THREADS`, `none` when `getenv` returns `NULL`; the static
starts at 0. -/
def kv_tasks_init (num_threads_env : Option Int) : Int :=
  let num_threads : Int :=
    match num_threads_env with
    | some v => v
    | none => 0
  if num_threads ≤ 0 ∨ num_threads > 1024 then KV_TASK_NUM_THREADS else num_threads

/-! ## `nvme_kv_retrieve_select` (`hw/nvme/ctrl_kv.c`) -/

/-- What `nvme_kv_retrieve_select` does to a request: the return value,
`req->cqe.result` when it is set, and the bytes of the call of
`nvme_kv_write_data` when there is one. -/
structure SelectReply where
  status : Nat
  result : Option Nat
  written : Option (List Nat)
deriving DecidableEq, Repr

/-- The flags `do_not_free` and `do_not_free_if_not_all_data_fetched` as
`nvme_kv_retrieve_select` decodes them: `select_options` is a `uint8_t`
initialised with the whole option/length word. -/
def retrieve_select_flags (h : NvmeHeader) (key_length_and_options : Nat) : Bool × Bool :=
  let select_options := key_length_and_options % 2 ^ 8
  (h.NVME_SELECT_CMD_OPTION_DO_NOT_FREE select_options,
    h.NVME_SELECT_CMD_OPTION_DO_NOT_FREE_IF_NOT_ALL_DATA_FETCHED select_options)

/-- The function `nvme_kv_retrieve_select`: the select cache after it and
what it does to the request. -/
def nvme_kv_retrieve_select (h : NvmeHeader) (n : NvmeCtrl) (req : NvmeRequest)
    (cache : SelectCache) : SelectCache × SelectReply :=
  let max_len := req.host_buffer_size
  let flags := retrieve_select_flags h req.cmd.key_length_and_options
  let do_not_free := flags.1
  let do_not_free_if_not_all_data_fetched := flags.2
  let offset := req.read_offset
  let select_id := req.select_id
  let r := select_results_retrieve cache select_id do_not_free
    do_not_free_if_not_all_data_fetched (max_len + offset)
  let results := r.2.data
  let results_len := r.2.data_len
  if !r.2.found then (r.1, ⟨h.NVME_KV_NOT_FOUND ||| h.NVME_DNR, none, none⟩)
  else
    let status := n.map_dptr req max_len
    if status ≠ h.NVME_SUCCESS then (r.1, ⟨status ||| h.NVME_DNR, none, none⟩)
    else
      let return_len := if results_len > offset then results_len - offset else 0
      let written :=
        if return_len ≠ 0 then
          some (nvme_kv_write_data (results.map (fun b => b.drop offset))
            (if return_len < max_len then return_len else max_len))
        else none
      (r.1, ⟨h.NVME_SUCCESS, some (results_len % 2 ^ 32), written⟩)

/-! ## Definitions used to state the properties -/

/-- The name component of the path of a key. -/
def path_name (key : List Nat) : List Char := if key.length ≠ 0 then hex key else []

/-- The entries of a namespace directory once `get_path_str` has made sure it
exists. -/
def dir_of (fs : FS) (bus ns : Nat) : List Entry := (fs.ns_dirs bus ns).getD fresh_dir

/-- The directory `store_object` leaves behind when it writes: the file is
created or truncated as `fopen` does, then the value is added at its end. -/
def dir_after_store (d0 : List Entry) (name : List Char) (value : List Nat) (append : Bool) :
    List Entry :=
  match find_entry d0 name with
  | none => set_data (d0 ++ [⟨name, DType.DT_REG, []⟩]) name (fun old => old ++ value)
  | some _ =>
    set_data (if append then d0 else set_data d0 name (fun _ => [])) name
      (fun old => old ++ value)

/-- A namespace holding one object: key `6B` (the byte 107) with three bytes. -/
def one_object_fs : FS :=
  (store_object empty_fs 1 1 [107] [10, 20, 30] false false false).1

/-- The test of the `readdir` loop that lets an entry into `dir_list`. -/
def selected ( prefix_hex_str : List Char) (key_prefix_len : Nat) (e : Entry) : Bool :=
  decide (e.d_type = DType.DT_REG) &&
    !(decide (key_prefix_len ≠ 0) && decide (strcmp e.d_name prefix_hex_str < 0))

/-- The names `list_objects` collects from a directory, in `readdir` order. -/
def collected_names (d : List Entry) ( key_prefix : List Nat) : List (List Char) :=
  (d.filter (selected (hex key_prefix) key_prefix.length)).map Entry.d_name

/-- The namespace of the unit test `test_string`: the eight keys of the test
stored in its order, each with its terminating zero byte. -/
def test_string_fs : FS :=
  (["key", "Gray", "Bob", "David", "Alice", "Edmond", "Fred", "Connor"].map
      (fun k => k.toList.map Char.toNat ++ [0])).foldl
    (fun fs k => (store_object fs 1 1 k [118] false false true).1) empty_fs

/-- A namespace holding 129 objects: the one-byte keys 0 to 128, each stored
by `store_object`. -/
def crowded_fs : FS :=
  (List.range 129).foldl (fun fs i => (store_object fs 1 1 [i] [] false false false).1)
    empty_fs

/-- The four bytes of a 32-bit word, most significant first. -/
def big_endian (w : Nat) : List Nat :=
  [w / 2 ^ 24 % 256, w / 2 ^ 16 % 256, w / 2 ^ 8 % 256, w % 256]

/-- The value of up to four bytes read as a big-endian 32-bit word, missing
bytes taken as zero. -/
def word_of_bytes (bs : List Nat) : Nat :=
  bs.getD 0 0 * 2 ^ 24 + bs.getD 1 0 * 2 ^ 16 + bs.getD 2 0 * 2 ^ 8 + bs.getD 3 0

/-- The layout the spec gives for a key in the submission entry: the key,
padded to 16 bytes, is the concatenation of `key_word_4`, `key_word_3`,
`key_word_2`, `key_word_1`, each big-endian; `key_length` sits in the low 8
bits of the option/length word, below the option bits. -/
def spec_pack_key (key : List Nat) (options : Nat) : NvmeKvCmd :=
  { key_length_and_options := options * 256 + key.length
    key_word_4 := word_of_bytes key
    key_word_3 := word_of_bytes (key.drop 4)
    key_word_2 := word_of_bytes (key.drop 8)
    key_word_1 := word_of_bytes (key.drop 12) }

/-- A namespace directory as the store itself produces it: no two entries
share a name, and every regular file carries a hex name. -/
@[reducible] def wf_dir (d : List Entry) : Prop :=
  (d.map Entry.d_name).Nodup ∧ ∀ e ∈ d, e.d_type = DType.DT_REG → is_hex_name e.d_name = true

/-! ## Definitions used to state the properties of the select result cache -/

/-- The slot filled by `select_results_store` when it was not in use. -/
def filled_entry (e : select_store_data_entry) (results : Option (List Nat))
    (results_len : Nat) : select_store_data_entry :=
  { e with in_use := true, data := results, data_len := results_len,
           id := (e.last_id + 32) % 2 ^ 32 }

/-- The slot reused by `select_results_store` when every slot was in use. -/
def evicted_entry (e : select_store_data_entry) (results : Option (List Nat))
    (results_len : Nat) : select_store_data_entry :=
  { e with data := results, data_len := results_len, id := (e.id + 32) % 2 ^ 32 }

/-- The slot cleared by a removing `select_results_retrieve`. -/
def removed_entry (e : select_store_data_entry) : select_store_data_entry :=
  { e with data_len := 0, data := none, last_id := e.id, id := 0, in_use := false }

/-- The generation of a slot: the id it holds while in use, otherwise the id
it held last. -/
def entry_gen (e : select_store_data_entry) : Nat :=
  if e.in_use then e.id else e.last_id

/-- What holds of slot `i` in every reachable state. -/
def SlotInv (i : Nat) (e : select_store_data_entry) : Prop :=
  e.last_id % 32 = i ∧ e.last_id < 2 ^ 32 ∧ e.id < 2 ^ 32 ∧
  (e.in_use = true → e.id % 32 = i) ∧
  (e.in_use = false → e.id = 0 ∧ e.data = none ∧ e.data_len = 0) ∧
  (∀ b, e.data = some b → b.length = e.data_len)

/-- What holds of every reachable state and the ids issued on the way to it. -/
def CacheInv (st : SelectCache) (issued : List Nat) : Prop :=
  st.next_id < 32 ∧
  (∀ i < 32, SlotInv i (st.data_cache i)) ∧
  (∀ i < 32, entry_gen (st.data_cache i) = i ∨ entry_gen (st.data_cache i) ∈ issued) ∧
  ((∀ h ∈ issued, h + 32 < 2 ^ 32) → ∀ h ∈ issued, h ≤ entry_gen (st.data_cache (h % 32)))

/-- One call applied to the cache, the ids set aside. -/
def cache_apply (st : SelectCache) (op : CacheOp) : SelectCache :=
  (cache_step (st, []) op).1

/-- No store among the calls `ops`, run from `st`, takes slot `j`: every id
such a store returns belongs to another slot. -/
def no_reuse (j : Nat) : SelectCache → List CacheOp → Prop
  | _, [] => True
  | st, op :: rest =>
    (match op with
      | CacheOp.store results results_len =>
        (select_results_store st results results_len).2 % 32 ≠ j
      | CacheOp.retrieve _ _ _ _ => True) ∧
    no_reuse j (cache_apply st op) rest

/-- The first `k` stores of a run of stores on the initial state, with the
buffers `bufs 0`, `bufs 1`, ... of sizes `lens 0`, `lens 1`, ... -/
def fresh_stores (bufs : Nat → Option (List Nat)) (lens : Nat → Nat) (k : Nat) : List CacheOp :=
  (List.range k).map (fun t => CacheOp.store (bufs t) (lens t))

/-- The calls of the counterexample to C18: 32 stores, then twice a removing
retrieve of the id in slot 0 followed by a store. -/
def uneven_ops : List CacheOp :=
  fresh_stores (fun t => some [t]) (fun _ => 1) 32 ++
    [CacheOp.retrieve 32 false false 0, CacheOp.store (some [1]) 1,
     CacheOp.retrieve 64 false false 0, CacheOp.store (some [2]) 1]

/-- The cache after one store of the three bytes 1, 2, 3 on the initial state
(the scenario of the unit test `test_select_store_simple`, shortened). -/
def one_store_cache : SelectCache :=
  (cache_run [CacheOp.store (some [1, 2, 3]) 3]).1

/-- The cache after 32 stores on the initial state: every slot is in use. -/
def full_cache : SelectCache :=
  (cache_run (fresh_stores (fun t => some [t]) (fun _ => 1) 32)).1

/-- The ids issued by the 32 stores that lead to `full_cache`. -/
def full_issued : List Nat :=
  (cache_run (fresh_stores (fun t => some [t]) (fun _ => 1) 32)).2

/-! ## Definitions used to state the properties of the handlers and the notifier -/

/-- A header for the worked cases: the values of QEMU for `NVME_SUCCESS`,
`NVME_DNR`, `NVME_NO_COMPLETE` and `NVME_CMD_SIZE_LIMIT`, stand-ins for the
key-value codes and for the option macros.  The theorems hold for every
header. -/
def sample_header : NvmeHeader :=
  { NVME_SUCCESS := 0x0000, NVME_DNR := 0x4000, NVME_NO_COMPLETE := 0xffff,
    NVME_CMD_SIZE_LIMIT := 0x0183, NVME_KV_NOT_FOUND := 0x0187, NVME_KV_EXISTS := 0x0189,
    NVME_KV_ERROR := 0x0188, NVME_INVALID_KV_SIZE := 0x0186,
    NVME_KV_INVALID_PARAMETER := 0x018a,
    NVME_KV_GET_CMD_OPTIONS := fun x => (x >>> 8) &&& 0xFF,
    NVME_STORE_CMD_OPTION_MUST_EXIST := fun o => decide (o &&& 1 ≠ 0),
    NVME_STORE_CMD_OPTION_MUST_NOT_EXIST := fun o => decide (o &&& 2 ≠ 0),
    NVME_STORE_CMD_OPTION_APPEND := fun o => decide (o &&& 4 ≠ 0),
    NVME_SELECT_CMD_INPUT_TYPE := fun x => (x >>> 8) &&& 3,
    NVME_SELECT_CMD_OUTPUT_TYPE := fun x => (x >>> 10) &&& 3,
    NVME_SELECT_TYPE_CSV := 0, NVME_SELECT_TYPE_JSON := 1, NVME_SELECT_TYPE_PARQUET := 2,
    NVME_SELECT_CMD_OUTPUT_TYPE_USE_CSV_HEADERS_INPUT := fun o => decide (o &&& 16 ≠ 0),
    NVME_SELECT_CMD_OUTPUT_TYPE_USE_CSV_HEADERS_OUTPUT := fun o => decide (o &&& 32 ≠ 0),
    NVME_SELECT_CMD_OPTION_DO_NOT_FREE := fun o => decide (o &&& 1 ≠ 0),
    NVME_SELECT_CMD_OPTION_DO_NOT_FREE_IF_NOT_ALL_DATA_FETCHED := fun o => decide (o &&& 2 ≠ 0) }

/-- A controller on bus 1 whose `nvme_map_dptr` succeeds (under
`sample_header`) and whose host buffers hold no data. -/
def sample_ctrl : NvmeCtrl := ⟨1, fun _ _ => 0, fun _ _ => ([], 0)⟩

/-- A request of namespace 1 for the one-byte key `6B` with the given
`host_buffer_size` and `read_offset`. -/
def sample_request (host_buffer_size read_offset : Nat) : NvmeRequest :=
  ⟨⟨1, 0, 0, 0, 0x6B000000⟩, 1, host_buffer_size, read_offset, 0⟩

/-- A query engine for the worked cases: every query fails. -/
def no_query (fs : FS) (_ : kv_task_request) : FS × QueryResult := (fs, ⟨-1, 0, none⟩)

/-- The padding after a key in the list response. -/
def list_pad (key : ObjectKey) : Nat := (4 - key.key_len % 4) % 4

/-- One entry of the list response as the spec words it: the key length in
two bytes, lowest first, the key bytes, and zero bytes up to a multiple of 4. -/
def list_entry (key : ObjectKey) : List Nat :=
  [key.key_len % 256, key.key_len / 256 % 256] ++ key.key ++ List.replicate (list_pad key) 0

/-- The entries of a list of keys, one after the other. -/
def list_entries (keys : List ObjectKey) : List Nat :=
  (keys.map list_entry).flatten

/-- The opcodes whose handlers decode a key. -/
inductive KvOpcode where
  | list
  | exist
  | delete
  | store
  | retrieve
  | send_select
deriving DecidableEq, Repr

/-- The handler `nvme_kv_process` calls for an opcode. -/
def kv_key_handler (h : NvmeHeader) (n : NvmeCtrl) :
    KvOpcode → NvmeRequest → TaskQueues → TaskQueues × Nat
  | KvOpcode.list => nvme_kv_list h n
  | KvOpcode.exist => nvme_kv_exist h n
  | KvOpcode.delete => nvme_kv_delete h n
  | KvOpcode.store => nvme_kv_store h n
  | KvOpcode.retrieve => nvme_kv_retrieve h n
  | KvOpcode.send_select => nvme_kv_send_select h n

/-- A command from submission to completion on empty queues: the handler,
one pass of a worker, and the notifier.  The result is the return value of
the handler and the completions posted; `none` when a callee of the worker
left a block. -/
def run_command (h : NvmeHeader) (heap : Nat → Nat)
    (run_query : FS → kv_task_request → FS × QueryResult) (n : NvmeCtrl) (op : KvOpcode)
    (fs : FS) (cache : SelectCache) (req : NvmeRequest) : Option (Nat × List Completion) :=
  let r := kv_key_handler h n op req ⟨[], []⟩
  match kv_tasks_run_thread heap run_query fs r.1 with
  | none => none
  | some (_, q) => some (r.2, (nvme_kv_notifier h heap q cache).2.2)

/-- A LIST result as a worker hands it over: status 0 and the keys found. -/
def list_result (req : NvmeRequest) (objects : List ObjectKey) : kv_task_result :=
  ⟨KV_TASK_LIST, req, 0, ResultData.keys objects, objects.length, 0⟩

/-! ## Definitions used to state the properties of the workers and the cache slots -/

/-- The key of a RETRIEVE request as the handlers enqueue it: the array of 16
bytes holding the one-byte key `6B`. -/
def sample_key_array : List Nat := [107, 0, 0, 0, 0, 0, 0, 0, 0, 0, 0, 0, 0, 0, 0, 0]

/-- A RETRIEVE request for the one-byte key `6B` on bus 1, namespace 1. -/
def sample_retrieve (max_length offset : Nat) : kv_task_request :=
  { task_type := KV_TASK_RETRIEVE, bus_number := 1, namespace_id := 1,
    nvme_cmd := sample_request max_length offset, key := sample_key_array, key_length := 1,
    data := none, data_length := 0, max_length := max_length, must_exist := false,
    must_not_exist := false, append := false, offset := offset, select_input_type := 0,
    select_output_type := 0, use_csv_headers_input := false, use_csv_headers_output := false }

/-- A scan state with 128 names collected in an array of 128 slots. -/
def full_scan_state : ScanState :=
  ⟨(List.range 128).map (fun i => hex [i]), 128⟩

/-- What the slots satisfy besides `CacheInv`: the id a slot held last is its
index or an issued id, and a slot in use holds an issued id that, as long as
no issued id is within 32 of the end of the 32-bit range, exceeds `last_id`
by at least 32. -/
def OrderInv (st : SelectCache) (issued : List Nat) : Prop :=
  ∀ i < 32,
    ((st.data_cache i).last_id = i ∨ (st.data_cache i).last_id ∈ issued) ∧
    ((st.data_cache i).in_use = true →
      (st.data_cache i).id ∈ issued ∧
      ((∀ h ∈ issued, h + 32 < 2 ^ 32) →
        (st.data_cache i).last_id + 32 ≤ (st.data_cache i).id))

/-! ## Definitions used to state the properties of the worker pool -/

/-- The text of an optional piece of the command, empty when there is none. -/
def piece_text (piece : Option (List Char × Nat)) : List Char :=
  match piece with
  | none => []
  | some (s, _) => s

/-- The state of the construction after the text `p`: `pos` is behind `p`,
and the array holds `p` followed by at most `k` further chars. -/
def Tidy (k : Nat) (st : List Char × Nat) (p : List Char) : Prop :=
  st.2 = p.length ∧ ∃ t, st.1 = p ++ t ∧ t.length ≤ k

/-- The sql text of the unit tests, with a clause and a semicolon. -/
def sample_sql : List Char := "select * from s3object limit 1;".toList

/-- An sql text with a tab behind the table name. -/
def tab_sql : List Char := "select * from t".toList ++ [Char.ofNat 9] ++ "where a = 1".toList

/-- The path of the object `6B` of bus 1, namespace 1 under the base
directory `.`. -/
def sample_path : List Char := "./1/1/6B".toList

/-! ## Lemmas on names -/

theorem hex_length (key : List Nat) : (hex key).length = 2 * key.length := by
  induction key with
  | nil => rfl
  | cons c rest ih => simp [hex, ih]; omega

theorem hexout_getD_mem (i : Nat) : hexout.getD i '0' ∈ hexout := by
  by_cases h : i < 16
  · interval_cases i <;> decide
  · have : hexout.length ≤ i := by simp [hexout]; omega
    rw [List.getD_eq_default _ _ this]; decide

theorem hex_mem_hexout (key : List Nat) : ∀ c ∈ hex key, c ∈ hexout := by
  induction key with
  | nil => simp [hex]
  | cons c rest ih =>
    intro x hx
    simp only [hex, List.mem_cons] at hx
    rcases hx with rfl | rfl | hx
    · exact hexout_getD_mem _
    · exact hexout_getD_mem _
    · exact ih x hx

theorem decode_name_cons (a b : Char) (rest : List Char) :
    decode_name (a :: b :: rest) =
      ⟨(hex_str_to_uchar a * 16 + hex_str_to_uchar b) % 256 :: (decode_name rest).key,
        (decode_name rest).key_len + 1⟩ := by
  have hlen : (a :: b :: rest).length / 2 = rest.length / 2 + 1 := by
    simp only [List.length_cons]; omega
  simp only [decode_name, hlen, List.range_succ_eq_map, List.map_cons, List.map_map]
  congr 2
  apply List.map_congr_left
  intro j _
  have e1 : (j + 1) * 2 = (j * 2 + 1) + 1 := by ring
  have e2 : (j + 1) * 2 + 1 = (j * 2 + 1 + 1) + 1 := by ring
  simp only [Function.comp, Nat.succ_eq_add_one, e1, e2, List.getD_cons_succ]

set_option maxRecDepth 100000 in
theorem byte_roundtrip : ∀ c, c < 256 →
    (hex_str_to_uchar (hexout.getD (c >>> 4) '0') * 16
      + hex_str_to_uchar (hexout.getD (c &&& 0xF) '0')) % 256 = c := by
  decide

theorem decode_name_hex (key : List Nat) (hb : ∀ b ∈ key, b < 256) :
    decode_name (hex key) = ⟨key, key.length⟩ := by
  induction key with
  | nil => rfl
  | cons c rest ih =>
    have hc : c < 256 := hb c (List.mem_cons_self _ _)
    have hr : ∀ b ∈ rest, b < 256 := fun b h => hb b (List.mem_cons_of_mem _ h)
    rw [hex, decode_name_cons, ih hr, byte_roundtrip c hc]
    rfl

set_option maxRecDepth 100000 in
theorem char_roundtrip : ∀ a ∈ hexout, ∀ b ∈ hexout,
    hexout.getD (((hex_str_to_uchar a * 16 + hex_str_to_uchar b) % 256) >>> 4) '0' = a ∧
    hexout.getD (((hex_str_to_uchar a * 16 + hex_str_to_uchar b) % 256) &&& 0xF) '0' = b := by
  decide

theorem hex_decode_name (name : List Char) (h : is_hex_name name = true) :
    hex (decode_name name).key = name := by
  induction name using is_hex_name.induct with
  | case1 => rfl
  | case2 c => simp [is_hex_name] at h
  | case3 a b rest ih =>
    simp only [is_hex_name, Bool.and_eq_true, decide_eq_true_eq] at h
    obtain ⟨⟨ha, hb⟩, hr⟩ := h
    rw [decode_name_cons]
    simp only [hex]
    rw [(char_roundtrip a ha b hb).1, (char_roundtrip a ha b hb).2, ih hr]

/-! ## Lemmas on the file system -/

theorem get_path_str_snd (fs : FS) (b n : Nat) (key : List Nat) (c : Bool) :
    (get_path_str fs b n key c).2 = ⟨b, n, path_name key⟩ := rfl

theorem get_path_str_false (fs : FS) (b n : Nat) (key : List Nat) :
    (get_path_str fs b n key false).1 = fs := rfl

theorem get_path_str_max_offset (fs : FS) (b n : Nat) (key : List Nat) (c : Bool) :
    (get_path_str fs b n key c).1.max_offset = fs.max_offset := by
  cases c
  · rfl
  · simp only [get_path_str, mkdir_base, mkdir_bus, mkdir_ns, set_dir, if_true]
    split <;> rfl

theorem get_path_str_ns_same (fs : FS) (b n : Nat) (key : List Nat) :
    (get_path_str fs b n key true).1.ns_dirs b n = some (dir_of fs b n) := by
  simp only [get_path_str, mkdir_base, mkdir_bus, mkdir_ns, set_dir, dir_of, if_true]
  cases h : fs.ns_dirs b n <;> simp [h]

theorem get_path_str_ns_other (fs : FS) (b n : Nat) (key : List Nat) (b1 n1 : Nat)
    (h : ¬ (b1 = b ∧ n1 = n)) :
    (get_path_str fs b n key true).1.ns_dirs b1 n1 = fs.ns_dirs b1 n1 := by
  simp only [get_path_str, mkdir_base, mkdir_bus, mkdir_ns, set_dir, if_true]
  cases h1 : fs.ns_dirs b n <;> simp [h1, h]

theorem find_entry_set_data (d : List Entry) (name : List Char) (f : List Nat → List Nat)
    (name1 : List Char) :
    find_entry (set_data d name f) name1 =
      (find_entry d name1).map
        (fun e => if e.d_name = name then { e with data := f e.data } else e) := by
  unfold find_entry set_data
  rw [List.find?_map]
  congr 2
  funext e
  simp only [Function.comp]
  split <;> rfl

theorem find_entry_append (d : List Entry) (x : Entry) (name : List Char) :
    find_entry (d ++ [x]) name =
      match find_entry d name with
      | some e => some e
      | none => if x.d_name = name then some x else none := by
  induction d with
  | nil => simp [find_entry, List.find?_cons]; split <;> simp_all
  | cons e rest ih =>
    simp only [find_entry, List.cons_append, List.find?_cons] at ih ⊢
    by_cases h1 : e.d_name = name <;> simp [h1, ih]

theorem find_entry_filter (d : List Entry) (name name1 : List Char) :
    find_entry (d.filter (fun x => decide (x.d_name ≠ name))) name1 =
      if name1 = name then none else find_entry d name1 := by
  unfold find_entry
  rw [List.find?_filter]
  by_cases h : name1 = name
  · subst h
    simp [List.find?_eq_none]
  · simp only [h, if_false]
    congr 1
    funext a
    by_cases h3 : a.d_name = name1
    · have : ¬ a.d_name = name := fun h4 => h (h3.symm.trans h4)
      simp [h3, h]
    · simp [h3]

theorem find_entry_name (d : List Entry) (name : List Char) (e : Entry)
    (h : find_entry d name = some e) : e.d_name = name := by
  have := List.find?_some h
  simpa using this

theorem hex_ne_nil_head (c : Nat) (rest : List Nat) :
    ∃ x y t, hex (c :: rest) = x :: y :: t ∧ x ∈ hexout :=
  ⟨_, _, _, rfl, hexout_getD_mem _⟩

theorem find_entry_fresh_dir (key : List Nat) : find_entry fresh_dir (path_name key) = none := by
  cases key with
  | nil => simp [path_name, find_entry, fresh_dir]
  | cons c rest =>
    obtain ⟨x, y, t, hxy, hx⟩ := hex_ne_nil_head c rest
    have hne : x ≠ '.' := by
      intro h
      rw [h] at hx
      revert hx
      decide
    have hne1 : ¬ '.' = x := fun h => hne h.symm
    simp [path_name, hxy, find_entry, fresh_dir, hne1]

theorem lookup_eq_find (fs : FS) (b n : Nat) (key : List Nat) :
    lookup fs ⟨b, n, path_name key⟩ = find_entry (dir_of fs b n) (path_name key) := by
  unfold lookup dir_of
  cases h : fs.ns_dirs b n with
  | none => simp [find_entry_fresh_dir]
  | some d => simp

theorem lookup_set_dir (fs : FS) (b n : Nat) (d : List Entry) (p : Path) :
    lookup (set_dir fs b n d) p =
      if p.bus = b ∧ p.ns = n then find_entry d p.name else lookup fs p := by
  unfold lookup set_dir
  by_cases h : p.bus = b ∧ p.ns = n <;> simp [h]

theorem lookup_get_path_str (fs : FS) (b n : Nat) (key : List Nat) (b1 n1 : Nat)
    (k1 : List Nat) :
    lookup (get_path_str fs b n key true).1 ⟨b1, n1, path_name k1⟩ =
      lookup fs ⟨b1, n1, path_name k1⟩ := by
  by_cases h : b1 = b ∧ n1 = n
  · obtain ⟨rfl, rfl⟩ := h
    rw [lookup_eq_find fs]
    simp only [lookup, get_path_str_ns_same]
  · simp only [lookup, get_path_str_ns_other fs b n key b1 n1 h]

theorem set_dir_ns_same (fs : FS) (b n : Nat) (d : List Entry) :
    (set_dir fs b n d).ns_dirs b n = some d := by
  simp [set_dir]

theorem set_dir_ns_other (fs : FS) (b n : Nat) (d : List Entry) (b1 n1 : Nat)
    (h : ¬ (b1 = b ∧ n1 = n)) : (set_dir fs b n d).ns_dirs b1 n1 = fs.ns_dirs b1 n1 := by
  simp [set_dir, h]

theorem store_object_cases (fs : FS) (b n : Nat) (key value : List Nat)
    (append me mne : Bool) (hf : (me && mne) = false) :
    (∀ b1 n1, ¬ (b1 = b ∧ n1 = n) →
      (store_object fs b n key value append me mne).1.ns_dirs b1 n1 = fs.ns_dirs b1 n1) ∧
    ((store_object fs b n key value append me mne).2 = (value.length : Int) ∧
      (store_object fs b n key value append me mne).1.ns_dirs b n =
        some (dir_after_store (dir_of fs b n) (path_name key) value append) ∧
      ((lookup fs ⟨b, n, path_name key⟩ = none ∧ me = false) ∨
        (∃ e, lookup fs ⟨b, n, path_name key⟩ = some e ∧ e.d_type = DType.DT_REG ∧
          mne = false)) ∨
     (store_object fs b n key value append me mne).2 < 0 ∧
      (store_object fs b n key value append me mne).1.ns_dirs b n = some (dir_of fs b n) ∧
      ((lookup fs ⟨b, n, path_name key⟩ = none ∧ me = true ∧
          (store_object fs b n key value append me mne).2 = KV_ERROR_FILE_NOT_FOUND) ∨
        (∃ e, lookup fs ⟨b, n, path_name key⟩ = some e ∧ mne = true ∧
          (store_object fs b n key value append me mne).2 = KV_ERROR_FILE_EXISTS) ∨
        (∃ e, lookup fs ⟨b, n, path_name key⟩ = some e ∧ mne = false ∧
          e.d_type ≠ DType.DT_REG ∧
          (store_object fs b n key value append me mne).2 = KV_ERROR_CANNOT_OPEN))) := by
  have e1 : get_path_str fs b n key true =
      ((get_path_str fs b n key true).1, ⟨b, n, path_name key⟩) := rfl
  have hsame := get_path_str_ns_same fs b n key
  have hother := get_path_str_ns_other fs b n key
  have hl := lookup_eq_find fs b n key
  generalize (get_path_str fs b n key true).1 = fs1 at e1 hsame hother
  rw [hl]
  unfold store_object
  rw [e1]
  simp only [hf, access, lookup, hsame, fopen_write, fwrite, Bool.false_eq_true, if_false]
  have hfr : ∀ (g : FS), (∀ b1 n1, ¬ (b1 = b ∧ n1 = n) → g.ns_dirs b1 n1 = fs1.ns_dirs b1 n1) →
      ∀ b1 n1, (b1 = b → ¬ n1 = n) → g.ns_dirs b1 n1 = fs.ns_dirs b1 n1 := by
    intro g hg b1 n1 h
    have h1 : ¬ (b1 = b ∧ n1 = n) := by tauto
    rw [hg b1 n1 h1, hother b1 n1 h1]
  cases hfind : find_entry (dir_of fs b n) (path_name key) with
  | none =>
    cases me with
    | true =>
      simp [hsame, KV_ERROR_FILE_NOT_FOUND]
      exact hfr fs1 (fun _ _ _ => rfl)
    | false =>
      simp [set_dir_ns_same, dir_after_store, hfind]
      apply hfr
      intro b1 n1 h1
      rw [set_dir_ns_other _ _ _ _ _ _ h1, set_dir_ns_other _ _ _ _ _ _ h1]
  | some e =>
    cases mne with
    | true =>
      simp [hsame, KV_ERROR_FILE_EXISTS]
      exact hfr fs1 (fun _ _ _ => rfl)
    | false =>
      by_cases hreg : e.d_type = DType.DT_REG
      · cases append with
        | true =>
          simp [hreg, hsame, set_dir_ns_same, dir_after_store, hfind]
          apply hfr
          intro b1 n1 h1
          rw [set_dir_ns_other _ _ _ _ _ _ h1]
        | false =>
          simp [hreg, set_dir_ns_same, dir_after_store, hfind]
          apply hfr
          intro b1 n1 h1
          rw [set_dir_ns_other _ _ _ _ _ _ h1, set_dir_ns_other _ _ _ _ _ _ h1]
      · simp [hreg, hsame, KV_ERROR_CANNOT_OPEN]
        exact hfr fs1 (fun _ _ _ => rfl)

theorem path_name_eq_hex (key : List Nat) : path_name key = hex key := by
  cases key <;> simp [path_name, hex]

theorem lookup_of_ns (fs : FS) (b n : Nat) (name : List Char) (d : List Entry)
    (h : fs.ns_dirs b n = some d) : lookup fs ⟨b, n, name⟩ = find_entry d name := by
  simp [lookup, h]

theorem find_dir_after_store_same (d0 : List Entry) (name : List Char) (value : List Nat)
    (append : Bool) :
    find_entry (dir_after_store d0 name value append) name =
      match find_entry d0 name with
      | none => some ⟨name, DType.DT_REG, value⟩
      | some e => some ⟨name, e.d_type, (if append then e.data else []) ++ value⟩ := by
  unfold dir_after_store
  cases h : find_entry d0 name with
  | none => simp [find_entry_set_data, find_entry_append, h]
  | some e =>
    have hn := find_entry_name d0 name e h
    cases append <;> simp [find_entry_set_data, h, hn]

theorem find_dir_after_store_other (d0 : List Entry) (name : List Char) (value : List Nat)
    (append : Bool) (name1 : List Char) (hne : name1 ≠ name) :
    find_entry (dir_after_store d0 name value append) name1 = find_entry d0 name1 := by
  have key : ∀ (d : List Entry) (f : List Nat → List Nat),
      find_entry (set_data d name f) name1 = find_entry d name1 := by
    intro d f
    rw [find_entry_set_data]
    cases h : find_entry d name1 with
    | none => rfl
    | some e =>
      have hn := find_entry_name d name1 e h
      have : ¬ e.d_name = name := fun h2 => hne (hn.symm.trans h2)
      simp [this]
  unfold dir_after_store
  cases h : find_entry d0 name with
  | none =>
    simp only [key, find_entry_append]
    have : ¬ name = name1 := fun h2 => hne h2.symm
    cases find_entry d0 name1 <;> simp [this]
  | some e => cases append <;> simp [key]

theorem read_object_snd (fs : FS) (b n : Nat) (key : List Nat) (offset max_buffer_len : Nat) :
    (read_object fs b n key offset max_buffer_len).2 =
      match lookup fs ⟨b, n, path_name key⟩ with
      | none => ⟨KV_ERROR_CANNOT_OPEN, [], none⟩
      | some e =>
        if fseek_set fs.max_offset e (size_t_to_long offset) ≠ 0 then
          ⟨KV_ERROR_FILE_OFFSET, [], some e.data.length⟩
        else
          ⟨((fread e (size_t_to_long offset).toNat max_buffer_len).length : Int),
            fread e (size_t_to_long offset).toNat max_buffer_len, some e.data.length⟩ := by
  have e1 : get_path_str fs b n key true =
      ((get_path_str fs b n key true).1, ⟨b, n, path_name key⟩) := rfl
  have hl := lookup_get_path_str fs b n key b n key
  have hm := get_path_str_max_offset fs b n key true
  generalize (get_path_str fs b n key true).1 = fs1 at e1 hl hm
  unfold read_object
  rw [e1]
  simp only [hl, hm]
  cases lookup fs ⟨b, n, path_name key⟩ with
  | none => rfl
  | some e => simp only []; split <;> rfl

@[simp] theorem fseek_set_zero (max_offset : Nat) (e : Entry) :
    fseek_set max_offset e 0 = 0 := by
  simp [fseek_set]

/-- The seek of `read_object` succeeds for an offset below `2 ^ 63` that lies
inside the file or is at most the largest offset of the file system. -/
theorem fseek_set_accepts (max_offset : Nat) (e : Entry) (offset : Nat) (h63 : offset < 2 ^ 63)
    (h : offset ≤ e.data.length ∨ offset ≤ max_offset) :
    fseek_set max_offset e (size_t_to_long offset) = 0 ∧
    (size_t_to_long offset).toNat = offset := by
  have h1 : size_t_to_long offset = (offset : Int) := by
    unfold size_t_to_long
    split <;> omega
  rw [h1]
  refine ⟨?_, Int.toNat_ofNat offset⟩
  unfold fseek_set
  rw [if_neg (by omega), Int.toNat_ofNat, if_pos h]

/-- The seek of `read_object` fails for an offset that is negative as a
`long`, and for one behind the end of the file and above the largest offset of
the file system. -/
theorem fseek_set_rejects (max_offset : Nat) (e : Entry) (offset : Nat) (h64 : offset < 2 ^ 64)
    (h : 2 ^ 63 ≤ offset ∨ (e.data.length < offset ∧ max_offset < offset)) :
    fseek_set max_offset e (size_t_to_long offset) ≠ 0 := by
  by_cases h63 : 2 ^ 63 ≤ offset
  · have h1 : size_t_to_long offset < 0 := by
      unfold size_t_to_long
      split <;> omega
    unfold fseek_set
    rw [if_pos h1]
    decide
  · have h1 : size_t_to_long offset = (offset : Int) := by
      unfold size_t_to_long
      split <;> omega
    have h2 : e.data.length < offset ∧ max_offset < offset := by
      rcases h with h | h
      · exact absurd h h63
      · exact h
    rw [h1]
    unfold fseek_set
    rw [if_neg (by omega), Int.toNat_ofNat, if_neg (by omega)]
    decide

theorem size_t_to_long_small (x : Nat) (h : x < 2 ^ 63) : size_t_to_long x = (x : Int) := by
  unfold size_t_to_long
  split <;> omega

theorem size_t_to_long_large (x : Nat) (h1 : 2 ^ 63 ≤ x) (h2 : x < 2 ^ 64) :
    size_t_to_long x < 0 := by
  unfold size_t_to_long
  split <;> omega

/-- What `store_object` guarantees when it does not fail: it returned the
number of bytes of the value, and the path now names a file that holds the
value, after the old bytes when appending to a regular file. -/
theorem store_object_nonneg (fs : FS) (b n : Nat) (key value : List Nat)
    (append me mne : Bool) (hs : 0 ≤ (store_object fs b n key value append me mne).2) :
    (store_object fs b n key value append me mne).2 = (value.length : Int) ∧
    ((lookup fs ⟨b, n, path_name key⟩ = none ∧
        lookup (store_object fs b n key value append me mne).1 ⟨b, n, path_name key⟩ =
          some ⟨path_name key, DType.DT_REG, value⟩) ∨
      (∃ e, lookup fs ⟨b, n, path_name key⟩ = some e ∧ e.d_type = DType.DT_REG ∧
        lookup (store_object fs b n key value append me mne).1 ⟨b, n, path_name key⟩ =
          some ⟨path_name key, DType.DT_REG, (if append then e.data else []) ++ value⟩)) := by
  have hf : (me && mne) = false := by
    cases hb : (me && mne) with
    | false => rfl
    | true =>
      exfalso
      simp [store_object, hb, KV_ERROR_INVALID_PARAMETER] at hs
  obtain ⟨_, hc⟩ := store_object_cases fs b n key value append me mne hf
  rcases hc with ⟨hr, hd, hl⟩ | ⟨hneg, _⟩
  · refine ⟨hr, ?_⟩
    have hfind := lookup_eq_find fs b n key
    rcases hl with ⟨hnone, _⟩ | ⟨e, hsome, hreg, _⟩
    · left
      refine ⟨hnone, ?_⟩
      rw [lookup_of_ns _ _ _ _ _ hd, find_dir_after_store_same]
      rw [hfind] at hnone
      simp [hnone]
    · right
      refine ⟨e, hsome, hreg, ?_⟩
      rw [lookup_of_ns _ _ _ _ _ hd, find_dir_after_store_same]
      rw [hfind] at hsome
      simp [hsome, hreg]
  · omega

theorem object_data_some (fs : FS) (b n : Nat) (key c : List Nat)
    (h : object_data fs b n key = some c) :
    ∃ e, lookup fs ⟨b, n, path_name key⟩ = some e ∧ e.d_type = DType.DT_REG ∧ e.data = c := by
  unfold object_data at h
  rw [path_name_eq_hex]
  cases hl : lookup fs ⟨b, n, hex key⟩ with
  | none => simp [hl] at h
  | some e =>
    simp only [hl] at h
    by_cases hreg : e.d_type = DType.DT_REG
    · simp only [hreg, if_true, Option.some.injEq] at h
      exact ⟨e, rfl, hreg, h⟩
    · simp [hreg] at h

theorem lookup_frame (fs g : FS) (b n : Nat)
    (hsame : g.ns_dirs b n = some (dir_of fs b n))
    (hother : ∀ b1 n1, ¬ (b1 = b ∧ n1 = n) → g.ns_dirs b1 n1 = fs.ns_dirs b1 n1)
    (b1 n1 : Nat) (k1 : List Nat) :
    lookup g ⟨b1, n1, path_name k1⟩ = lookup fs ⟨b1, n1, path_name k1⟩ := by
  by_cases h : b1 = b ∧ n1 = n
  · obtain ⟨rfl, rfl⟩ := h
    rw [lookup_eq_find fs, lookup_of_ns _ _ _ _ _ hsame]
  · simp only [lookup, hother b1 n1 h]

theorem object_data_congr (fs g : FS) (b n : Nat) (key : List Nat)
    (h : lookup g ⟨b, n, path_name key⟩ = lookup fs ⟨b, n, path_name key⟩) :
    object_data g b n key = object_data fs b n key := by
  unfold object_data
  rw [← path_name_eq_hex, h]

theorem file_exist_zero (fs : FS) (b n : Nat) (key : List Nat) :
    (file_exist fs b n key).2 = 0 ↔ lookup fs ⟨b, n, path_name key⟩ = none := by
  simp only [file_exist, get_path_str_false, get_path_str_snd, access]
  by_cases h : (lookup fs ⟨b, n, path_name key⟩).isSome = true
  · have h2 : lookup fs ⟨b, n, path_name key⟩ ≠ none := by
      intro h3; rw [h3] at h; cases h
    simp [h, h2]
  · have h2 : lookup fs ⟨b, n, path_name key⟩ = none := by
      simpa using h
    simp [h2]

/-- C1: for a key of 1..16 bytes and any value, `store_object` with
`append = false` succeeds when the path is absent and `must_exist` is clear,
and when the key holds an object and `must_not_exist` is clear; and whenever
it succeeds (returns a non-negative value) it returns the length of the value,
and `read_object` of the same key at offset 0 with `max_buffer_len` equal to
that length returns the length, fills the buffer with exactly the value and
sets `total_object_size` to the length, whatever the file system held
before. -/
theorem store_then_read_returns_value (fs : FS) (bus ns : Nat) (key value : List Nat)
    (must_exist must_not_exist : Bool) (_hk1 : 1 ≤ key.length) (_hk16 : key.length ≤ 16) :
    ((file_exist fs bus ns key).2 = 0 → must_exist = false →
      0 ≤ (store_object fs bus ns key value false must_exist must_not_exist).2) ∧
    (∀ c, object_data fs bus ns key = some c → must_not_exist = false →
      0 ≤ (store_object fs bus ns key value false must_exist must_not_exist).2) ∧
    (0 ≤ (store_object fs bus ns key value false must_exist must_not_exist).2 →
      (store_object fs bus ns key value false must_exist must_not_exist).2
          = (value.length : Int) ∧
      (read_object (store_object fs bus ns key value false must_exist must_not_exist).1
          bus ns key 0 value.length).2
          = ⟨(value.length : Int), value, some value.length⟩) := by
  refine ⟨?_, ?_, ?_⟩
  · intro habs hme
    subst hme
    rw [file_exist_zero] at habs
    obtain ⟨_, hc⟩ := store_object_cases fs bus ns key value false false must_not_exist rfl
    rcases hc with ⟨hr, _⟩ | ⟨_, _, hc⟩
    · rw [hr]; exact Int.natCast_nonneg _
    · rcases hc with ⟨_, h, _⟩ | ⟨e, h, _⟩ | ⟨e, h, _⟩
      · cases h
      · rw [habs] at h; cases h
      · rw [habs] at h; cases h
  · intro c hobj hmne
    subst hmne
    obtain ⟨e, hl, hreg, _⟩ := object_data_some fs bus ns key c hobj
    obtain ⟨_, hc⟩ := store_object_cases fs bus ns key value false must_exist false
      (by simp)
    rcases hc with ⟨hr, _⟩ | ⟨_, _, hc⟩
    · rw [hr]; exact Int.natCast_nonneg _
    · rcases hc with ⟨h, _⟩ | ⟨e1, _, h, _⟩ | ⟨e1, h, _, hnr, _⟩
      · rw [hl] at h; cases h
      · cases h
      · rw [hl] at h
        cases h
        exact absurd hreg hnr
  · intro hs
    obtain ⟨hr, hl⟩ :=
      store_object_nonneg fs bus ns key value false must_exist must_not_exist hs
    refine ⟨hr, ?_⟩
    have h0 : size_t_to_long 0 = 0 := by decide
    rw [read_object_snd]
    rcases hl with ⟨_, hl⟩ | ⟨e, _, _, hl⟩ <;>
      simp [hl, h0, fread]

/-- Witness for C1: the first store and read of the unit test `test_string`. -/
theorem store_then_read_returns_value_witness :
    (store_object empty_fs 4294967295 4294967295 [107, 101, 121, 0]
        [118, 97, 108, 117, 101, 10, 118, 97, 108, 117, 101, 0] false false true).2
        = ((12 : Nat) : Int) ∧
    (read_object (store_object empty_fs 4294967295 4294967295 [107, 101, 121, 0]
        [118, 97, 108, 117, 101, 10, 118, 97, 108, 117, 101, 0] false false true).1
        4294967295 4294967295 [107, 101, 121, 0] 0 12).2
        = ⟨((12 : Nat) : Int), [118, 97, 108, 117, 101, 10, 118, 97, 108, 117, 101, 0],
            some 12⟩ :=
  (store_then_read_returns_value empty_fs 4294967295 4294967295 [107, 101, 121, 0]
    [118, 97, 108, 117, 101, 10, 118, 97, 108, 117, 101, 0] false true
    (by decide) (by decide)).2.2
    ((store_then_read_returns_value empty_fs 4294967295 4294967295 [107, 101, 121, 0]
      [118, 97, 108, 117, 101, 10, 118, 97, 108, 117, 101, 0] false true
      (by decide) (by decide)).1 (by decide) rfl)

/-- C2: when `store_object(key, v, append = false)` has succeeded, a following
`store_object(key, w, append = true)` (with or without `must_exist`) returns
the length of `w`, and `read_object(key, 0, max)` with `max` at least
`len v + len w` returns `v ++ w` with `total_object_size = len v + len w`;
and `append = true` on an absent key returns the length of `w` and creates
the object with content `w`. -/
theorem store_then_append_concatenates (fs : FS) (bus ns : Nat) (key v w : List Nat)
    (me1 mne1 me2 : Bool)
    (hs : 0 ≤ (store_object fs bus ns key v false me1 mne1).2) :
    (store_object (store_object fs bus ns key v false me1 mne1).1 bus ns key w true me2
        false).2 = (w.length : Int) ∧
    (∀ max, v.length + w.length ≤ max →
      (read_object
        (store_object (store_object fs bus ns key v false me1 mne1).1 bus ns key w true me2
          false).1 bus ns key 0 max).2
        = ⟨((v.length + w.length : Nat) : Int), v ++ w, some (v.length + w.length)⟩) ∧
    (∀ (fs0 : FS) (mne : Bool), (file_exist fs0 bus ns key).2 = 0 →
      (store_object fs0 bus ns key w true false mne).2 = (w.length : Int) ∧
      object_data (store_object fs0 bus ns key w true false mne).1 bus ns key = some w ∧
      (read_object (store_object fs0 bus ns key w true false mne).1 bus ns key 0
        w.length).2 = ⟨(w.length : Int), w, some w.length⟩) := by
  have h0 : size_t_to_long 0 = 0 := by decide
  obtain ⟨_, hl⟩ := store_object_nonneg fs bus ns key v false me1 mne1 hs
  have hl1 : lookup (store_object fs bus ns key v false me1 mne1).1 ⟨bus, ns, path_name key⟩
      = some ⟨path_name key, DType.DT_REG, v⟩ := by
    rcases hl with ⟨_, hl⟩ | ⟨e, _, _, hl⟩ <;> simpa using hl
  generalize (store_object fs bus ns key v false me1 mne1).1 = fs1 at hl1
  have hf : (me2 && false) = false := by simp
  obtain ⟨_, hc⟩ := store_object_cases fs1 bus ns key w true me2 false hf
  refine ⟨?_, ?_, ?_⟩
  · rcases hc with ⟨hr, _, _⟩ | ⟨_, _, hc⟩
    · exact hr
    · rcases hc with ⟨h, _⟩ | ⟨_, _, h, _⟩ | ⟨e, h, _, hreg, _⟩
      · rw [hl1] at h; cases h
      · cases h
      · rw [hl1] at h
        cases h
        exact absurd rfl hreg
  · intro max hmax
    rcases hc with ⟨_, hd, _⟩ | ⟨_, _, hc⟩
    · rw [read_object_snd, lookup_of_ns _ _ _ _ _ hd, find_dir_after_store_same,
        ← lookup_eq_find, hl1]
      simp only [h0, fread, if_true, Int.toNat_zero, List.drop_zero, fseek_set_zero, ne_eq,
        not_true_eq_false, if_false]
      have ht : (v ++ w).take max = v ++ w := List.take_of_length_le (by simpa using hmax)
      rw [ht]
      simp
    · rcases hc with ⟨h, _⟩ | ⟨_, _, h, _⟩ | ⟨e, h, _, hreg, _⟩
      · rw [hl1] at h; cases h
      · cases h
      · rw [hl1] at h
        cases h
        exact absurd rfl hreg
  · intro fs0 mne habs
    have hnone : lookup fs0 ⟨bus, ns, path_name key⟩ = none := by
      simp only [file_exist, get_path_str_false, get_path_str_snd, access] at habs
      cases hx : lookup fs0 ⟨bus, ns, path_name key⟩ with
      | none => rfl
      | some e => simp [hx] at habs
    have hf0 : (false && mne) = false := by simp
    obtain ⟨_, hc0⟩ := store_object_cases fs0 bus ns key w true false mne hf0
    rcases hc0 with ⟨hr, hd, _⟩ | ⟨_, _, hc0⟩
    · have hfind : find_entry (dir_of fs0 bus ns) (path_name key) = none := by
        rw [← lookup_eq_find]; exact hnone
      have hl2 : lookup (store_object fs0 bus ns key w true false mne).1
          ⟨bus, ns, path_name key⟩ = some ⟨path_name key, DType.DT_REG, w⟩ := by
        rw [lookup_of_ns _ _ _ _ _ hd, find_dir_after_store_same, hfind]
      refine ⟨hr, ?_, ?_⟩
      · unfold object_data
        rw [← path_name_eq_hex, hl2]
        simp
      · rw [read_object_snd, hl2]
        simp [h0, fread]
    · rcases hc0 with ⟨_, h, _⟩ | ⟨e, h, _⟩ | ⟨e, h, _⟩
      · cases h
      · rw [hnone] at h; cases h
      · rw [hnone] at h; cases h

/-- Witness for C2: the store, the append and the size of the unit test
`test_binary`, read back from offset 0. -/
theorem store_then_append_concatenates_witness :
    (store_object (store_object empty_fs 4294967295 4294967295 [225, 226, 227, 228, 229, 230]
        [225, 226, 227, 228, 229, 230, 231, 232, 233, 234, 235, 236] false false true).1
      4294967295 4294967295 [225, 226, 227, 228, 229, 230] [237, 238, 239] true true false).2
      = ((3 : Nat) : Int) ∧
    (read_object
      (store_object (store_object empty_fs 4294967295 4294967295 [225, 226, 227, 228, 229, 230]
        [225, 226, 227, 228, 229, 230, 231, 232, 233, 234, 235, 236] false false true).1
      4294967295 4294967295 [225, 226, 227, 228, 229, 230] [237, 238, 239] true true false).1
      4294967295 4294967295 [225, 226, 227, 228, 229, 230] 0 15).2
      = ⟨((12 + 3 : Nat) : Int),
          [225, 226, 227, 228, 229, 230, 231, 232, 233, 234, 235, 236] ++ [237, 238, 239],
          some (12 + 3)⟩ :=
  ⟨(store_then_append_concatenates empty_fs 4294967295 4294967295
      [225, 226, 227, 228, 229, 230]
      [225, 226, 227, 228, 229, 230, 231, 232, 233, 234, 235, 236] [237, 238, 239]
      false true true (by decide)).1,
    (store_then_append_concatenates empty_fs 4294967295 4294967295
      [225, 226, 227, 228, 229, 230]
      [225, 226, 227, 228, 229, 230, 231, 232, 233, 234, 235, 236] [237, 238, 239]
      false true true (by decide)).2.1 15 (by decide)⟩

/-- C3 (counterexample): the object has 3 bytes and the offset `2 ^ 63` is past
its end, yet `read_object` does not return 0 bytes: the offset is negative as
the `long` that `fseek` takes, the seek fails and the call returns
`KV_ERROR_FILE_OFFSET`. -/
theorem read_object_offset_counterexample :
    object_data one_object_fs 1 1 [107] = some [10, 20, 30] ∧
    [10, 20, 30].length ≤ 2 ^ 63 ∧
    (read_object one_object_fs 1 1 [107] (2 ^ 63) 8).2.ret = KV_ERROR_FILE_OFFSET ∧
    (read_object one_object_fs 1 1 [107] (2 ^ 63) 8).2.ret ≠ 0 := by
  decide

/-- C3 (amended): for an existing object with content `c` and every
`max_buffer_len`: for every offset that `fseek` accepts, which is an offset
below `2 ^ 63` that lies inside the object or is at most the largest file
offset of the file system, `read_object` sets `total_object_size = len c`;
when `offset ≤ len c` it returns `n = min(max_buffer_len, len c - offset)` and
copies `c[offset .. offset+n)` into the buffer; when `offset ≥ len c` it
returns 0 bytes, not an error.  For every other `size_t` offset, which is one
from `2 ^ 63` up or one behind the end of the object and above the largest
file offset of the file system, it returns `KV_ERROR_FILE_OFFSET`, reads
nothing and still reports the true total. -/
theorem read_object_window (fs : FS) (bus ns : Nat) (key c : List Nat)
    (offset max_buffer_len : Nat) (hobj : object_data fs bus ns key = some c) :
    (offset < 2 ^ 63 → (offset ≤ c.length ∨ offset ≤ fs.max_offset) →
      (read_object fs bus ns key offset max_buffer_len).2.total_object_size = some c.length ∧
      (offset ≤ c.length →
        (read_object fs bus ns key offset max_buffer_len).2.ret
          = ((min max_buffer_len (c.length - offset) : Nat) : Int) ∧
        (read_object fs bus ns key offset max_buffer_len).2.buffer
          = (c.drop offset).take (min max_buffer_len (c.length - offset))) ∧
      (c.length ≤ offset →
        (read_object fs bus ns key offset max_buffer_len).2.ret = 0 ∧
        (read_object fs bus ns key offset max_buffer_len).2.buffer = [])) ∧
    (offset < 2 ^ 64 → (2 ^ 63 ≤ offset ∨ (c.length < offset ∧ fs.max_offset < offset)) →
      (read_object fs bus ns key offset max_buffer_len).2
        = ⟨KV_ERROR_FILE_OFFSET, [], some c.length⟩) := by
  obtain ⟨e, hl, hreg, rfl⟩ := object_data_some fs bus ns key c hobj
  rw [read_object_snd, hl]
  constructor
  · intro hlt hacc
    obtain ⟨hseek, hpos⟩ := fseek_set_accepts fs.max_offset e offset hlt hacc
    simp only [hseek, hpos, ne_eq, not_true_eq_false, if_false, fread, hreg, if_true, true_and]
    constructor
    · intro _
      constructor
      · simp [List.length_take, List.length_drop]
      · rw [List.take_eq_take]
        simp [List.length_drop]
    · intro hge
      have : e.data.drop offset = [] := List.drop_eq_nil_of_le hge
      simp [this]
  · intro h64 hrej
    simp only [fseek_set_rejects fs.max_offset e offset h64 hrej, ne_eq, not_false_eq_true,
      if_true]

/-- Witness for C3 (amended): the one-object namespace, whose file system has
the largest file offset `2 ^ 44 - 4096`, read from offset 1, from offset 5
behind its end, and from offset `2 ^ 44`. -/
theorem read_object_window_witness :
    ((read_object one_object_fs 1 1 [107] 1 8).2.total_object_size = some 3 ∧
      (read_object one_object_fs 1 1 [107] 1 8).2.ret = ((min 8 (3 - 1) : Nat) : Int) ∧
      (read_object one_object_fs 1 1 [107] 1 8).2.buffer = [20, 30]) ∧
    ((read_object one_object_fs 1 1 [107] 5 8).2.ret = 0 ∧
      (read_object one_object_fs 1 1 [107] 5 8).2.buffer = []) ∧
    (read_object one_object_fs 1 1 [107] (2 ^ 44) 8).2
      = ⟨KV_ERROR_FILE_OFFSET, [], some 3⟩ :=
  have h := (read_object_window one_object_fs 1 1 [107] [10, 20, 30] 1 8 (by decide)).1
    (by decide) (Or.inl (by decide))
  have h5 := (read_object_window one_object_fs 1 1 [107] [10, 20, 30] 5 8 (by decide)).1
    (by decide) (Or.inr (by decide))
  ⟨⟨h.1, (h.2.1 (by decide)).1, (h.2.1 (by decide)).2⟩, h5.2.2 (by decide),
    (read_object_window one_object_fs 1 1 [107] [10, 20, 30] (2 ^ 44) 8 (by decide)).2
      (by decide) (Or.inr ⟨by decide, by decide⟩)⟩

theorem delete_object_cases (fs : FS) (b n : Nat) (key : List Nat) :
    (∀ b1 n1, ¬ (b1 = b ∧ n1 = n) →
      (delete_object fs b n key).1.ns_dirs b1 n1 = fs.ns_dirs b1 n1) ∧
    ((∃ e, lookup fs ⟨b, n, path_name key⟩ = some e ∧ e.d_type = DType.DT_REG ∧
        (delete_object fs b n key).2 = 0 ∧
        (delete_object fs b n key).1.ns_dirs b n =
          some ((dir_of fs b n).filter (fun x => decide (x.d_name ≠ path_name key)))) ∨
      (lookup fs ⟨b, n, path_name key⟩ = none ∧
        (delete_object fs b n key).2 = KV_ERROR_FILE_NOT_FOUND ∧
        (delete_object fs b n key).1.ns_dirs b n = some (dir_of fs b n)) ∨
      (∃ e, lookup fs ⟨b, n, path_name key⟩ = some e ∧ e.d_type ≠ DType.DT_REG ∧
        (delete_object fs b n key).2 = KV_ERROR_REMOVE ∧
        (delete_object fs b n key).1.ns_dirs b n = some (dir_of fs b n))) := by
  have e1 : get_path_str fs b n key true =
      ((get_path_str fs b n key true).1, ⟨b, n, path_name key⟩) := rfl
  have hsame := get_path_str_ns_same fs b n key
  have hother := get_path_str_ns_other fs b n key
  have hl := lookup_eq_find fs b n key
  generalize (get_path_str fs b n key true).1 = fs1 at e1 hsame hother
  rw [hl]
  unfold delete_object
  rw [e1]
  simp only [remove, hsame]
  cases hfind : find_entry (dir_of fs b n) (path_name key) with
  | none =>
    simp [hsame]
    exact fun b1 n1 h => hother b1 n1 (by tauto)
  | some e =>
    by_cases hreg : e.d_type = DType.DT_REG
    · simp [hreg, set_dir_ns_same]
      intro b1 n1 h
      have h1 : ¬ (b1 = b ∧ n1 = n) := by tauto
      rw [set_dir_ns_other _ _ _ _ _ _ h1, hother b1 n1 h1]
    · simp [hreg, hsame]
      exact fun b1 n1 h => hother b1 n1 (by tauto)

theorem hex_injective (k1 k2 : List Nat) (h1 : ∀ x ∈ k1, x < 256) (h2 : ∀ x ∈ k2, x < 256)
    (h : hex k1 = hex k2) : k1 = k2 := by
  have e1 := decode_name_hex k1 h1
  have e2 := decode_name_hex k2 h2
  rw [h, e2] at e1
  exact (congrArg ObjectKey.key e1).symm

theorem delete_object_absent (fs : FS) (b n : Nat) (key : List Nat)
    (h : lookup fs ⟨b, n, path_name key⟩ = none) :
    (delete_object fs b n key).2 = KV_ERROR_FILE_NOT_FOUND ∧
    lookup (delete_object fs b n key).1 ⟨b, n, path_name key⟩ = none := by
  obtain ⟨hother, hc⟩ := delete_object_cases fs b n key
  rcases hc with ⟨e, h1, _⟩ | ⟨_, hr, hsame⟩ | ⟨e, h1, _⟩
  · rw [h] at h1; cases h1
  · exact ⟨hr, by rw [lookup_frame fs _ b n hsame hother b n key]; exact h⟩
  · rw [h] at h1; cases h1

theorem delete_object_repeat (b n : Nat) (key : List Nat) (m : Nat) :
    ∀ fs : FS, lookup fs ⟨b, n, path_name key⟩ = none →
      (delete_object (Nat.iterate (fun g => (delete_object g b n key).1) m fs) b n key).2
        = KV_ERROR_FILE_NOT_FOUND := by
  induction m with
  | zero => intro fs h; exact (delete_object_absent fs b n key h).1
  | succ m ih =>
    intro fs h
    rw [Function.iterate_succ_apply]
    exact ih _ (delete_object_absent fs b n key h).2

/-- C5: for a stored key, `delete_object` returns 0 and removes that object:
afterwards the key has no content and `file_exist` reports 0, while every
other key of every namespace keeps its content; each of the following
`delete_object` calls of the same key returns `KV_ERROR_FILE_NOT_FOUND`; and
`delete_object` of a key whose path is absent returns
`KV_ERROR_FILE_NOT_FOUND`. -/
theorem delete_object_once (fs : FS) (bus ns : Nat) (key c : List Nat)
    (hkey : ∀ x ∈ key, x < 256) (hobj : object_data fs bus ns key = some c) :
    (delete_object fs bus ns key).2 = 0 ∧
    object_data (delete_object fs bus ns key).1 bus ns key = none ∧
    (file_exist (delete_object fs bus ns key).1 bus ns key).2 = 0 ∧
    (∀ b1 n1 k1, (∀ x ∈ k1, x < 256) → ¬ (b1 = bus ∧ n1 = ns ∧ k1 = key) →
      object_data (delete_object fs bus ns key).1 b1 n1 k1 = object_data fs b1 n1 k1) ∧
    (∀ m, (delete_object
        (Nat.iterate (fun g => (delete_object g bus ns key).1) m
          (delete_object fs bus ns key).1) bus ns key).2 = KV_ERROR_FILE_NOT_FOUND) ∧
    (∀ fs0 : FS, (file_exist fs0 bus ns key).2 = 0 →
      (delete_object fs0 bus ns key).2 = KV_ERROR_FILE_NOT_FOUND) := by
  obtain ⟨e, hl, hreg, _⟩ := object_data_some fs bus ns key c hobj
  obtain ⟨hother, hc⟩ := delete_object_cases fs bus ns key
  have hgone : (delete_object fs bus ns key).2 = 0 ∧
      (delete_object fs bus ns key).1.ns_dirs bus ns =
        some ((dir_of fs bus ns).filter (fun x => decide (x.d_name ≠ path_name key))) := by
    rcases hc with ⟨_, _, _, hr, hd⟩ | ⟨h1, _⟩ | ⟨e1, h1, hnr, _⟩
    · exact ⟨hr, hd⟩
    · rw [hl] at h1; cases h1
    · rw [hl] at h1
      cases h1
      exact absurd hreg hnr
  obtain ⟨hr, hd⟩ := hgone
  have habs : lookup (delete_object fs bus ns key).1 ⟨bus, ns, path_name key⟩ = none := by
    rw [lookup_of_ns _ _ _ _ _ hd, find_entry_filter]
    simp
  refine ⟨hr, ?_, ?_, ?_, ?_, ?_⟩
  · unfold object_data
    rw [← path_name_eq_hex, habs]
  · rw [file_exist_zero]; exact habs
  · intro b1 n1 k1 hk1 hne
    apply object_data_congr
    by_cases hbn : b1 = bus ∧ n1 = ns
    · obtain ⟨rfl, rfl⟩ := hbn
      have hk : path_name k1 ≠ path_name key := by
        intro h
        rw [path_name_eq_hex, path_name_eq_hex] at h
        exact hne ⟨rfl, rfl, hex_injective k1 key hk1 hkey h⟩
      rw [lookup_of_ns _ _ _ _ _ hd, find_entry_filter, lookup_eq_find fs]
      simp [hk]
    · simp only [lookup, hother b1 n1 hbn]
  · intro m
    exact delete_object_repeat bus ns key m _ habs
  · intro fs0 h0
    rw [file_exist_zero] at h0
    exact (delete_object_absent fs0 bus ns key h0).1

/-- Witness for C5: deleting the key of the one-object namespace, twice. -/
theorem delete_object_once_witness :
    (delete_object one_object_fs 1 1 [107]).2 = 0 ∧
    object_data (delete_object one_object_fs 1 1 [107]).1 1 1 [107] = none ∧
    (delete_object (delete_object one_object_fs 1 1 [107]).1 1 1 [107]).2
      = KV_ERROR_FILE_NOT_FOUND :=
  have h := delete_object_once one_object_fs 1 1 [107] [10, 20, 30] (by decide) (by decide)
  ⟨h.1, h.2.1, h.2.2.2.2.1 0⟩

theorem is_hex_name_hex (key : List Nat) : is_hex_name (hex key) = true := by
  induction key with
  | nil => rfl
  | cons c rest ih =>
    simp only [hex, is_hex_name, Bool.and_eq_true, decide_eq_true_eq]
    exact ⟨⟨hexout_getD_mem _, hexout_getD_mem _⟩, ih⟩

theorem map_name_set_data (d : List Entry) (name : List Char) (f : List Nat → List Nat) :
    (set_data d name f).map Entry.d_name = d.map Entry.d_name := by
  unfold set_data
  rw [List.map_map]
  apply List.map_congr_left
  intro e _
  simp only [Function.comp]
  split <;> rfl

theorem mem_set_data (d : List Entry) (name : List Char) (f : List Nat → List Nat) (e : Entry)
    (h : e ∈ set_data d name f) : ∃ e0 ∈ d, e.d_name = e0.d_name ∧ e.d_type = e0.d_type := by
  unfold set_data at h
  rw [List.mem_map] at h
  obtain ⟨e0, he0, rfl⟩ := h
  refine ⟨e0, he0, ?_⟩
  split <;> exact ⟨rfl, rfl⟩

theorem wf_dir_set_data (d : List Entry) (name : List Char) (f : List Nat → List Nat)
    (h : wf_dir d) : wf_dir (set_data d name f) := by
  refine ⟨by rw [map_name_set_data]; exact h.1, ?_⟩
  intro e he hreg
  obtain ⟨e0, he0, hn, ht⟩ := mem_set_data d name f e he
  rw [hn]
  exact h.2 e0 he0 (ht ▸ hreg)

theorem wf_dir_fresh : wf_dir fresh_dir := by
  refine ⟨by decide, ?_⟩
  intro e he hreg
  simp only [fresh_dir, List.mem_cons, List.mem_singleton, List.not_mem_nil, or_false] at he
  rcases he with rfl | rfl <;> cases hreg

theorem wf_dir_after_store (d0 : List Entry) (key value : List Nat) (append : Bool)
    (h : wf_dir d0) : wf_dir (dir_after_store d0 (hex key) value append) := by
  unfold dir_after_store
  cases hfind : find_entry d0 (hex key) with
  | none =>
    apply wf_dir_set_data
    have hnot : hex key ∉ d0.map Entry.d_name := by
      intro hmem
      rw [List.mem_map] at hmem
      obtain ⟨e, he, hname⟩ := hmem
      have := List.find?_eq_none.mp hfind e he
      simp [hname] at this
    refine ⟨?_, ?_⟩
    · rw [List.map_append, List.map_singleton]
      exact List.Nodup.append h.1 (List.nodup_singleton _)
        (by simpa [List.disjoint_singleton] using hnot)
    · intro e he hreg
      rw [List.mem_append, List.mem_singleton] at he
      rcases he with he | rfl
      · exact h.2 e he hreg
      · exact is_hex_name_hex key
  | some e =>
    cases append
    · simp only [Bool.false_eq_true, if_false]
      exact wf_dir_set_data _ _ _ (wf_dir_set_data _ _ _ h)
    · simp only [if_true]
      exact wf_dir_set_data _ _ _ h

/-- The directories of the store stay well formed: when every namespace
directory is well formed before a `store_object`, it is afterwards. -/
theorem store_object_keeps_wf (fs : FS) (b n : Nat) (key value : List Nat)
    (append me mne : Bool) (h : ∀ b1 n1, wf_dir (dir_of fs b1 n1)) :
    ∀ b1 n1, wf_dir (dir_of (store_object fs b n key value append me mne).1 b1 n1) := by
  intro b1 n1
  cases hf : (me && mne) with
  | true =>
    have : store_object fs b n key value append me mne = (fs, KV_ERROR_INVALID_PARAMETER) := by
      simp [store_object, hf]
    rw [this]
    exact h b1 n1
  | false =>
    obtain ⟨hother, hc⟩ := store_object_cases fs b n key value append me mne hf
    by_cases hbn : b1 = b ∧ n1 = n
    · obtain ⟨rfl, rfl⟩ := hbn
      rcases hc with ⟨_, hd, _⟩ | ⟨_, hd, _⟩
      · simp only [dir_of, hd, Option.getD_some]
        rw [path_name_eq_hex]
        exact wf_dir_after_store _ key value append (h b1 n1)
      · simp only [dir_of, hd, Option.getD_some]
        exact h b1 n1
    · have := hother b1 n1 hbn
      simp only [dir_of, this]
      exact h b1 n1

/-- The directories of the store stay well formed under `delete_object`. -/
theorem delete_object_keeps_wf (fs : FS) (b n : Nat) (key : List Nat)
    (h : ∀ b1 n1, wf_dir (dir_of fs b1 n1)) :
    ∀ b1 n1, wf_dir (dir_of (delete_object fs b n key).1 b1 n1) := by
  intro b1 n1
  obtain ⟨hother, hc⟩ := delete_object_cases fs b n key
  by_cases hbn : b1 = b ∧ n1 = n
  · obtain ⟨rfl, rfl⟩ := hbn
    rcases hc with ⟨_, _, _, _, hd⟩ | ⟨_, _, hd⟩ | ⟨_, _, _, _, hd⟩
    · simp only [dir_of, hd, Option.getD_some]
      have hw := h b1 n1
      refine ⟨List.Nodup.sublist (List.Sublist.map _ (List.filter_sublist _)) hw.1, ?_⟩
      intro e he hreg
      exact hw.2 e (List.mem_of_mem_filter he) hreg
    · simp only [dir_of, hd, Option.getD_some]
      exact h b1 n1
    · simp only [dir_of, hd, Option.getD_some]
      exact h b1 n1
  · have := hother b1 n1 hbn
    simp only [dir_of, this]
    exact h b1 n1

/-- Every namespace directory of the empty store is well formed. -/
theorem empty_fs_wf (b1 n1 : Nat) : wf_dir (dir_of empty_fs b1 n1) := wf_dir_fresh

/-! ## Lemmas on `strcmp` and the directory scan -/

theorem char_eq_of_toNat (a b : Char) (h1 : ¬ a.toNat < b.toNat) (h2 : ¬ b.toNat < a.toNat) :
    a = b := by
  have h : a.toNat = b.toNat := by omega
  rw [← Char.ofNat_toNat a, ← Char.ofNat_toNat b, h]

theorem strcmp_eq_zero : ∀ a b, strcmp a b = 0 → a = b
  | [], [], _ => rfl
  | [], _ :: _, h => by simp [strcmp] at h
  | _ :: _, [], h => by simp [strcmp] at h
  | a :: as, b :: bs, h => by
    unfold strcmp at h
    by_cases h1 : a.toNat < b.toNat
    · simp [h1] at h
    · by_cases h2 : b.toNat < a.toNat
      · simp [h1, h2] at h
      · simp only [h1, h2, if_false] at h
        rw [char_eq_of_toNat a b h1 h2, strcmp_eq_zero as bs h]

theorem strcmp_self : ∀ a, strcmp a a = 0
  | [] => rfl
  | a :: as => by
    unfold strcmp
    simp [strcmp_self as]

theorem strcmp_antisymm : ∀ a b, strcmp a b < 0 → 0 < strcmp b a
  | [], [], h => by simp [strcmp] at h
  | [], _ :: _, _ => by simp [strcmp]
  | _ :: _, [], h => by simp [strcmp] at h
  | a :: as, b :: bs, h => by
    unfold strcmp at h ⊢
    have ih := strcmp_antisymm as bs
    split_ifs at h ⊢ <;> omega

theorem strcmp_total : ∀ a b, strcmp a b ≤ 0 ∨ strcmp b a ≤ 0
  | [], [] => by simp [strcmp]
  | [], _ :: _ => by simp [strcmp]
  | _ :: _, [] => by simp [strcmp]
  | a :: as, b :: bs => by
    unfold strcmp
    have ih := strcmp_total as bs
    split_ifs <;> omega

theorem strcmp_trans : ∀ a b c, strcmp a b ≤ 0 → strcmp b c ≤ 0 → strcmp a c ≤ 0
  | [], [], _, _, h => h
  | [], _ :: _, [], _, h => by simp [strcmp] at h
  | [], _ :: _, _ :: _, _, _ => by simp [strcmp]
  | _ :: _, [], _, h, _ => by simp [strcmp] at h
  | _ :: _, _ :: _, [], _, h => by simp [strcmp] at h
  | a :: as, b :: bs, c :: cs, h1, h2 => by
    unfold strcmp at h1 h2 ⊢
    have ih := strcmp_trans as bs cs
    split_ifs at h1 h2 ⊢ <;> omega

theorem scan_step_some ( pre : List Char) (kl off mx : Nat) (st st1 : ScanState) (e : Entry)
    (h : scan_step pre kl off mx st e = some st1) :
    st1.dir_list = st.dir_list ++ (if selected pre kl e then [e.d_name] else []) := by
  unfold scan_step at h
  simp only [] at h
  generalize (if st.dir_list.length = st.dir_list_capacity then
      MIN (st.dir_list_capacity * 2 % 2 ^ 64) ((mx + off) % 2 ^ 64)
    else st.dir_list_capacity) = cap at h
  by_cases c1 : cap < st.dir_list.length
  · simp [c1] at h
  · by_cases c2 : e.d_type = DType.DT_REG
    · by_cases c3 : kl ≠ 0 ∧ strcmp e.d_name pre < 0
      · have c3a := c3.1
        have c3b := c3.2
        simp [c1, c2, c3a, c3b] at h
        rw [← h]
        simp [selected, c3a, c3b]
      · by_cases c4 : st.dir_list.length < cap
        · by_cases c5 : e.d_name.length + 1 ≤ max_key_str_len
          · rw [if_neg c1, if_neg (by simp [c2]), if_neg c3, if_neg (by simp [c4]),
              if_neg (by simp [c5])] at h
            simp only [Option.some.injEq] at h
            subst h
            have hsel : selected pre kl e = true := by
              simp only [selected, c2, decide_True, Bool.true_and, Bool.not_eq_true',
                Bool.and_eq_false_iff, decide_eq_false_iff_not]
              by_cases hk : kl ≠ 0
              · right
                exact fun hlt => c3 ⟨hk, hlt⟩
              · left
                exact hk
            simp [hsel]
          · simp [c1, c2, c3, c4, c5] at h
        · simp [c1, c2, c3, c4] at h
    · rw [if_neg c1, if_pos c2] at h
      simp only [Option.some.injEq] at h
      subst h
      simp [selected, c2]

theorem scan_dir_some ( pre : List Char) (kl off mx : Nat) (d : List Entry) :
    ∀ st st1 : ScanState, scan_dir pre kl off mx st d = some st1 →
      st1.dir_list = st.dir_list ++ (d.filter (selected pre kl)).map Entry.d_name := by
  induction d with
  | nil =>
    intro st st1 h
    simp only [scan_dir, Option.some.injEq] at h
    simp [h]
  | cons e rest ih =>
    intro st st1 h
    unfold scan_dir at h
    cases hs : scan_step pre kl off mx st e with
    | none => simp [hs] at h
    | some st2 =>
      simp only [hs] at h
      rw [ih st2 st1 h, scan_step_some pre kl off mx st st2 e hs]
      by_cases hsel : selected pre kl e = true
      · simp [hsel, List.filter_cons]
      · simp [hsel, List.filter_cons]

theorem convert_names_some : ∀ (l : List (List Char)) (ks : List ObjectKey),
    convert_names l = some ks → ks = l.map decode_name
  | [], ks, h => by
    simp only [convert_names, Option.some.injEq] at h
    simp [← h]
  | name :: rest, ks, h => by
    unfold convert_names at h
    split_ifs at h
    cases hr : convert_names rest with
    | none => simp [hr] at h
    | some ks1 =>
      simp only [hr, Option.some.injEq] at h
      rw [← h, convert_names_some rest ks1 hr]
      rfl

/-- Whatever `list_objects` returns is the decoding of a sub-sequence of the
sorted names it collected. -/
theorem list_objects_returned (fs : FS) (b n : Nat) ( key_prefix : List Nat) (off mx : Nat)
    (ret : Int) (objects : List ObjectKey)
    (h : (list_objects fs b n key_prefix off mx).2 = ListOutcome.returned ret objects) :
    ∃ l, List.Sublist l (qsort (collected_names (dir_of fs b n) key_prefix)) ∧
      objects = l.map decode_name := by
  have e1 : get_path_str fs b n [] true =
      ((get_path_str fs b n [] true).1, ⟨b, n, path_name []⟩) := rfl
  have hsame := get_path_str_ns_same fs b n []
  generalize (get_path_str fs b n [] true).1 = fs1 at e1 hsame
  unfold list_objects at h
  rw [e1] at h
  simp only [hsame] at h
  generalize (if mx = 0 then 4294967295 else mx) = mx1 at h
  cases hscan : scan_dir (hex key_prefix) key_prefix.length off mx1 ⟨[], 128⟩ (dir_of fs b n) with
  | none =>
    rw [hscan] at h
    cases h
  | some st =>
    rw [hscan] at h
    have hst := scan_dir_some _ _ _ _ _ _ _ hscan
    simp only [List.nil_append] at hst
    simp only [] at h
    by_cases hoff : st.dir_list.length ≤ off
    · rw [if_pos hoff] at h
      cases h
      exact ⟨[], List.nil_sublist _, rfl⟩
    · rw [if_neg hoff] at h
      cases hconv : convert_names
          ((qsort st.dir_list).drop off |>.take (MIN (st.dir_list.length - off) mx1)) with
      | none =>
        rw [hconv] at h
        cases h
        exact ⟨[], List.nil_sublist _, rfl⟩
      | some ks =>
        rw [hconv] at h
        cases h
        refine ⟨_, ?_, convert_names_some _ _ hconv⟩
        rw [hst]
        exact (List.take_sublist _ _).trans (List.drop_sublist _ _)

theorem qsort_sorted (l : List (List Char)) :
    List.Pairwise (fun a b => strcmp a b ≤ 0) (qsort l) := by
  haveI : IsTotal (List Char) (fun a b => compareStrings a b ≤ 0) := ⟨strcmp_total⟩
  haveI : IsTrans (List Char) (fun a b => compareStrings a b ≤ 0) := ⟨strcmp_trans⟩
  exact List.sorted_insertionSort (fun a b => compareStrings a b ≤ 0) l

theorem qsort_perm (l : List (List Char)) : List.Perm (qsort l) l :=
  List.perm_insertionSort _ l

theorem scan_step_short ( pre : List Char) (kl off mx : Nat) (st st1 : ScanState) (e : Entry)
    (h : scan_step pre kl off mx st e = some st1)
    (hst : ∀ x ∈ st.dir_list, x.length + 1 ≤ max_key_str_len) :
    ∀ x ∈ st1.dir_list, x.length + 1 ≤ max_key_str_len := by
  have hl := scan_step_some pre kl off mx st st1 e h
  by_cases hsel : selected pre kl e = true
  · have hlen : e.d_name.length + 1 ≤ max_key_str_len := by
      by_contra hc
      unfold scan_step at h
      simp only [] at h
      have hreg : e.d_type = DType.DT_REG := by
        simp only [selected, Bool.and_eq_true, decide_eq_true_eq] at hsel
        exact hsel.1
      have hpre : ¬ (kl ≠ 0 ∧ strcmp e.d_name pre < 0) := by
        simp only [selected, Bool.and_eq_true, decide_eq_true_eq, Bool.not_eq_true',
          Bool.and_eq_false_iff, decide_eq_false_iff_not] at hsel
        rcases hsel.2 with h1 | h1
        · exact fun h2 => h1 h2.1
        · exact fun h2 => h1 h2.2
      generalize (if st.dir_list.length = st.dir_list_capacity then
          MIN (st.dir_list_capacity * 2 % 2 ^ 64) ((mx + off) % 2 ^ 64)
        else st.dir_list_capacity) = cap at h
      by_cases c1 : cap < st.dir_list.length
      · rw [if_pos c1] at h
        cases h
      · by_cases c4 : st.dir_list.length < cap
        · rw [if_neg c1, if_neg (by simp [hreg]), if_neg hpre, if_neg (by simp [c4]),
            if_pos hc] at h
          cases h
        · rw [if_neg c1, if_neg (by simp [hreg]), if_neg hpre, if_pos c4] at h
          cases h
    intro x hx
    rw [hl, if_pos hsel, List.mem_append, List.mem_singleton] at hx
    rcases hx with hx | rfl
    · exact hst x hx
    · exact hlen
  · intro x hx
    rw [hl, if_neg hsel, List.append_nil] at hx
    exact hst x hx

theorem scan_dir_short ( pre : List Char) (kl off mx : Nat) (d : List Entry) :
    ∀ st st1 : ScanState, scan_dir pre kl off mx st d = some st1 →
      (∀ x ∈ st.dir_list, x.length + 1 ≤ max_key_str_len) →
      ∀ x ∈ st1.dir_list, x.length + 1 ≤ max_key_str_len := by
  induction d with
  | nil =>
    intro st st1 h hst
    simp only [scan_dir, Option.some.injEq] at h
    rw [← h]
    exact hst
  | cons e rest ih =>
    intro st st1 h hst
    unfold scan_dir at h
    cases hs : scan_step pre kl off mx st e with
    | none => simp [hs] at h
    | some st2 =>
      simp only [hs] at h
      exact ih st2 st1 h (scan_step_short pre kl off mx st st2 e hs hst)

theorem convert_names_short : ∀ (l : List (List Char)),
    (∀ x ∈ l, x.length + 1 ≤ max_key_str_len) → convert_names l = some (l.map decode_name)
  | [], _ => rfl
  | name :: rest, h => by
    have h1 : name.length + 1 ≤ max_key_str_len := h name (List.mem_cons_self _ _)
    have h2 : ¬ (decode_name name).key_len > 16 := by
      simp only [decode_name, max_key_str_len] at h1 ⊢
      omega
    unfold convert_names
    rw [if_neg h2, convert_names_short rest (fun x hx => h x (List.mem_cons_of_mem _ hx))]
    rfl

/-- When `list_objects` returns, it returns 0 and the decoding of the sorted
names from position `offset` on, at most `max_to_return` of them. -/
theorem list_objects_returned_eq (fs : FS) (b n : Nat) ( key_prefix : List Nat) (off mx : Nat)
    (ret : Int) (objects : List ObjectKey)
    (h : (list_objects fs b n key_prefix off mx).2 = ListOutcome.returned ret objects) :
    ret = 0 ∧
    objects =
      (((qsort (collected_names (dir_of fs b n) key_prefix)).drop off).take
        (MIN ((collected_names (dir_of fs b n) key_prefix).length - off)
          (if mx = 0 then 0xFFFFFFFF else mx))).map decode_name := by
  have e1 : get_path_str fs b n [] true =
      ((get_path_str fs b n [] true).1, ⟨b, n, path_name []⟩) := rfl
  have hsame := get_path_str_ns_same fs b n []
  generalize (get_path_str fs b n [] true).1 = fs1 at e1 hsame
  unfold list_objects at h
  rw [e1] at h
  simp only [hsame] at h
  generalize (if mx = 0 then 4294967295 else mx) = mx1 at h ⊢
  cases hscan : scan_dir (hex key_prefix) key_prefix.length off mx1 ⟨[], 128⟩ (dir_of fs b n) with
  | none =>
    rw [hscan] at h
    cases h
  | some st =>
    rw [hscan] at h
    have hst := scan_dir_some _ _ _ _ _ _ _ hscan
    have hshort := scan_dir_short _ _ _ _ _ _ _ hscan (by simp)
    simp only [List.nil_append] at hst
    simp only [] at h
    have hnames : collected_names (dir_of fs b n) key_prefix = st.dir_list := hst.symm
    rw [hnames]
    by_cases hoff : st.dir_list.length ≤ off
    · rw [if_pos hoff] at h
      cases h
      have hq : (qsort st.dir_list).length ≤ off := by
        rw [(qsort_perm _).length_eq]; exact hoff
      simp [List.drop_eq_nil_of_le hq]
    · rw [if_neg hoff] at h
      have hsel : ∀ x ∈ (qsort st.dir_list).drop off |>.take (MIN (st.dir_list.length - off) mx1),
          x.length + 1 ≤ max_key_str_len := by
        intro x hx
        have hx1 : x ∈ qsort st.dir_list :=
          List.mem_of_mem_drop (List.mem_of_mem_take hx)
        exact hshort x ((qsort_perm _).mem_iff.mp hx1)
      rw [convert_names_short _ hsel] at h
      cases h
      exact ⟨rfl, rfl⟩

/-- The paging property on the runs of `list_objects` that return: with at
most `0xFFFFFFFF` names collected, whenever the call with offset `o` and max
`m` returns and the unlimited call from offset 0 returns, the first returns
the keys of the second at positions `o .. o+m-1` (all from `o` on when
`m = 0`). -/
theorem list_objects_page_when_returned (fs : FS) (b n : Nat) ( key_prefix : List Nat)
    (o m : Nat) (ret ret0 : Int) (objects all : List ObjectKey)
    (hsize : (collected_names (dir_of fs b n) key_prefix).length ≤ 0xFFFFFFFF)
    (hpage : (list_objects fs b n key_prefix o m).2 = ListOutcome.returned ret objects)
    (hall : (list_objects fs b n key_prefix 0 0).2 = ListOutcome.returned ret0 all) :
    (1 ≤ m → objects = (all.drop o).take m) ∧ (m = 0 → objects = all.drop o) := by
  obtain ⟨_, hobj⟩ := list_objects_returned_eq fs b n key_prefix o m ret objects hpage
  obtain ⟨_, hallx⟩ := list_objects_returned_eq fs b n key_prefix 0 0 ret0 all hall
  have hlen := (qsort_perm (collected_names (dir_of fs b n) key_prefix)).length_eq
  generalize qsort (collected_names (dir_of fs b n) key_prefix) = S at hobj hallx hlen
  generalize (collected_names (dir_of fs b n) key_prefix).length = L at hobj hallx hlen hsize
  have hfull : all = S.map decode_name := by
    rw [hallx]
    simp only [if_true, List.drop_zero, Nat.sub_zero]
    rw [List.take_of_length_le]
    unfold MIN
    split <;> omega
  rw [hfull, hobj, ← List.map_drop, ← List.map_take]
  constructor
  · intro hm
    have hm0 : ¬ m = 0 := by omega
    rw [if_neg hm0]
    congr 1
    rw [List.take_eq_take, List.length_drop]
    unfold MIN
    split <;> omega
  · intro hm
    rw [if_pos hm]
    congr 1
    rw [List.take_of_length_le]
    rw [List.length_drop]
    unfold MIN
    split <;> omega

theorem strcmp_nil_right : ∀ a, 0 ≤ strcmp a []
  | [] => by simp [strcmp]
  | _ :: _ => by simp [strcmp]

theorem collected_names_mem (d : List Entry) ( key_prefix : List Nat) (x : List Char)
    (hx : x ∈ collected_names d key_prefix) :
    ∃ e ∈ d, e.d_name = x ∧ e.d_type = DType.DT_REG ∧
      ( key_prefix.length = 0 ∨ ¬ strcmp x (hex key_prefix) < 0) := by
  unfold collected_names at hx
  rw [List.mem_map] at hx
  obtain ⟨e, he, rfl⟩ := hx
  rw [List.mem_filter] at he
  obtain ⟨hmem, hsel⟩ := he
  simp only [selected, Bool.and_eq_true, decide_eq_true_eq, Bool.not_eq_true',
    Bool.and_eq_false_iff, decide_eq_false_iff_not, ne_eq, not_not] at hsel
  exact ⟨e, hmem, rfl, hsel.1, hsel.2⟩

theorem collected_names_nodup (d : List Entry) ( key_prefix : List Nat)
    (h : (d.map Entry.d_name).Nodup) : (collected_names d key_prefix).Nodup :=
  List.Nodup.sublist (List.Sublist.map _ (List.filter_sublist _)) h

/-! ## Listing -/

/-- C7: in a well-formed namespace directory (entries with distinct names,
regular files named by hex names, as `store_object` leaves it), the keys
`list_objects` returns, for every prefix, offset and max, are in strictly
ascending order under `strcmp` of their uppercase-hex names: each returned key
is smaller than every later one, so no key appears twice. -/
theorem list_objects_strictly_ascending (fs : FS) (bus ns : Nat) ( key_prefix : List Nat)
    (offset max_to_return : Nat) (ret : Int) (objects : List ObjectKey)
    (hwf : wf_dir (dir_of fs bus ns))
    (h : (list_objects fs bus ns key_prefix offset max_to_return).2
      = ListOutcome.returned ret objects) :
    List.Pairwise (fun a b => strcmp (hex a.key) (hex b.key) < 0) objects ∧
    objects.Nodup := by
  obtain ⟨hnodup, hhex⟩ := hwf
  obtain ⟨l, hsub, rfl⟩ := list_objects_returned fs bus ns key_prefix offset max_to_return
    ret objects h
  have hmem : ∀ x ∈ l, is_hex_name x = true := by
    intro x hx
    have hx1 : x ∈ collected_names (dir_of fs bus ns) key_prefix :=
      (qsort_perm _).mem_iff.mp (hsub.subset hx)
    obtain ⟨e, he, hname, hreg, _⟩ := collected_names_mem _ _ x hx1
    rw [← hname]
    exact hhex e he hreg
  have hnd : l.Nodup :=
    List.Nodup.sublist hsub ((qsort_perm _).nodup_iff.mpr (collected_names_nodup _ _ hnodup))
  have hsorted : List.Pairwise (fun a b => strcmp a b ≤ 0) l :=
    List.Pairwise.sublist hsub (qsort_sorted _)
  have hstrict : List.Pairwise
      (fun a b => strcmp (hex (decode_name a).key) (hex (decode_name b).key) < 0) l := by
    have hboth := List.Pairwise.and hsorted hnd
    refine List.Pairwise.imp_of_mem ?_ hboth
    intro a b ha hb hab
    rw [hex_decode_name a (hmem a ha), hex_decode_name b (hmem b hb)]
    have hne : strcmp a b ≠ 0 := fun h0 => hab.2 (strcmp_eq_zero a b h0)
    have hle := hab.1
    omega
  have hp : List.Pairwise (fun a b => strcmp (hex a.key) (hex b.key) < 0)
      (l.map decode_name) := List.pairwise_map.mpr hstrict
  refine ⟨hp, ?_⟩
  refine List.Pairwise.imp ?_ hp
  intro a b hab heq
  rw [heq, strcmp_self] at hab
  exact lt_irrefl _ hab

/-- Witness for C7: the listing of the unit test `test_string` with prefix
`David`, offset 2 and max 2 returns `Fred` and `Gray`, in that order. -/
theorem list_objects_strictly_ascending_witness :
    List.Pairwise (fun a b => strcmp (hex a.key) (hex b.key) < 0)
      [(⟨[70, 114, 101, 100, 0], 5⟩ : ObjectKey), ⟨[71, 114, 97, 121, 0], 5⟩] ∧
    [(⟨[70, 114, 101, 100, 0], 5⟩ : ObjectKey), ⟨[71, 114, 97, 121, 0], 5⟩].Nodup :=
  list_objects_strictly_ascending test_string_fs 1 1 [68, 97, 118, 105, 100, 0] 2 2 0
    [⟨[70, 114, 101, 100, 0], 5⟩, ⟨[71, 114, 97, 121, 0], 5⟩]
    ⟨by decide, by decide⟩ (by decide)

/-- C8 (counterexample): in the namespace of the unit test `test_string`,
`list_objects` with prefix `David` returns `Edmond` as its second key, and the
hex name of `Edmond` does not start with the hex name of the prefix. -/
theorem list_objects_prefix_counterexample :
    (list_objects test_string_fs 1 1 [68, 97, 118, 105, 100, 0] 0 2).2
      = ListOutcome.returned 0
          [⟨[68, 97, 118, 105, 100, 0], 6⟩, ⟨[69, 100, 109, 111, 110, 100, 0], 7⟩] ∧
    (hex [68, 97, 118, 105, 100, 0]).isPrefixOf (hex [69, 100, 109, 111, 110, 100, 0])
      = false := by
  decide

/-- C8 (amended): in a namespace whose regular files are named by hex names,
for every non-empty prefix, every key returned by `list_objects` is greater
than or equal to the prefix in the order of the hex names: `strcmp` of the hex
name of the key against the hex of the prefix is not negative. -/
theorem list_objects_at_least_prefix (fs : FS) (bus ns : Nat) ( key_prefix : List Nat)
    (offset max_to_return : Nat) (ret : Int) (objects : List ObjectKey)
    (_hp : key_prefix ≠ [])
    (hhex : ∀ e ∈ dir_of fs bus ns, e.d_type = DType.DT_REG → is_hex_name e.d_name = true)
    (h : (list_objects fs bus ns key_prefix offset max_to_return).2
      = ListOutcome.returned ret objects) :
    ∀ k ∈ objects, 0 ≤ strcmp (hex k.key) (hex key_prefix) := by
  obtain ⟨l, hsub, rfl⟩ := list_objects_returned fs bus ns key_prefix offset max_to_return
    ret objects h
  intro k hk
  rw [List.mem_map] at hk
  obtain ⟨x, hx, rfl⟩ := hk
  have hx1 : x ∈ collected_names (dir_of fs bus ns) key_prefix :=
    (qsort_perm _).mem_iff.mp (hsub.subset hx)
  obtain ⟨e, he, hname, hreg, hge⟩ := collected_names_mem _ _ x hx1
  have hxhex : is_hex_name x = true := by
    rw [← hname]
    exact hhex e he hreg
  rw [hex_decode_name x hxhex]
  rcases hge with h0 | hge
  · have : key_prefix = [] := List.length_eq_zero.mp h0
    rw [this]
    exact strcmp_nil_right x
  · omega

/-- Witness for C8 (amended): the listing of the unit test `test_string` with
prefix `David`; `Edmond` compares above the prefix. -/
theorem list_objects_at_least_prefix_witness :
    0 ≤ strcmp (hex [69, 100, 109, 111, 110, 100, 0]) (hex [68, 97, 118, 105, 100, 0]) :=
  list_objects_at_least_prefix test_string_fs 1 1 [68, 97, 118, 105, 100, 0] 0 2 0
    [⟨[68, 97, 118, 105, 100, 0], 6⟩, ⟨[69, 100, 109, 111, 110, 100, 0], 7⟩]
    (by decide) (by decide) (by decide) ⟨[69, 100, 109, 111, 110, 100, 0], 7⟩ (by decide)

set_option maxRecDepth 1000000 in
/-- C6 (failing input): with 129 objects in the namespace the unlimited
listing returns all 129 keys, the first being the key 0, but the listing with
offset 0 and max 1 does not return that key: once 128 names are collected the
array is resized to `MIN(256, 1 + 0) = 1` slot and the scan goes on outside
the heap block. -/
theorem list_objects_page_overflow :
    (list_objects crowded_fs 1 1 [] 0 0).2
      = ListOutcome.returned 0 ((List.range 129).map (fun i => ⟨[i], 1⟩)) ∧
    (list_objects crowded_fs 1 1 [] 0 1).2 = ListOutcome.heap_overflow := by
  decide

/-! ## Lemmas on the key decoder -/

theorem and_255 (x : Nat) : x &&& 255 = x % 256 :=
  Nat.and_pow_two_sub_one_eq_mod x 8

theorem shr_24 (w : Nat) : w >>> 24 = w / 16777216 := Nat.shiftRight_eq_div_pow w 24

theorem shr_16 (w : Nat) : w >>> 16 = w / 65536 := Nat.shiftRight_eq_div_pow w 16

theorem shr_8 (w : Nat) : w >>> 8 = w / 256 := Nat.shiftRight_eq_div_pow w 8

theorem nvme_kv_get_key_bytes (cmd : NvmeKvCmd) (empty_allowed : Bool)
    (h1 : 1 ≤ NVME_KV_GET_KEY_LENGTH cmd.key_length_and_options)
    (h16 : NVME_KV_GET_KEY_LENGTH cmd.key_length_and_options ≤ 16) :
    nvme_kv_get_key cmd empty_allowed =
      some ((big_endian cmd.key_word_4 ++ big_endian cmd.key_word_3 ++
          big_endian cmd.key_word_2 ++ big_endian cmd.key_word_1).take
            (NVME_KV_GET_KEY_LENGTH cmd.key_length_and_options),
        NVME_KV_GET_KEY_LENGTH cmd.key_length_and_options) := by
  unfold nvme_kv_get_key
  simp only []
  generalize NVME_KV_GET_KEY_LENGTH cmd.key_length_and_options = L at h1 h16
  have hne : ¬ L = 0 := by omega
  have hle : ¬ L > 16 := by omega
  simp only [hne, hle, beq_iff_eq, decide_False, Bool.and_false, Bool.or_false,
    Bool.false_eq_true, if_false, decide_eq_true_eq]
  interval_cases L <;>
    simp [key_outer_loop, key_inner_loop, shr_24, shr_16, shr_8, and_255, big_endian]

theorem NVME_KV_GET_KEY_LENGTH_pack (key : List Nat) (options : Nat) (h : key.length ≤ 16) :
    NVME_KV_GET_KEY_LENGTH (spec_pack_key key options).key_length_and_options = key.length := by
  simp only [NVME_KV_GET_KEY_LENGTH, spec_pack_key]
  rw [and_255]
  omega

theorem big_endian_word_of_bytes (a b c d : Nat) (ha : a < 256) (hb : b < 256) (hc : c < 256)
    (hd : d < 256) :
    big_endian (a * 2 ^ 24 + b * 2 ^ 16 + c * 2 ^ 8 + d) = [a, b, c, d] := by
  simp only [big_endian, List.cons.injEq, and_true]
  refine ⟨?_, ?_, ?_, ?_⟩ <;> omega

theorem getD_lt_256 (bs : List Nat) (hb : ∀ b ∈ bs, b < 256) (i : Nat) : bs.getD i 0 < 256 := by
  by_cases h : i < bs.length
  · rw [List.getD_eq_getElem _ _ h]
    exact hb _ (List.getElem_mem h)
  · rw [List.getD_eq_default _ _ (by omega)]
    decide

theorem big_endian_word (bs : List Nat) (hb : ∀ b ∈ bs, b < 256) :
    big_endian (word_of_bytes bs) = [bs.getD 0 0, bs.getD 1 0, bs.getD 2 0, bs.getD 3 0] :=
  big_endian_word_of_bytes _ _ _ _ (getD_lt_256 bs hb 0) (getD_lt_256 bs hb 1)
    (getD_lt_256 bs hb 2) (getD_lt_256 bs hb 3)

theorem pack_roundtrip (key : List Nat) (h16 : key.length ≤ 16) (hb : ∀ b ∈ key, b < 256) :
    (big_endian (word_of_bytes key) ++ big_endian (word_of_bytes (key.drop 4)) ++
      big_endian (word_of_bytes (key.drop 8)) ++ big_endian (word_of_bytes (key.drop 12))).take
        key.length = key := by
  have hd : ∀ i, ∀ b ∈ key.drop i, b < 256 := fun i b h => hb b (List.mem_of_mem_drop h)
  rw [big_endian_word key hb, big_endian_word _ (hd 4), big_endian_word _ (hd 8),
    big_endian_word _ (hd 12)]
  rcases key with _ | ⟨k0, _ | ⟨k1, _ | ⟨k2, _ | ⟨k3, _ | ⟨k4, _ | ⟨k5, _ | ⟨k6, _ | ⟨k7,
    _ | ⟨k8, _ | ⟨k9, _ | ⟨k10, _ | ⟨k11, _ | ⟨k12, _ | ⟨k13, _ | ⟨k14, _ | ⟨k15, _ | ⟨k16, r⟩⟩⟩⟩⟩⟩⟩⟩⟩⟩⟩⟩⟩⟩⟩⟩⟩
  all_goals first
    | (simp only [List.length_cons] at h16; omega)
    | simp

/-! ## Names and keys -/

theorem list_objects_single (b n : Nat) (key value : List Nat) (h1 : 1 ≤ key.length)
    (h16 : key.length ≤ 16) (hb : ∀ x ∈ key, x < 256) :
    (list_objects (store_object empty_fs b n key value false false false).1 b n [] 0 0).2
      = ListOutcome.returned 0 [⟨key, key.length⟩] := by
  obtain ⟨_, hc⟩ := store_object_cases empty_fs b n key value false false false rfl
  have hlk : lookup empty_fs ⟨b, n, path_name key⟩ = none := rfl
  have hd : (store_object empty_fs b n key value false false false).1.ns_dirs b n
      = some (fresh_dir ++ [⟨hex key, DType.DT_REG, value⟩]) := by
    rcases hc with ⟨_, hd, _⟩ | ⟨hneg, _, hc⟩
    · rw [hd]
      have hdir : dir_of empty_fs b n = fresh_dir := rfl
      have hfr : find_entry fresh_dir (hex key) = none := by
        rw [← path_name_eq_hex]; exact find_entry_fresh_dir key
      have hn1 : ¬ ['.'] = hex key := by
        intro h; rw [← h] at hfr; simp [find_entry, fresh_dir] at hfr
      have hn2 : ¬ ['.', '.'] = hex key := by
        intro h; rw [← h] at hfr; simp [find_entry, fresh_dir] at hfr
      simp only [hdir, path_name_eq_hex, dir_after_store, hfr]
      simp [set_data, fresh_dir, hn1, hn2]
    · rcases hc with ⟨_, h, _⟩ | ⟨e, h, _⟩ | ⟨e, h, _⟩
      · cases h
      · rw [hlk] at h; cases h
      · rw [hlk] at h; cases h
  generalize (store_object empty_fs b n key value false false false).1 = fs at hd
  have e1 : get_path_str fs b n [] true =
      ((get_path_str fs b n [] true).1, ⟨b, n, path_name []⟩) := rfl
  have hsame := get_path_str_ns_same fs b n []
  have hdir : dir_of fs b n = fresh_dir ++ [⟨hex key, DType.DT_REG, value⟩] := by
    simp [dir_of, hd]
  rw [hdir] at hsame
  generalize (get_path_str fs b n [] true).1 = fs1 at e1 hsame
  have hlen : (hex key).length + 1 ≤ max_key_str_len := by
    rw [hex_length]; simp only [max_key_str_len]; omega
  have hdec := decode_name_hex key hb
  unfold list_objects
  rw [e1]
  simp only [hsame]
  have hk16 : ¬ 16 < key.length := by omega
  simp [scan_dir, scan_step, fresh_dir, hlen, MIN, hex, qsort, convert_names, hdec, hk16]

/-- C9: for every key of 1..16 bytes, `hex(key)` has `2 * len(key)` characters,
all among `0-9A-F`, and decoding that name as `list_objects` does gives back
exactly the key bytes and the key length; the conversion loop of
`list_objects` accepts the name, and a key stored in an empty store is listed
with the bytes it was stored under. -/
theorem hex_name_roundtrip (key : List Nat) (h1 : 1 ≤ key.length) (h16 : key.length ≤ 16)
    (hb : ∀ x ∈ key, x < 256) :
    (hex key).length = 2 * key.length ∧
    (∀ c ∈ hex key, c ∈ hexout) ∧
    decode_name (hex key) = ⟨key, key.length⟩ ∧
    convert_names [hex key] = some [⟨key, key.length⟩] ∧
    (∀ (b n : Nat) (value : List Nat),
      (list_objects (store_object empty_fs b n key value false false false).1 b n [] 0 0).2
        = ListOutcome.returned 0 [⟨key, key.length⟩]) := by
  have hdec := decode_name_hex key hb
  refine ⟨hex_length key, hex_mem_hexout key, hdec, ?_, ?_⟩
  · simp [convert_names, hdec, h16]
  · intro b n value
    exact list_objects_single b n key value h1 h16 hb

/-- Witness for C9: the binary key of the unit test `test_binary`. -/
theorem hex_name_roundtrip_witness :
    (hex [225, 226, 227, 228, 229, 230]).length = 2 * [225, 226, 227, 228, 229, 230].length ∧
    decode_name (hex [225, 226, 227, 228, 229, 230])
      = ⟨[225, 226, 227, 228, 229, 230], [225, 226, 227, 228, 229, 230].length⟩ :=
  have h := hex_name_roundtrip [225, 226, 227, 228, 229, 230] (by decide) (by decide)
    (by decide)
  ⟨h.1, h.2.2.1⟩

/-- C10: for every submission entry whose key length `L` (the low 8 bits of the
option/length word) is in 1..16, `nvme_kv_get_key` succeeds, reports
`key_len = L` and writes as key the first `L` bytes of
`big-endian(word4) ++ big-endian(word3) ++ big-endian(word2) ++
big-endian(word1)`; and a key of 1..16 bytes packed into the words in that
layout, under any option bits, is decoded to the same key and length. -/
theorem nvme_kv_get_key_layout (empty_allowed : Bool) :
    (∀ cmd : NvmeKvCmd,
      1 ≤ NVME_KV_GET_KEY_LENGTH cmd.key_length_and_options →
      NVME_KV_GET_KEY_LENGTH cmd.key_length_and_options ≤ 16 →
      nvme_kv_get_key cmd empty_allowed =
        some ((big_endian cmd.key_word_4 ++ big_endian cmd.key_word_3 ++
            big_endian cmd.key_word_2 ++ big_endian cmd.key_word_1).take
              (NVME_KV_GET_KEY_LENGTH cmd.key_length_and_options),
          NVME_KV_GET_KEY_LENGTH cmd.key_length_and_options)) ∧
    (∀ (key : List Nat) (options : Nat), 1 ≤ key.length → key.length ≤ 16 →
      (∀ x ∈ key, x < 256) →
      nvme_kv_get_key (spec_pack_key key options) empty_allowed = some (key, key.length)) := by
  refine ⟨fun cmd h1 h16 => nvme_kv_get_key_bytes cmd empty_allowed h1 h16, ?_⟩
  intro key options h1 h16 hb
  have hL := NVME_KV_GET_KEY_LENGTH_pack key options h16
  rw [nvme_kv_get_key_bytes _ empty_allowed (by rw [hL]; exact h1) (by rw [hL]; exact h16), hL]
  have hp := pack_roundtrip key h16 hb
  simp only [spec_pack_key]
  rw [hp]

/-- Witness for C10: a five-byte key in the two most significant words. -/
theorem nvme_kv_get_key_layout_witness :
    nvme_kv_get_key ⟨5, 0, 0, 0x05000000, 0x01020304⟩ false = some ([1, 2, 3, 4, 5], 5) ∧
    nvme_kv_get_key (spec_pack_key [1, 2, 3, 4, 5] 3) false = some ([1, 2, 3, 4, 5], 5) :=
  ⟨(nvme_kv_get_key_layout false).1 ⟨5, 0, 0, 0x05000000, 0x01020304⟩ (by decide) (by decide),
    (nvme_kv_get_key_layout false).2 [1, 2, 3, 4, 5] 3 (by decide) (by decide) (by decide)⟩

/-! ## Lemmas on the select result cache -/

theorem store_scan_char (c : Nat → select_store_data_entry) (results : Option (List Nat))
    (results_len p0 : Nat) :
    ∀ (n k : Nat) (oldest : Option Nat), n + k = 32 →
      (k = 0 → oldest = none) →
      (0 < k → ∃ o, oldest = some o ∧ (∃ t < k, o = (p0 + t) % 32) ∧
        ∀ t < k, (c ((p0 + t) % 32)).in_use = true ∧ (c o).id ≤ (c ((p0 + t) % 32)).id) →
      (∃ t < 32, (c ((p0 + t) % 32)).in_use = false ∧
        store_scan results results_len n ⟨c, (p0 + k) % 32⟩ oldest =
          (⟨set_entry c ((p0 + t) % 32) (filled_entry (c ((p0 + t) % 32)) results results_len),
            ((p0 + t) % 32 + 1) % 32⟩, ((c ((p0 + t) % 32)).last_id + 32) % 2 ^ 32)) ∨
      (∃ t < 32, (∀ s < 32, (c ((p0 + s) % 32)).in_use = true ∧
          (c ((p0 + t) % 32)).id ≤ (c ((p0 + s) % 32)).id) ∧
        store_scan results results_len n ⟨c, (p0 + k) % 32⟩ oldest =
          (⟨set_entry c ((p0 + t) % 32) (evicted_entry (c ((p0 + t) % 32)) results results_len),
            (p0 + 32) % 32⟩, ((c ((p0 + t) % 32)).id + 32) % 2 ^ 32)) := by
  intro n
  induction n with
  | zero =>
    intro k oldest hk _ hold
    have hk32 : k = 32 := by omega
    subst hk32
    obtain ⟨o, rfl, ⟨t, ht, rfl⟩, hall⟩ := hold (by omega)
    right
    exact ⟨t, ht, hall, rfl⟩
  | succ n ih =>
    intro k oldest hk hnone hold
    have hk32 : k < 32 := by omega
    by_cases hfree : (c ((p0 + k) % 32)).in_use = false
    · left
      refine ⟨k, hk32, hfree, ?_⟩
      simp [store_scan, hfree, filled_entry, SELECT_NUM_CACHE_ENTRIES]
    · have huse : (c ((p0 + k) % 32)).in_use = true := by simpa using hfree
      have hnext : ((p0 + k) % 32 + 1) % 32 = (p0 + (k + 1)) % 32 := by omega
      cases oldest with
      | none =>
        have hk0 : k = 0 := by
          by_contra hne
          obtain ⟨o, ho, _⟩ := hold (by omega)
          cases ho
        have hstep : store_scan results results_len (n + 1) ⟨c, (p0 + k) % 32⟩ none =
            store_scan results results_len n ⟨c, (p0 + (k + 1)) % 32⟩
              (some ((p0 + k) % 32)) := by
          simp [store_scan, huse, SELECT_NUM_CACHE_ENTRIES, hnext]
        rw [hstep]
        apply ih (k + 1) _ (by omega) (by omega)
        intro _
        refine ⟨(p0 + k) % 32, rfl, ⟨k, by omega, rfl⟩, ?_⟩
        intro t ht
        have : t = k := by omega
        subst this
        exact ⟨huse, le_refl _⟩
      | some o =>
        have hkpos : 0 < k := by
          by_contra hne
          have := hnone (by omega)
          cases this
        obtain ⟨o1, ho1, ⟨t0, ht0, ho⟩, hall⟩ := hold hkpos
        cases ho1
        have hstep : store_scan results results_len (n + 1) ⟨c, (p0 + k) % 32⟩ (some o) =
            store_scan results results_len n ⟨c, (p0 + (k + 1)) % 32⟩
              (if (c o).id > (c ((p0 + k) % 32)).id then some ((p0 + k) % 32) else some o) := by
          simp [store_scan, huse, SELECT_NUM_CACHE_ENTRIES, hnext]
        rw [hstep]
        apply ih (k + 1) _ (by omega) (by omega)
        intro _
        by_cases hgt : (c o).id > (c ((p0 + k) % 32)).id
        · refine ⟨(p0 + k) % 32, by simp [hgt], ⟨k, by omega, rfl⟩, ?_⟩
          intro t ht
          by_cases htk : t = k
          · subst htk
            exact ⟨huse, le_refl _⟩
          · have := hall t (by omega)
            exact ⟨this.1, by omega⟩
        · refine ⟨o, by simp [hgt], ⟨t0, by omega, ho⟩, ?_⟩
          intro t ht
          by_cases htk : t = k
          · subst htk
            exact ⟨huse, by omega⟩
          · exact hall t (by omega)

/-- The two ways `select_results_store` ends: it fills a slot that was not in
use, or every slot was in use and it reuses one holding the smallest id. -/
theorem select_results_store_cases (st : SelectCache) (results : Option (List Nat))
    (results_len : Nat) (hnext : st.next_id < 32) :
    (∃ j < 32, (st.data_cache j).in_use = false ∧
      select_results_store st results results_len =
        (⟨set_entry st.data_cache j (filled_entry (st.data_cache j) results results_len),
          (j + 1) % 32⟩, ((st.data_cache j).last_id + 32) % 2 ^ 32)) ∨
    (∃ o < 32, (∀ i < 32, (st.data_cache i).in_use = true ∧
        (st.data_cache o).id ≤ (st.data_cache i).id) ∧
      select_results_store st results results_len =
        (⟨set_entry st.data_cache o (evicted_entry (st.data_cache o) results results_len),
          st.next_id⟩, ((st.data_cache o).id + 32) % 2 ^ 32)) := by
  have h := store_scan_char st.data_cache results results_len st.next_id 32 0 none rfl
    (fun _ => rfl) (fun h => absurd h (by omega))
  have e0 : (st.next_id + 0) % 32 = st.next_id := by omega
  have e32 : (st.next_id + 32) % 32 = st.next_id := by omega
  have hst : (⟨st.data_cache, (st.next_id + 0) % 32⟩ : SelectCache) = st := by
    rw [e0]
  rw [hst, e32] at h
  rcases h with ⟨t, ht, hfree, heq⟩ | ⟨t, ht, hall, heq⟩
  · left
    exact ⟨(st.next_id + t) % 32, Nat.mod_lt _ (by omega), hfree, heq⟩
  · right
    refine ⟨(st.next_id + t) % 32, Nat.mod_lt _ (by omega), ?_, heq⟩
    intro i hi
    have := hall ((i + 32 - st.next_id) % 32) (Nat.mod_lt _ (by omega))
    have e : (st.next_id + (i + 32 - st.next_id) % 32) % 32 = i := by omega
    rw [e] at this
    exact this

theorem set_entry_same (c : Nat → select_store_data_entry) (i : Nat)
    (e : select_store_data_entry) : set_entry c i e i = e := by
  simp [set_entry]

theorem set_entry_other (c : Nat → select_store_data_entry) (i j : Nat)
    (e : select_store_data_entry) (h : j ≠ i) : set_entry c i e j = c j := by
  simp [set_entry, h]

theorem cache_inv_init : CacheInv select_results_init [] := by
  refine ⟨by decide, ?_, ?_, ?_⟩
  · intro i hi
    refine ⟨Nat.mod_eq_of_lt hi, ?_, ?_, ?_, ?_, ?_⟩
    · show i < 2 ^ 32
      omega
    · show 0 < 2 ^ 32
      decide
    · intro h; cases h
    · intro _; exact ⟨rfl, rfl, rfl⟩
    · intro b h; cases h
  · intro i _
    left
    rfl
  · intro _ h hh
    cases hh

theorem store_valid_length (results : Option (List Nat)) (results_len : Nat)
    (hv : valid_op (CacheOp.store results results_len) = true) :
    ∀ b, results = some b → b.length = results_len := by
  intro b hb
  subst hb
  simpa [valid_op] using hv

/-- A store changes one slot, the slot `id % 32` of the id it returns; that
slot then is in use and holds the buffer under that id, and the id is the
generation of the slot plus 32 in `uint32_t`. -/
theorem select_results_store_slot (st : SelectCache) (issued : List Nat)
    (results : Option (List Nat)) (results_len : Nat) (hinv : CacheInv st issued) :
    let r := select_results_store st results results_len
    r.2 < 2 ^ 32 ∧
    r.2 = (entry_gen (st.data_cache (r.2 % 32)) + 32) % 2 ^ 32 ∧
    (r.1.data_cache (r.2 % 32)).in_use = true ∧
    (r.1.data_cache (r.2 % 32)).data = results ∧
    (r.1.data_cache (r.2 % 32)).data_len = results_len ∧
    (r.1.data_cache (r.2 % 32)).id = r.2 ∧
    (r.1.data_cache (r.2 % 32)).last_id = (st.data_cache (r.2 % 32)).last_id ∧
    (∀ i, i ≠ r.2 % 32 → r.1.data_cache i = st.data_cache i) ∧
    r.1.next_id < 32 := by
  obtain ⟨hnext, hslots, _, _⟩ := hinv
  rcases select_results_store_cases st results results_len hnext with
    ⟨j, hj, hfree, heq⟩ | ⟨o, ho, hall, heq⟩
  · obtain ⟨hl, _, _, _, _, _⟩ := hslots j hj
    have hmod : ((st.data_cache j).last_id + 32) % 2 ^ 32 % 32 = j := by omega
    simp only [heq, hmod]
    refine ⟨Nat.mod_lt _ (by decide), ?_, ?_, ?_, ?_, ?_, ?_, ?_, Nat.mod_lt _ (by decide)⟩
    · simp [entry_gen, hfree]
    · simp [set_entry, filled_entry]
    · simp [set_entry, filled_entry]
    · simp [set_entry, filled_entry]
    · simp [set_entry, filled_entry]
    · simp [set_entry, filled_entry]
    · intro i hi
      exact set_entry_other _ _ _ _ hi
  · obtain ⟨_, _, _, hid, _, _⟩ := hslots o ho
    have huse := (hall o ho).1
    have hmod : ((st.data_cache o).id + 32) % 2 ^ 32 % 32 = o := by
      have := hid huse
      omega
    simp only [heq, hmod]
    refine ⟨Nat.mod_lt _ (by decide), ?_, ?_, ?_, ?_, ?_, ?_, ?_, hnext⟩
    · simp [entry_gen, huse]
    · simp [set_entry, evicted_entry, huse]
    · simp [set_entry, evicted_entry]
    · simp [set_entry, evicted_entry]
    · simp [set_entry, evicted_entry]
    · simp [set_entry, evicted_entry]
    · intro i hi
      exact set_entry_other _ _ _ _ hi

theorem cache_inv_store (st : SelectCache) (issued : List Nat) (results : Option (List Nat))
    (results_len : Nat) (hinv : CacheInv st issued)
    (hv : valid_op (CacheOp.store results results_len) = true) :
    CacheInv (select_results_store st results results_len).1
      (issued ++ [(select_results_store st results results_len).2]) := by
  have hs := select_results_store_slot st issued results results_len hinv
  obtain ⟨hnext, hslots, hgen, hhist⟩ := hinv
  simp only [] at hs
  generalize select_results_store st results results_len = r at hs
  obtain ⟨hlt, hid, huse, hdata, hlen, hrid, hlast, hother, hnext1⟩ := hs
  have hj : r.2 % 32 < 32 := Nat.mod_lt _ (by decide)
  have hgen1 : entry_gen (r.1.data_cache (r.2 % 32)) = r.2 := by simp [entry_gen, huse, hrid]
  refine ⟨hnext1, ?_, ?_, ?_⟩
  · intro i hi
    by_cases hij : i = r.2 % 32
    · subst hij
      obtain ⟨h1, h2, _, _, _, _⟩ := hslots _ hi
      refine ⟨by rw [hlast]; exact h1, by rw [hlast]; exact h2, by rw [hrid]; exact hlt, ?_, ?_, ?_⟩
      · intro _; rw [hrid]
      · intro hf; rw [huse] at hf; cases hf
      · intro b hb
        rw [hlen]
        rw [hdata] at hb
        exact store_valid_length results results_len hv b hb
    · rw [hother i hij]
      exact hslots i hi
  · intro i hi
    by_cases hij : i = r.2 % 32
    · subst hij
      right
      rw [hgen1]
      simp
    · rw [hother i hij]
      rcases hgen i hi with h | h
      · left; exact h
      · right; exact List.mem_append_left _ h
  · intro hsmall h hh
    have hsmall0 : ∀ h ∈ issued, h + 32 < 2 ^ 32 :=
      fun x hx => hsmall x (List.mem_append_left _ hx)
    have hold := hhist hsmall0
    have hgenj : entry_gen (st.data_cache (r.2 % 32)) + 32 < 2 ^ 32 := by
      rcases hgen _ hj with h1 | h1
      · rw [h1]; omega
      · exact hsmall0 _ h1
    have hidx : r.2 = entry_gen (st.data_cache (r.2 % 32)) + 32 := by
      rw [Nat.mod_eq_of_lt hgenj] at hid
      exact hid
    rw [List.mem_append, List.mem_singleton] at hh
    rcases hh with hh | rfl
    · by_cases hij : h % 32 = r.2 % 32
      · rw [hij, hgen1]
        have := hold h hh
        rw [hij] at this
        omega
      · rw [hother _ hij]
        exact hold h hh
    · rw [hgen1]

/-- The three ways `select_results_retrieve` ends. -/
theorem select_results_retrieve_cases (st : SelectCache) (id : Nat) (dnr dnrs : Bool)
    (size_check : Nat) :
    (((st.data_cache (id % 32)).data = none ∨ (st.data_cache (id % 32)).id ≠ id) ∧
      select_results_retrieve st id dnr dnrs size_check = (st, ⟨none, 0, false⟩)) ∨
    (∃ data, (st.data_cache (id % 32)).data = some data ∧ (st.data_cache (id % 32)).id = id ∧
      (!dnr && (!dnrs || decide ((st.data_cache (id % 32)).data_len ≤ size_check))) = true ∧
      select_results_retrieve st id dnr dnrs size_check =
        (⟨set_entry st.data_cache (id % 32) (removed_entry (st.data_cache (id % 32))),
          st.next_id⟩, ⟨some data, (st.data_cache (id % 32)).data_len, true⟩)) ∨
    (∃ data, (st.data_cache (id % 32)).data = some data ∧ (st.data_cache (id % 32)).id = id ∧
      (!dnr && (!dnrs || decide ((st.data_cache (id % 32)).data_len ≤ size_check))) = false ∧
      select_results_retrieve st id dnr dnrs size_check =
        (st, ⟨if (st.data_cache (id % 32)).data_len = 0 then none
              else some (data.take (st.data_cache (id % 32)).data_len),
          (st.data_cache (id % 32)).data_len, true⟩)) := by
  unfold select_results_retrieve
  simp only [SELECT_NUM_CACHE_ENTRIES]
  cases hd : (st.data_cache (id % 32)).data with
  | none => left; exact ⟨Or.inl rfl, rfl⟩
  | some data =>
    by_cases hid : (st.data_cache (id % 32)).id = id
    · cases hc : (!dnr && (!dnrs || decide ((st.data_cache (id % 32)).data_len ≤ size_check)))
      · right; right
        refine ⟨data, rfl, hid, rfl, ?_⟩
        simp only [hid, ne_eq, not_true_eq_false, if_false, hc, Bool.false_eq_true]
      · right; left
        refine ⟨data, rfl, hid, rfl, ?_⟩
        simp only [hid, ne_eq, not_true_eq_false, if_false, hc, if_true, removed_entry]
    · left
      refine ⟨Or.inr hid, ?_⟩
      simp [hid]

theorem cache_inv_retrieve (st : SelectCache) (issued : List Nat) (id : Nat) (dnr dnrs : Bool)
    (size_check : Nat) (hinv : CacheInv st issued) :
    CacheInv (select_results_retrieve st id dnr dnrs size_check).1 issued := by
  rcases select_results_retrieve_cases st id dnr dnrs size_check with
    ⟨_, heq⟩ | ⟨data, hdata, hid, _, heq⟩ | ⟨_, _, _, _, heq⟩
  · rw [heq]; exact hinv
  · rw [heq]
    obtain ⟨hnext, hslots, hgen, hhist⟩ := hinv
    have hk : id % 32 < 32 := Nat.mod_lt _ (by decide)
    obtain ⟨_, _, h3, _, h5, _⟩ := hslots _ hk
    have huse : (st.data_cache (id % 32)).in_use = true := by
      by_contra hne
      have hf : (st.data_cache (id % 32)).in_use = false := by simpa using hne
      rw [(h5 hf).2.1] at hdata
      cases hdata
    have hgen0 : entry_gen (st.data_cache (id % 32)) = id := by simp [entry_gen, huse, hid]
    have hgen1 : ∀ i, entry_gen (set_entry st.data_cache (id % 32)
        (removed_entry (st.data_cache (id % 32))) i) = entry_gen (st.data_cache i) := by
      intro i
      by_cases hi : i = id % 32
      · subst hi
        rw [set_entry_same, hgen0]
        simp [entry_gen, removed_entry, hid]
      · rw [set_entry_other _ _ _ _ hi]
    refine ⟨hnext, ?_, ?_, ?_⟩
    · intro i hi
      dsimp only
      by_cases hik : i = id % 32
      · subst hik
        rw [set_entry_same]
        refine ⟨by simp [removed_entry, hid], by simpa [removed_entry] using h3,
          by simp [removed_entry], ?_, ?_, ?_⟩
        · intro h; cases h
        · intro _; exact ⟨rfl, rfl, rfl⟩
        · intro b h; cases h
      · rw [set_entry_other _ _ _ _ hik]
        exact hslots i hi
    · intro i hi
      dsimp only
      rw [hgen1 i]
      exact hgen i hi
    · intro hsmall h hh
      dsimp only
      rw [hgen1]
      exact hhist hsmall h hh
  · rw [heq]; exact hinv

theorem cache_inv_foldl (ops : List CacheOp) :
    ∀ p : SelectCache × List Nat, CacheInv p.1 p.2 → (∀ op ∈ ops, valid_op op = true) →
      CacheInv (ops.foldl cache_step p).1 (ops.foldl cache_step p).2 := by
  induction ops with
  | nil => intro p h _; exact h
  | cons op rest ih =>
    intro p h hv
    rw [List.foldl_cons]
    apply ih
    · cases op with
      | store results results_len =>
        exact cache_inv_store p.1 p.2 results results_len h (hv _ (List.mem_cons_self _ _))
      | retrieve id a b c =>
        exact cache_inv_retrieve p.1 p.2 id a b c h
    · intro op1 h1
      exact hv op1 (List.mem_cons_of_mem _ h1)

/-- Every reachable state satisfies the invariant. -/
theorem cache_inv_of_reachable (st : SelectCache) (issued : List Nat)
    (h : CacheReachable st issued) : CacheInv st issued := by
  obtain ⟨ops, hv, hrun⟩ := h
  have := cache_inv_foldl ops (select_results_init, []) cache_inv_init hv
  unfold cache_run at hrun
  rw [hrun] at this
  exact this

theorem cache_apply_inv (st : SelectCache) (issued : List Nat) (op : CacheOp)
    (hinv : CacheInv st issued) (hv : valid_op op = true) :
    ∃ issued1, CacheInv (cache_apply st op) issued1 := by
  cases op with
  | store results results_len =>
    exact ⟨_, cache_inv_store st issued results results_len hinv hv⟩
  | retrieve id a b c =>
    exact ⟨_, cache_inv_retrieve st issued id a b c hinv⟩

theorem slot_free_foldl (j : Nat) (ops : List CacheOp) :
    ∀ (st : SelectCache) (issued : List Nat), CacheInv st issued →
      (∀ op ∈ ops, valid_op op = true) → no_reuse j st ops →
      (st.data_cache j).data = none →
      ((ops.foldl cache_apply st).data_cache j).data = none := by
  induction ops with
  | nil => intro st _ _ _ _ h; exact h
  | cons op rest ih =>
    intro st issued hinv hv hno hfree
    rw [List.foldl_cons]
    obtain ⟨issued1, hinv1⟩ := cache_apply_inv st issued op hinv (hv _ (List.mem_cons_self _ _))
    apply ih _ issued1 hinv1 (fun o ho => hv o (List.mem_cons_of_mem _ ho)) hno.2
    cases op with
    | store results results_len =>
      have hs := select_results_store_slot st issued results results_len hinv
      have hne := hno.1
      simp only [] at hne
      show ((select_results_store st results results_len).1.data_cache j).data = none
      rw [hs.2.2.2.2.2.2.2.1 j (fun h => hne h.symm)]
      exact hfree
    | retrieve id a b c =>
      show ((select_results_retrieve st id a b c).1.data_cache j).data = none
      rcases select_results_retrieve_cases st id a b c with
        ⟨_, heq⟩ | ⟨data, _, _, _, heq⟩ | ⟨_, _, _, _, heq⟩
      · rw [heq]; exact hfree
      · rw [heq]
        dsimp only
        by_cases hj : j = id % 32
        · rw [hj, set_entry_same]; rfl
        · rw [set_entry_other _ _ _ _ hj]; exact hfree
      · rw [heq]; exact hfree

theorem retrieve_not_found_of_no_data (st : SelectCache) (id : Nat) (a b : Bool) (c : Nat)
    (h : (st.data_cache (id % 32)).data = none) :
    (select_results_retrieve st id a b c).2 = ⟨none, 0, false⟩ := by
  rcases select_results_retrieve_cases st id a b c with
    ⟨_, heq⟩ | ⟨data, hd, _⟩ | ⟨data, hd, _⟩
  · rw [heq]
  · rw [h] at hd; cases hd
  · rw [h] at hd; cases hd

/-- C17: in every cache state reachable from `select_results_init`, for the id
returned by `select_results_store(buf, len)` with a non-null buffer of `len`
bytes, a following `select_results_retrieve(id)` with `do_not_remove = false`
and `do_not_remove_if_size_gt = false` or `len <= size_check` reports found
and returns the stored buffer with `data_len = len`; and after any further
calls among which no store takes the slot again, every
`select_results_retrieve(id, ...)` reports not-found. -/
theorem select_store_then_retrieve (st : SelectCache) (issued : List Nat)
    (hr : CacheReachable st issued) (buf : List Nat) (dnrs : Bool) (size_check : Nat)
    (hsz : dnrs = false ∨ buf.length ≤ size_check) :
    (select_results_retrieve (select_results_store st (some buf) buf.length).1
        (select_results_store st (some buf) buf.length).2 false dnrs size_check).2
      = ⟨some buf, buf.length, true⟩ ∧
    ∀ later : List CacheOp, (∀ op ∈ later, valid_op op = true) →
      no_reuse ((select_results_store st (some buf) buf.length).2 % 32)
        (select_results_retrieve (select_results_store st (some buf) buf.length).1
          (select_results_store st (some buf) buf.length).2 false dnrs size_check).1 later →
      ∀ (a b : Bool) (c : Nat),
        (select_results_retrieve
          (later.foldl cache_apply
            (select_results_retrieve (select_results_store st (some buf) buf.length).1
              (select_results_store st (some buf) buf.length).2 false dnrs size_check).1)
          (select_results_store st (some buf) buf.length).2 a b c).2
          = ⟨none, 0, false⟩ := by
  have hinv := cache_inv_of_reachable st issued hr
  have hv : valid_op (CacheOp.store (some buf) buf.length) = true := by simp [valid_op]
  have hinv1 := cache_inv_store st issued (some buf) buf.length hinv hv
  have hs := select_results_store_slot st issued (some buf) buf.length hinv
  simp only [] at hs
  generalize select_results_store st (some buf) buf.length = r at hs hinv1
  obtain ⟨_, _, _, hdata, hlen, hrid, _, _, _⟩ := hs
  have hcond : (!false && (!dnrs || decide ((r.1.data_cache (r.2 % 32)).data_len ≤ size_check)))
      = true := by
    rw [hlen]
    rcases hsz with h | h
    · simp [h]
    · simp [h]
  have hinv2 := cache_inv_retrieve r.1 _ r.2 false dnrs size_check hinv1
  rcases select_results_retrieve_cases r.1 r.2 false dnrs size_check with
    ⟨h, _⟩ | ⟨data, hd, _, _, heq⟩ | ⟨_, _, _, hc, _⟩
  · rcases h with h | h
    · rw [hdata] at h; cases h
    · exact absurd hrid h
  · rw [heq] at hinv2 ⊢
    rw [hdata] at hd
    cases hd
    refine ⟨by rw [hlen], ?_⟩
    intro later hvl hno a b c
    apply retrieve_not_found_of_no_data
    apply slot_free_foldl _ later _ _ hinv2 hvl hno
    dsimp only
    rw [set_entry_same]
    rfl
  · rw [hcond] at hc; cases hc

/-- C19: in every reachable cache state, when `select_results_retrieve` finds
the id, the slot `id % 32` holds a buffer under that id; the slot is cleared
(`in_use = false`, `data = NULL`, `data_len = 0`, `last_id = id`, `id = 0`)
iff `!do_not_remove && (!do_not_remove_if_size_gt || data_len <= size_check)`,
and then the other slots and `next_id` are as before; otherwise the whole
state is unchanged and the same id is found again.  In both cases the bytes
returned are the stored data and the reported `data_len` is its length. -/
theorem select_retrieve_effect (st : SelectCache) (issued : List Nat)
    (hr : CacheReachable st issued) (id : Nat) (dnr dnrs : Bool) (size_check : Nat)
    (hfound : (select_results_retrieve st id dnr dnrs size_check).2.found = true) :
    ∃ data, (st.data_cache (id % 32)).data = some data ∧ (st.data_cache (id % 32)).id = id ∧
      (((select_results_retrieve st id dnr dnrs size_check).1.data_cache (id % 32)
          = ⟨none, 0, 0, id, false⟩) ↔
        (!dnr && (!dnrs || decide ((st.data_cache (id % 32)).data_len ≤ size_check))) = true) ∧
      ((!dnr && (!dnrs || decide ((st.data_cache (id % 32)).data_len ≤ size_check))) = true →
        (∀ i, i ≠ id % 32 →
          (select_results_retrieve st id dnr dnrs size_check).1.data_cache i = st.data_cache i) ∧
        (select_results_retrieve st id dnr dnrs size_check).1.next_id = st.next_id) ∧
      ((!dnr && (!dnrs || decide ((st.data_cache (id % 32)).data_len ≤ size_check))) = false →
        (select_results_retrieve st id dnr dnrs size_check).1 = st ∧
        ∀ (a b : Bool) (c : Nat),
          (select_results_retrieve (select_results_retrieve st id dnr dnrs size_check).1
            id a b c).2.found = true) ∧
      ((select_results_retrieve st id dnr dnrs size_check).2.data.getD []) = data ∧
      (select_results_retrieve st id dnr dnrs size_check).2.data_len = data.length := by
  have hinv := cache_inv_of_reachable st issued hr
  obtain ⟨_, hslots, _, _⟩ := hinv
  obtain ⟨_, _, _, _, _, hlen⟩ := hslots (id % 32) (Nat.mod_lt _ (by decide))
  rcases select_results_retrieve_cases st id dnr dnrs size_check with
    ⟨_, heq⟩ | ⟨data, hd, hid, hc, heq⟩ | ⟨data, hd, hid, hc, heq⟩
  · rw [heq] at hfound; cases hfound
  · refine ⟨data, hd, hid, ?_, ?_, ?_, ?_, ?_⟩
    · rw [heq, hc]
      dsimp only
      rw [set_entry_same]
      simp [removed_entry, hid]
    · intro _
      rw [heq]
      exact ⟨fun i hi => set_entry_other _ _ _ _ hi, rfl⟩
    · intro h; rw [hc] at h; cases h
    · rw [heq]; rfl
    · rw [heq]; exact (hlen data hd).symm
  · have hfind : ∀ (a b : Bool) (c : Nat),
        (select_results_retrieve st id a b c).2.found = true := by
      intro a b c
      rcases select_results_retrieve_cases st id a b c with
        ⟨h, _⟩ | ⟨_, _, _, _, heq1⟩ | ⟨_, _, _, _, heq1⟩
      · rcases h with h | h
        · rw [hd] at h; cases h
        · exact absurd hid h
      · rw [heq1]
      · rw [heq1]
    refine ⟨data, hd, hid, ?_, ?_, ?_, ?_, ?_⟩
    · rw [heq, hc]
      dsimp only
      constructor
      · intro h
        have := congrArg select_store_data_entry.data h
        rw [hd] at this
        cases this
      · intro h; cases h
    · intro h; rw [hc] at h; cases h
    · intro _
      rw [heq]
      exact ⟨rfl, hfind⟩
    · rw [heq]
      dsimp only
      have hl := hlen data hd
      by_cases h0 : (st.data_cache (id % 32)).data_len = 0
      · rw [if_pos h0]
        rw [h0] at hl
        simp [List.length_eq_zero.mp hl]
      · rw [if_neg h0, ← hl]
        simp
    · rw [heq]; exact (hlen data hd).symm

/-- C20: in every reachable cache state, the id `select_results_store`
returns differs from the id of every other entry held in the cache after the
call; and as long as no id issued so far is within 32 of the end of the
32-bit range, it differs from every id issued earlier: it is the generation
of its slot plus 32, every earlier id of the same slot is lower by at least
32, and from the second use of a slot on, the id lower by exactly 32 is the
one issued before it for that slot. -/
theorem select_store_fresh_id (st : SelectCache) (issued : List Nat)
    (hr : CacheReachable st issued) (results : Option (List Nat)) (results_len : Nat) :
    (∀ i < 32, i ≠ (select_results_store st results results_len).2 % 32 →
      ((select_results_store st results results_len).1.data_cache i).in_use = true →
      ((select_results_store st results results_len).1.data_cache i).id
        ≠ (select_results_store st results results_len).2) ∧
    ((∀ h ∈ issued, h + 32 < 2 ^ 32) →
      (select_results_store st results results_len).2 ∉ issued ∧
      (select_results_store st results results_len).2
        = entry_gen (st.data_cache ((select_results_store st results results_len).2 % 32)) + 32 ∧
      (∀ h ∈ issued, h % 32 = (select_results_store st results results_len).2 % 32 →
        h + 32 ≤ (select_results_store st results results_len).2) ∧
      (64 ≤ (select_results_store st results results_len).2 →
        (select_results_store st results results_len).2 - 32 ∈ issued)) := by
  have hinv := cache_inv_of_reachable st issued hr
  have hs := select_results_store_slot st issued results results_len hinv
  obtain ⟨_, hslots, hgen, hhist⟩ := hinv
  simp only [] at hs
  generalize select_results_store st results results_len = r at hs
  obtain ⟨_, hid, _, _, _, _, _, hother, _⟩ := hs
  have hj : r.2 % 32 < 32 := Nat.mod_lt _ (by decide)
  constructor
  · intro i hi hne huse heq
    rw [hother i hne] at huse heq
    obtain ⟨_, _, _, h4, _, _⟩ := hslots i hi
    have := h4 huse
    rw [heq] at this
    exact hne this.symm
  · intro hsmall
    have hold := hhist hsmall
    have hgenj : entry_gen (st.data_cache (r.2 % 32)) + 32 < 2 ^ 32 := by
      rcases hgen _ hj with h1 | h1
      · rw [h1]; omega
      · exact hsmall _ h1
    have hidx : r.2 = entry_gen (st.data_cache (r.2 % 32)) + 32 := by
      rw [Nat.mod_eq_of_lt hgenj] at hid
      exact hid
    have hlow : ∀ h ∈ issued, h % 32 = r.2 % 32 → h + 32 ≤ r.2 := by
      intro h hh hmod
      have := hold h hh
      rw [hmod] at this
      omega
    refine ⟨?_, hidx, hlow, ?_⟩
    · intro hmem
      have := hlow r.2 hmem rfl
      omega
    · intro h64
      rcases hgen _ hj with h1 | h1
      · omega
      · have : r.2 - 32 = entry_gen (st.data_cache (r.2 % 32)) := by omega
        rw [this]
        exact h1

theorem cache_run_reachable (ops : List CacheOp) (hv : ∀ op ∈ ops, valid_op op = true) :
    CacheReachable (cache_run ops).1 (cache_run ops).2 :=
  ⟨ops, hv, rfl⟩

theorem store_next_free (st : SelectCache) (results : Option (List Nat)) (results_len : Nat)
    (h : (st.data_cache st.next_id).in_use = false) :
    select_results_store st results results_len =
      (⟨set_entry st.data_cache st.next_id
          (filled_entry (st.data_cache st.next_id) results results_len),
        (st.next_id + 1) % 32⟩, ((st.data_cache st.next_id).last_id + 32) % 2 ^ 32) := by
  simp [select_results_store, SELECT_NUM_CACHE_ENTRIES, store_scan, h, filled_entry]

theorem cache_run_fresh_succ (bufs : Nat → Option (List Nat)) (lens : Nat → Nat) (k : Nat) :
    cache_run (fresh_stores bufs lens (k + 1)) =
      cache_step (cache_run (fresh_stores bufs lens k)) (CacheOp.store (bufs k) (lens k)) := by
  simp [cache_run, fresh_stores, List.range_succ, List.foldl_append]

/-- The cache after `k <= 32` stores on the initial state: slot `i < k` is in
use under the id `i + 32`, the other slots are untouched. -/
theorem cache_run_fresh (bufs : Nat → Option (List Nat)) (lens : Nat → Nat) :
    ∀ k ≤ 32,
      (cache_run (fresh_stores bufs lens k)).1.next_id = k % 32 ∧
      (∀ i < k, ((cache_run (fresh_stores bufs lens k)).1.data_cache i).in_use = true ∧
        ((cache_run (fresh_stores bufs lens k)).1.data_cache i).id = i + 32) ∧
      (∀ i, k ≤ i → ((cache_run (fresh_stores bufs lens k)).1.data_cache i).in_use = false ∧
        ((cache_run (fresh_stores bufs lens k)).1.data_cache i).last_id = i) ∧
      (cache_run (fresh_stores bufs lens k)).2 = (List.range k).map (fun t => t + 32) := by
  intro k
  induction k with
  | zero =>
    intro _
    refine ⟨rfl, ?_, ?_, rfl⟩
    · intro i hi; omega
    · intro i _; exact ⟨rfl, rfl⟩
  | succ k ih =>
    intro hk
    obtain ⟨hnext, hused, hfree, hids⟩ := ih (by omega)
    rw [cache_run_fresh_succ]
    generalize cache_run (fresh_stores bufs lens k) = p at hnext hused hfree hids ⊢
    have hnk : p.1.next_id = k := by rw [hnext]; omega
    have hf := hfree k (le_refl _)
    have hstore := store_next_free p.1 (bufs k) (lens k) (by rw [hnk]; exact hf.1)
    rw [hnk, hf.2] at hstore
    have hidk : (k + 32) % 2 ^ 32 = k + 32 := by omega
    rw [hidk] at hstore
    simp only [cache_step, hstore]
    refine ⟨?_, ?_, ?_, ?_⟩
    · trivial
    · intro i hi
      by_cases hik : i = k
      · subst hik
        rw [set_entry_same]
        simp only [filled_entry, hf.2]
        exact ⟨trivial, by omega⟩
      · rw [set_entry_other _ _ _ _ hik]
        exact hused i (by omega)
    · intro i hi
      rw [set_entry_other _ _ _ _ (by omega)]
      exact hfree i (by omega)
    · rw [hids, List.range_succ, List.map_append]
      rfl

set_option maxRecDepth 1000000 in
/-- C18 (counterexample): after 32 stores, a removing retrieve of id 32, a
store (id 64), a removing retrieve of id 64 and another store (id 96), all 32
slots are in use and slot 0 holds the id 96; the next store evicts the
smallest id, 33, and returns 65, which is not greater than the id 96 still in
the cache. -/
theorem select_store_evict_counterexample :
    (∀ op ∈ uneven_ops, valid_op op = true) ∧
    (∀ i < 32, ((cache_run uneven_ops).1.data_cache i).in_use = true) ∧
    (select_results_store (cache_run uneven_ops).1 (some [3]) 1).2 = 65 ∧
    ((select_results_store (cache_run uneven_ops).1 (some [3]) 1).1.data_cache 0).id = 96 ∧
    ¬ (((select_results_store (cache_run uneven_ops).1 (some [3]) 1).1.data_cache 0).id
        < (select_results_store (cache_run uneven_ops).1 (some [3]) 1).2) := by
  decide

/-- C18 (amended): in every reachable cache state in which all 32 slots are in
use, `select_results_store` evicts the slot holding the smallest id: the new
buffer goes into that slot with `id = old id + 32` in `uint32_t`, the other
slots and `next_id` stay as they are, the old id is no longer retrievable, and
the returned handle differs from the id of every other entry; it is greater
than all of them when the addition does not wrap and no id in the cache
reaches the smallest id plus 32.  In particular 33 stores on a fresh cache
return 32, 33, ..., 63 and then 64. -/
theorem select_store_evicts_smallest (st : SelectCache) (issued : List Nat)
    (hr : CacheReachable st issued) (results : Option (List Nat)) (results_len : Nat)
    (hfull : ∀ i < 32, (st.data_cache i).in_use = true) :
    (∃ o < 32, (∀ i < 32, i ≠ o → (st.data_cache o).id < (st.data_cache i).id) ∧
      select_results_store st results results_len =
        (⟨set_entry st.data_cache o (evicted_entry (st.data_cache o) results results_len),
          st.next_id⟩, ((st.data_cache o).id + 32) % 2 ^ 32) ∧
      (∀ (a b : Bool) (c : Nat),
        (select_results_retrieve (select_results_store st results results_len).1
          (st.data_cache o).id a b c).2 = ⟨none, 0, false⟩) ∧
      (∀ i < 32, i ≠ o →
        ((select_results_store st results results_len).1.data_cache i).id
          ≠ (select_results_store st results results_len).2) ∧
      ((st.data_cache o).id + 32 < 2 ^ 32 →
        (∀ i < 32, (st.data_cache i).id < (st.data_cache o).id + 32) →
        ∀ i < 32, i ≠ o →
          ((select_results_store st results results_len).1.data_cache i).id
            < (select_results_store st results results_len).2)) ∧
    (∀ (bufs : Nat → Option (List Nat)) (lens : Nat → Nat),
      (cache_run (fresh_stores bufs lens 33)).2 = (List.range 33).map (fun t => t + 32)) := by
  constructor
  · have hinv := cache_inv_of_reachable st issued hr
    obtain ⟨hnext, hslots, _, _⟩ := hinv
    rcases select_results_store_cases st results results_len hnext with
      ⟨j, hj, hfree, _⟩ | ⟨o, ho, hall, heq⟩
    · rw [hfull j hj] at hfree; cases hfree
    · have hmodo : (st.data_cache o).id % 32 = o := (hslots o ho).2.2.2.1 (hfull o ho)
      have hlto : (st.data_cache o).id < 2 ^ 32 := (hslots o ho).2.2.1
      refine ⟨o, ho, ?_, heq, ?_, ?_, ?_⟩
      · intro i hi hne
        have hle := (hall i hi).2
        have hmodi : (st.data_cache i).id % 32 = i := (hslots i hi).2.2.2.1 (hfull i hi)
        have : (st.data_cache o).id ≠ (st.data_cache i).id := by
          intro h
          rw [h] at hmodo
          omega
        omega
      · intro a b c
        rw [heq]
        rcases select_results_retrieve_cases
            (⟨set_entry st.data_cache o (evicted_entry (st.data_cache o) results results_len),
              st.next_id⟩ : SelectCache) (st.data_cache o).id a b c with
          ⟨_, h⟩ | ⟨_, _, hid, _, _⟩ | ⟨_, _, hid, _, _⟩
        · rw [h]
        · dsimp only at hid
          rw [hmodo, set_entry_same] at hid
          simp only [evicted_entry] at hid
          omega
        · dsimp only at hid
          rw [hmodo, set_entry_same] at hid
          simp only [evicted_entry] at hid
          omega
      · intro i hi hne
        rw [heq]
        dsimp only
        rw [set_entry_other _ _ _ _ hne]
        have hmodi : (st.data_cache i).id % 32 = i := (hslots i hi).2.2.2.1 (hfull i hi)
        omega
      · intro hnowrap hwin i hi hne
        rw [heq]
        dsimp only
        rw [set_entry_other _ _ _ _ hne, Nat.mod_eq_of_lt hnowrap]
        exact hwin i hi
  · intro bufs lens
    rw [cache_run_fresh_succ]
    obtain ⟨hnext, hused, _, hids⟩ := cache_run_fresh bufs lens 32 (le_refl _)
    generalize cache_run (fresh_stores bufs lens 32) = p at hnext hused hids ⊢
    have hn : p.1.next_id < 32 := by rw [hnext]; decide
    rcases select_results_store_cases p.1 (bufs 32) (lens 32) hn with
      ⟨j, hj, hfree, _⟩ | ⟨o, ho, hall, heq⟩
    · rw [(hused j hj).1] at hfree; cases hfree
    · have h0 := (hall 0 (by decide)).2
      rw [(hused o ho).2, (hused 0 (by decide)).2] at h0
      have ho0 : o = 0 := by omega
      subst ho0
      simp only [cache_step, heq, hids, (hused 0 (by decide)).2]
      rfl

/-! ## The select result cache: worked cases -/

/-- Witness for C17: on the initial cache, three bytes are stored under the id
32, retrieved once with `do_not_remove_if_size_gt` and `size_check = 3`, and
are gone after a later store that takes slot 1. -/
theorem select_store_then_retrieve_witness :
    (select_results_store select_results_init (some [1, 2, 3]) 3).2 = 32 ∧
    (select_results_retrieve (select_results_store select_results_init (some [1, 2, 3]) 3).1
        32 false true 3).2 = ⟨some [1, 2, 3], 3, true⟩ ∧
    (select_results_retrieve
        ([CacheOp.store (some [9]) 1].foldl cache_apply
          (select_results_retrieve
            (select_results_store select_results_init (some [1, 2, 3]) 3).1 32 false true 3).1)
        32 true false 0).2 = ⟨none, 0, false⟩ :=
  have h := select_store_then_retrieve select_results_init []
    (cache_run_reachable [] (by decide)) [1, 2, 3] true 3 (Or.inr (by decide))
  ⟨rfl, h.1, h.2 [CacheOp.store (some [9]) 1] (by decide) ⟨by decide, trivial⟩ true false 0⟩

set_option maxRecDepth 1000000 in
/-- Witness for C18: the 33rd store on a fresh cache evicts slot 0, whose id 32
is the smallest, and returns 64. -/
theorem select_store_evicts_smallest_witness :
    (∀ i < 32, (full_cache.data_cache i).in_use = true) ∧
    (∃ o < 32, (∀ i < 32, i ≠ o → (full_cache.data_cache o).id < (full_cache.data_cache i).id) ∧
      select_results_store full_cache (some [7]) 1 =
        (⟨set_entry full_cache.data_cache o
            (evicted_entry (full_cache.data_cache o) (some [7]) 1), full_cache.next_id⟩,
          ((full_cache.data_cache o).id + 32) % 2 ^ 32)) ∧
    (cache_run (fresh_stores (fun _ => none) (fun _ => 0) 33)).2
      = (List.range 33).map (fun t => t + 32) :=
  have h := select_store_evicts_smallest full_cache full_issued
    (cache_run_reachable _ (by decide)) (some [7]) 1 (by decide)
  ⟨by decide,
    h.1.elim (fun o ho => ⟨o, ho.1, ho.2.1, ho.2.2.1⟩),
    h.2 (fun _ => none) (fun _ => 0)⟩

/-- Witness for C19: the id 32 of `one_store_cache` is found by a pinning
retrieve, which leaves the cache as it was and hands out the three bytes. -/
theorem select_retrieve_effect_witness :
    (select_results_retrieve one_store_cache 32 true false 0).2.found = true ∧
    (select_results_retrieve one_store_cache 32 true false 0).1 = one_store_cache ∧
    (select_results_retrieve one_store_cache 32 true false 0).2.data.getD [] = [1, 2, 3] ∧
    (select_results_retrieve one_store_cache 32 true false 0).2.data_len = 3 :=
  have h := select_retrieve_effect one_store_cache _
    (cache_run_reachable [CacheOp.store (some [1, 2, 3]) 3] (by decide)) 32 true false 0 rfl
  h.elim (fun data hd =>
    have hdata : data = [1, 2, 3] := Option.some.inj (hd.1.symm.trans rfl)
    ⟨rfl, (hd.2.2.2.2.1 rfl).1, hd.2.2.2.2.2.1.trans hdata,
      hd.2.2.2.2.2.2.trans (congrArg List.length hdata)⟩)

/-- Witness for C20: the second store on `one_store_cache` returns 33, which is
not the id 32 issued before. -/
theorem select_store_fresh_id_witness :
    (select_results_store one_store_cache (some [4]) 1).2 = 33 ∧
    (select_results_store one_store_cache (some [4]) 1).2 ∉ [32] :=
  have h := select_store_fresh_id one_store_cache [32]
    (cache_run_reachable [CacheOp.store (some [1, 2, 3]) 3] (by decide)) (some [4]) 1
  ⟨rfl, (h.2 (by decide)).1⟩

/-! ## Lemmas on the list response -/

theorem list_entry_length (key : ObjectKey) (hk : key.key.length = key.key_len) :
    (list_entry key).length = 2 + key.key_len + (4 - key.key_len % 4) % 4 := by
  simp [list_entry, list_pad, hk]
  omega

theorem list_entries_cons (key : ObjectKey) (rest : List ObjectKey) :
    list_entries (key :: rest) = list_entry key ++ list_entries rest := by
  simp [list_entries]

theorem list_entries_append (a b : List ObjectKey) :
    list_entries (a ++ b) = list_entries a ++ list_entries b := by
  simp [list_entries]

theorem build_kv_list_loop_spec :
    ∀ (keys : List ObjectKey) (room : Nat) (p : List Nat) (w : Nat),
      (∀ k ∈ keys, k.key.length = k.key_len ∧ k.key_len ≤ 16) →
      ∃ n, n ≤ keys.length ∧
        build_kv_list_loop keys room p w = (p ++ list_entries (keys.take n), w + n) ∧
        (list_entries (keys.take n)).length ≤ room ∧
        (∀ k, keys[n]? = some k →
          room - (list_entries (keys.take n)).length < 2 + k.key_len + (4 - k.key_len % 4) % 4) := by
  intro keys
  induction keys with
  | nil =>
    intro room p w _
    exact ⟨0, le_refl _, by simp [build_kv_list_loop, list_entries], by simp [list_entries],
      by simp⟩
  | cons key rest ih =>
    intro room p w hk
    have hkey := hk key (List.mem_cons_self _ _)
    by_cases hfit : room < 2 + key.key_len + (4 - key.key_len % 4) % 4
    · refine ⟨0, Nat.zero_le _, ?_, by simp [list_entries], ?_⟩
      · simp [build_kv_list_loop, hfit, list_entries]
      · intro k hk0
        simp at hk0
        subst hk0
        simpa [list_entries] using hfit
    · obtain ⟨n, hn, heq, hle, hnext⟩ :=
        ih (room - (2 + key.key_len + (4 - key.key_len % 4) % 4))
          (p ++ list_entry key) (w + 1) (fun k hkm => hk k (List.mem_cons_of_mem _ hkm))
      have hlen := list_entry_length key hkey.1
      have hentry : p ++ [key.key_len % 2 ^ 16 % 256, key.key_len % 2 ^ 16 / 256]
          ++ key.key.take key.key_len ++ List.replicate ((4 - key.key_len % 4) % 4) 0
          = p ++ list_entry key := by
        have h1 : key.key_len % 2 ^ 16 % 256 = key.key_len % 256 := by omega
        have h2 : key.key_len % 2 ^ 16 / 256 = key.key_len / 256 % 256 := by omega
        have h3 : key.key.take key.key_len = key.key := by
          rw [← hkey.1]; exact List.take_length _
        simp [list_entry, list_pad, h3]
        constructor <;> omega
      refine ⟨n + 1, by simp; omega, ?_, ?_, ?_⟩
      · rw [build_kv_list_loop]
        simp only [hfit, if_false]
        rw [hentry, heq]
        simp [list_entries_cons, List.append_assoc]
        omega
      · simp only [List.take_succ_cons, list_entries_cons, List.length_append]
        omega
      · intro k hk1
        simp only [List.getElem?_cons_succ] at hk1
        have := hnext k hk1
        simp only [List.take_succ_cons, list_entries_cons, List.length_append]
        omega

theorem le32_bytes_length (x : Nat) : (le32_bytes x).length = 4 := rfl

theorem memcpy_take (dst src : List Nat) : (memcpy dst src).take src.length = src := by
  simp [memcpy]

/-- The list response for well-formed keys and a buffer of at least four
bytes, in the words of the spec. -/
theorem nvme_build_kv_list_response_spec (h : NvmeHeader) (keys : List ObjectKey)
    (list_buffer : List Nat) (max_list_buffer_size : Nat)
    (hkeys : ∀ k ∈ keys, k.key.length = k.key_len ∧ k.key_len ≤ 16)
    (hmax : 4 ≤ max_list_buffer_size) (h32 : max_list_buffer_size < 2 ^ 32) :
    ∃ n, n ≤ keys.length ∧
      nvme_build_kv_list_response h keys keys.length list_buffer max_list_buffer_size =
        ⟨h.NVME_SUCCESS,
          memcpy list_buffer (le32_bytes n ++ list_entries (keys.take n)),
          4 + (list_entries (keys.take n)).length⟩ ∧
      4 + (list_entries (keys.take n)).length ≤ max_list_buffer_size ∧
      (∀ k, keys[n]? = some k →
        max_list_buffer_size - (4 + (list_entries (keys.take n)).length)
          < 2 + k.key_len + (4 - k.key_len % 4) % 4) := by
  obtain ⟨n, hn, heq, hle, hnext⟩ :=
    build_kv_list_loop_spec keys (max_list_buffer_size - 4) [] 0 hkeys
  refine ⟨n, hn, ?_, by omega, ?_⟩
  · have hnot : ¬ max_list_buffer_size < 4 := by omega
    have hlen : 2 * n ≤ (list_entries (keys.take n)).length := by
      clear heq hle hnext
      induction keys generalizing n with
      | nil => simp at hn; subst hn; simp
      | cons key rest ih =>
        cases n with
        | zero => simp
        | succ m =>
          have hkey := hkeys key (List.mem_cons_self _ _)
          have := ih (fun k hkm => hkeys k (List.mem_cons_of_mem _ hkm)) m
            (by simpa using hn)
          simp only [List.take_succ_cons, list_entries_cons, List.length_append,
            list_entry_length key hkey.1]
          omega
    have hn32 : n % 2 ^ 32 = n := by omega
    simp only [nvme_build_kv_list_response, hnot, if_false, List.take_length, heq,
      List.nil_append, Nat.zero_add, hn32]
  · intro k hk
    have := hnext k hk
    omega

/-! ## Lemmas on the handlers -/

theorem nvme_kv_get_key_none_iff (cmd : NvmeKvCmd) (empty_allowed : Bool) :
    nvme_kv_get_key cmd empty_allowed = none ↔
      (16 < NVME_KV_GET_KEY_LENGTH cmd.key_length_and_options ∨
        (NVME_KV_GET_KEY_LENGTH cmd.key_length_and_options = 0 ∧ empty_allowed = false)) := by
  unfold nvme_kv_get_key
  generalize NVME_KV_GET_KEY_LENGTH cmd.key_length_and_options = L
  by_cases h16 : 16 < L
  · simp [h16]
  · by_cases h0 : L = 0
    · subst h0
      cases empty_allowed <;> simp
    · simp [h16, h0]

theorem nvme_kv_get_key_some (cmd : NvmeKvCmd) (empty_allowed : Bool) (key : List Nat)
    (key_length : Nat) (h : nvme_kv_get_key cmd empty_allowed = some (key, key_length)) :
    key_length = NVME_KV_GET_KEY_LENGTH cmd.key_length_and_options ∧ key_length ≤ 16 ∧
      (empty_allowed = false → 1 ≤ key_length) ∧ key.length = key_length := by
  have hnone := nvme_kv_get_key_none_iff cmd empty_allowed
  have hne : ¬ (16 < NVME_KV_GET_KEY_LENGTH cmd.key_length_and_options ∨
      (NVME_KV_GET_KEY_LENGTH cmd.key_length_and_options = 0 ∧ empty_allowed = false)) := by
    intro hc
    rw [hnone.mpr hc] at h
    cases h
  by_cases h0 : NVME_KV_GET_KEY_LENGTH cmd.key_length_and_options = 0
  · have hea : empty_allowed = true := by
      cases empty_allowed
      · exact absurd (Or.inr ⟨h0, rfl⟩) hne
      · rfl
    subst hea
    simp [nvme_kv_get_key, h0] at h
    obtain ⟨rfl, rfl⟩ := h
    simp [h0]
  · have h1 : 1 ≤ NVME_KV_GET_KEY_LENGTH cmd.key_length_and_options := by omega
    have h16 : NVME_KV_GET_KEY_LENGTH cmd.key_length_and_options ≤ 16 := by
      by_contra hc
      exact hne (Or.inl (by omega))
    rw [nvme_kv_get_key_bytes cmd empty_allowed h1 h16] at h
    simp only [Option.some.injEq, Prod.mk.injEq] at h
    obtain ⟨rfl, rfl⟩ := h
    refine ⟨rfl, h16, fun _ => h1, ?_⟩
    simp [big_endian]
    omega

theorem add_request_requests (q : TaskQueues) (task_type bus_number namespace_id : Nat)
    (nvme_cmd : NvmeRequest) (key : List Nat) (key_length : Nat) (data : Option (List Nat))
    (data_length max_length : Nat) (must_exist must_not_exist append : Bool) (offset : Nat)
    (sin sout : Nat) (hin hout : Bool) :
    ∃ r : kv_task_request,
      (kv_tasks_add_request_with_params q task_type bus_number namespace_id nvme_cmd key key_length
        data data_length max_length must_exist must_not_exist append offset sin sout hin hout).1
        = ⟨q.requests ++ [r], q.results⟩ ∧
      r.key_length = key_length ∧ r.task_type = task_type ∧ r.nvme_cmd = nvme_cmd ∧
      r.max_length = max_length ∧ r.offset = offset ∧ r.data = data ∧
      r.bus_number = bus_number ∧ r.namespace_id = namespace_id ∧
      (1 ≤ key_length → key_length ≤ 16 → key.length = key_length →
        r.key.take r.key_length = key) := by
  refine ⟨_, rfl, rfl, rfl, rfl, rfl, rfl, rfl, rfl, rfl, ?_⟩
  intro h1 h16 hlen
  subst hlen
  show List.take key.length
      (if key.length ≠ 0 ∧ key.length ≤ KV_TASK_KEY_MAX_LENGTH then
        memcpy (List.replicate KV_TASK_KEY_MAX_LENGTH 0) (key.take key.length)
      else List.replicate KV_TASK_KEY_MAX_LENGTH 0) = key
  rw [if_pos ⟨by omega, h16⟩, List.take_length]
  exact memcpy_take _ _

/-- What every handler that decodes a key does: it leaves the queues alone,
or appends one request that carries the decoded key length. -/
theorem kv_key_handler_cases (h : NvmeHeader) (n : NvmeCtrl) (op : KvOpcode)
    (req : NvmeRequest) (q : TaskQueues) :
    (nvme_kv_get_key req.cmd (decide (op = KvOpcode.list)) = none ∧
      kv_key_handler h n op req q = (q, h.NVME_INVALID_KV_SIZE ||| h.NVME_DNR)) ∨
    (∃ key key_length, nvme_kv_get_key req.cmd (decide (op = KvOpcode.list))
        = some (key, key_length) ∧
      ((kv_key_handler h n op req q).1 = q ∨
        ∃ r : kv_task_request, (kv_key_handler h n op req q).1 = ⟨q.requests ++ [r], q.results⟩ ∧
          r.key_length = key_length ∧ r.nvme_cmd = req ∧
          (kv_key_handler h n op req q).2 = h.NVME_NO_COMPLETE)) := by
  cases op
  · -- LIST
    simp only [kv_key_handler, nvme_kv_list, decide_True]
    cases hk : nvme_kv_get_key req.cmd true with
    | none => exact Or.inl ⟨rfl, rfl⟩
    | some kk =>
      obtain ⟨key, key_length⟩ := kk
      refine Or.inr ⟨key, key_length, rfl, ?_⟩
      simp only []
      by_cases hm : n.map_dptr req req.host_buffer_size ≠ h.NVME_SUCCESS
      · rw [if_pos hm]; exact Or.inl rfl
      · rw [if_neg hm]
        obtain ⟨r, hr, hkl, _, hcmd, _⟩ := add_request_requests q KV_TASK_LIST n.bus_num req.nsid
          req key key_length none 0 0 false false false 0 0 0 false false
        exact Or.inr ⟨r, hr, hkl, hcmd, rfl⟩
  · -- EXIST
    simp only [kv_key_handler, nvme_kv_exist, reduceCtorEq, decide_False]
    cases hk : nvme_kv_get_key req.cmd false with
    | none => exact Or.inl ⟨rfl, rfl⟩
    | some kk =>
      obtain ⟨key, key_length⟩ := kk
      refine Or.inr ⟨key, key_length, rfl, ?_⟩
      obtain ⟨r, hr, hkl, _, hcmd, _⟩ := add_request_requests q KV_TASK_EXISTS n.bus_num req.nsid
        req key key_length none 0 0 false false false 0 0 0 false false
      exact Or.inr ⟨r, hr, hkl, hcmd, rfl⟩
  · -- DELETE
    simp only [kv_key_handler, nvme_kv_delete, reduceCtorEq, decide_False]
    cases hk : nvme_kv_get_key req.cmd false with
    | none => exact Or.inl ⟨rfl, rfl⟩
    | some kk =>
      obtain ⟨key, key_length⟩ := kk
      refine Or.inr ⟨key, key_length, rfl, ?_⟩
      obtain ⟨r, hr, hkl, _, hcmd, _⟩ := add_request_requests q KV_TASK_DELETE n.bus_num req.nsid
        req key key_length none 0 0 false false false 0 0 0 false false
      exact Or.inr ⟨r, hr, hkl, hcmd, rfl⟩
  · -- STORE
    simp only [kv_key_handler, nvme_kv_store, reduceCtorEq, decide_False]
    cases hk : nvme_kv_get_key req.cmd false with
    | none => exact Or.inl ⟨rfl, rfl⟩
    | some kk =>
      obtain ⟨key, key_length⟩ := kk
      refine Or.inr ⟨key, key_length, rfl, ?_⟩
      simp only []
      by_cases hm : n.map_dptr req req.host_buffer_size ≠ h.NVME_SUCCESS
      · rw [if_pos hm]; exact Or.inl rfl
      · rw [if_neg hm]
        split
        · exact Or.inl rfl
        · obtain ⟨r, hr, hkl, _, hcmd, _⟩ := add_request_requests q KV_TASK_STORE n.bus_num
            req.nsid req key key_length
            ((g_malloc0 req.host_buffer_size).map
              (fun b => memcpy b ((n.read_data req req.host_buffer_size).1.take b.length)))
            req.host_buffer_size 0
            (h.NVME_STORE_CMD_OPTION_MUST_EXIST
              (h.NVME_KV_GET_CMD_OPTIONS req.cmd.key_length_and_options % 2 ^ 8))
            (h.NVME_STORE_CMD_OPTION_MUST_NOT_EXIST
              (h.NVME_KV_GET_CMD_OPTIONS req.cmd.key_length_and_options % 2 ^ 8))
            (h.NVME_STORE_CMD_OPTION_APPEND
              (h.NVME_KV_GET_CMD_OPTIONS req.cmd.key_length_and_options % 2 ^ 8))
            0 0 0 false false
          exact Or.inr ⟨r, hr, hkl, hcmd, rfl⟩
  · -- RETRIEVE
    simp only [kv_key_handler, nvme_kv_retrieve, reduceCtorEq, decide_False]
    cases hk : nvme_kv_get_key req.cmd false with
    | none => exact Or.inl ⟨rfl, rfl⟩
    | some kk =>
      obtain ⟨key, key_length⟩ := kk
      refine Or.inr ⟨key, key_length, rfl, ?_⟩
      simp only []
      by_cases hm : n.map_dptr req req.host_buffer_size ≠ h.NVME_SUCCESS
      · rw [if_pos hm]; exact Or.inl rfl
      · rw [if_neg hm]
        obtain ⟨r, hr, hkl, _, hcmd, _⟩ := add_request_requests q KV_TASK_RETRIEVE n.bus_num
          req.nsid req key key_length none 0 req.host_buffer_size false false false
          req.read_offset 0 0 false false
        exact Or.inr ⟨r, hr, hkl, hcmd, rfl⟩
  · -- SEND_SELECT
    simp only [kv_key_handler, nvme_kv_send_select, reduceCtorEq, decide_False]
    cases hk : nvme_kv_get_key req.cmd false with
    | none => exact Or.inl ⟨rfl, rfl⟩
    | some kk =>
      obtain ⟨key, key_length⟩ := kk
      refine Or.inr ⟨key, key_length, rfl, ?_⟩
      simp only []
      split
      · exact Or.inl rfl
      · split
        · exact Or.inl rfl
        · by_cases hm : n.map_dptr req req.host_buffer_size ≠ h.NVME_SUCCESS
          · rw [if_pos hm]; exact Or.inl rfl
          · rw [if_neg hm]
            cases hb : g_malloc0 (req.host_buffer_size + 1) with
            | none => exact Or.inl rfl
            | some buffer =>
              simp only []
              refine Or.inr ⟨_, rfl, ?_, ?_, ?_⟩ <;> first | rfl | trivial

/-! ## The key check of the handlers -/

/-- C11: with `L` the low 8 bits of the option/length word, `nvme_kv_get_key`
rejects a command iff `L > 16`, or `L = 0` and empty keys are not allowed; the
LIST handler allows them and the EXIST, DELETE, STORE, RETRIEVE and
SEND_SELECT handlers do not.  On rejection each of the six handlers returns
`NVME_INVALID_KV_SIZE | NVME_DNR` and leaves the request queue as it was, so
every request a handler enqueues carries `key_length = L <= 16`, with
`1 <= L` for every opcode but LIST; no handler touches the result queue; and
LIST with `L = 0` and a mapped host buffer enqueues a request with the empty
prefix and returns `NVME_NO_COMPLETE`. -/
theorem nvme_kv_key_length_check (h : NvmeHeader) (n : NvmeCtrl) (req : NvmeRequest)
    (q : TaskQueues) :
    (∀ empty_allowed, nvme_kv_get_key req.cmd empty_allowed = none ↔
      (16 < NVME_KV_GET_KEY_LENGTH req.cmd.key_length_and_options ∨
        (NVME_KV_GET_KEY_LENGTH req.cmd.key_length_and_options = 0 ∧ empty_allowed = false))) ∧
    (∀ op, (16 < NVME_KV_GET_KEY_LENGTH req.cmd.key_length_and_options ∨
        (NVME_KV_GET_KEY_LENGTH req.cmd.key_length_and_options = 0 ∧ op ≠ KvOpcode.list)) →
      kv_key_handler h n op req q = (q, h.NVME_INVALID_KV_SIZE ||| h.NVME_DNR)) ∧
    (∀ op, ∀ r ∈ (kv_key_handler h n op req q).1.requests,
      r ∈ q.requests ∨
        (r.key_length = NVME_KV_GET_KEY_LENGTH req.cmd.key_length_and_options ∧
          NVME_KV_GET_KEY_LENGTH req.cmd.key_length_and_options ≤ 16 ∧
          (op ≠ KvOpcode.list → 1 ≤ NVME_KV_GET_KEY_LENGTH req.cmd.key_length_and_options))) ∧
    (∀ op, (kv_key_handler h n op req q).1.results = q.results) ∧
    (NVME_KV_GET_KEY_LENGTH req.cmd.key_length_and_options = 0 →
      n.map_dptr req req.host_buffer_size = h.NVME_SUCCESS →
      ∃ r : kv_task_request,
        nvme_kv_list h n req q = (⟨q.requests ++ [r], q.results⟩, h.NVME_NO_COMPLETE) ∧
        r.key_length = 0 ∧ r.task_type = KV_TASK_LIST ∧ r.nvme_cmd = req) := by
  refine ⟨fun ea => nvme_kv_get_key_none_iff req.cmd ea, ?_, ?_, ?_, ?_⟩
  · intro op hrej
    have hnone : nvme_kv_get_key req.cmd (decide (op = KvOpcode.list)) = none := by
      rw [nvme_kv_get_key_none_iff]
      rcases hrej with h16 | ⟨h0, hop⟩
      · exact Or.inl h16
      · exact Or.inr ⟨h0, by simp [hop]⟩
    rcases kv_key_handler_cases h n op req q with ⟨_, hres⟩ | ⟨key, kl, hsome, _⟩
    · exact hres
    · rw [hnone] at hsome; cases hsome
  · intro op r hr
    rcases kv_key_handler_cases h n op req q with ⟨_, hres⟩ | ⟨key, kl, hsome, hq | ⟨r1, hq, hkl, _⟩⟩
    · rw [hres] at hr; exact Or.inl hr
    · rw [hq] at hr; exact Or.inl hr
    · rw [hq] at hr
      simp only [List.mem_append, List.mem_singleton] at hr
      rcases hr with hr | rfl
      · exact Or.inl hr
      · obtain ⟨h1, h2, h3, _⟩ := nvme_kv_get_key_some _ _ _ _ hsome
        refine Or.inr ⟨by rw [hkl, h1], by rw [← h1]; exact h2, ?_⟩
        intro hop
        rw [← h1]
        exact h3 (by simp [hop])
  · intro op
    rcases kv_key_handler_cases h n op req q with ⟨_, hres⟩ | ⟨key, kl, hsome, hq | ⟨r1, hq, _⟩⟩
    · rw [hres]
    · rw [hq]
    · rw [hq]
  · intro h0 hmap
    have hk : nvme_kv_get_key req.cmd true = some ([], 0) := by
      simp [nvme_kv_get_key, h0]
    obtain ⟨r, hr, hkl, ht, hcmd, _⟩ := add_request_requests q KV_TASK_LIST n.bus_num req.nsid
      req [] 0 none 0 0 false false false 0 0 0 false false
    refine ⟨r, ?_, hkl, ht, hcmd⟩
    simp only [nvme_kv_list, hk, hmap, ne_eq, not_true_eq_false, if_false, hr]

/-! ## The list response -/

/-- C12: for every array of keys, each of `key_len <= 16` bytes, and every
`host_buffer_size` from 4 up (it is a 32-bit field),
`nvme_build_kv_list_response` returns `NVME_SUCCESS`; the first
`list_buffer_size` bytes of the block are the 4-byte little-endian count `n`
followed by the entries of the first `n` keys in order, each the 2-byte
little-endian key length, the key bytes and `(4 - key_len % 4) % 4` zero
bytes; `list_buffer_size` is 4 plus the bytes of those entries and is at most
`host_buffer_size`; and when a key is left over, the `2 + key_len + pad` bytes
of the first one left do not fit in what remains of the buffer. -/
theorem nvme_build_kv_list_response_layout (h : NvmeHeader) (keys : List ObjectKey)
    (list_buffer : List Nat) (host_buffer_size : Nat)
    (hkeys : ∀ k ∈ keys, k.key.length = k.key_len ∧ k.key_len ≤ 16)
    (hmax : 4 ≤ host_buffer_size) (h32 : host_buffer_size < 2 ^ 32) :
    ∃ n, n ≤ keys.length ∧
      (nvme_build_kv_list_response h keys keys.length list_buffer host_buffer_size).status
        = h.NVME_SUCCESS ∧
      (nvme_build_kv_list_response h keys keys.length list_buffer host_buffer_size).list_buffer.take
          (nvme_build_kv_list_response h keys keys.length list_buffer
            host_buffer_size).list_buffer_size
        = le32_bytes n ++ ((keys.take n).map (fun k =>
            [k.key_len % 256, k.key_len / 256 % 256] ++ k.key
              ++ List.replicate ((4 - k.key_len % 4) % 4) 0)).flatten ∧
      (nvme_build_kv_list_response h keys keys.length list_buffer
          host_buffer_size).list_buffer_size
        = 4 + ((keys.take n).map (fun k => 2 + k.key_len + (4 - k.key_len % 4) % 4)).sum ∧
      (nvme_build_kv_list_response h keys keys.length list_buffer
          host_buffer_size).list_buffer_size ≤ host_buffer_size ∧
      (∀ k, keys[n]? = some k →
        host_buffer_size - (nvme_build_kv_list_response h keys keys.length list_buffer
            host_buffer_size).list_buffer_size
          < 2 + k.key_len + (4 - k.key_len % 4) % 4) := by
  obtain ⟨n, hn, heq, hle, hnext⟩ :=
    nvme_build_kv_list_response_spec h keys list_buffer host_buffer_size hkeys hmax h32
  have hsum : (list_entries (keys.take n)).length
      = ((keys.take n).map (fun k => 2 + k.key_len + (4 - k.key_len % 4) % 4)).sum := by
    have hk2 : ∀ k ∈ keys.take n, k.key.length = k.key_len :=
      fun k hk => (hkeys k (List.mem_of_mem_take hk)).1
    generalize keys.take n = l at hk2
    induction l with
    | nil => simp [list_entries]
    | cons k rest ih =>
      rw [list_entries_cons, List.length_append, list_entry_length k (hk2 k (List.mem_cons_self _ _)),
        ih (fun x hx => hk2 x (List.mem_cons_of_mem _ hx))]
      simp
  refine ⟨n, hn, by rw [heq], ?_, by rw [heq, hsum], by rw [heq]; exact hle, ?_⟩
  · rw [heq]
    have hlen : 4 + (list_entries (keys.take n)).length
        = (le32_bytes n ++ list_entries (keys.take n)).length := by
      simp [le32_bytes_length]
    simp only []
    rw [hlen, memcpy_take]
    rfl
  · intro k hk
    rw [heq]
    exact hnext k hk

/-- Witness for C12: two keys of four bytes and a buffer of 12 bytes; there
is room for the count and one entry of six bytes. -/
theorem nvme_build_kv_list_response_layout_witness :
    ∃ n, n ≤ 2 ∧
      (nvme_build_kv_list_response sample_header [⟨[1, 2, 3, 4], 4⟩, ⟨[5, 6, 7, 8], 4⟩] 2
          (List.replicate 12 9) 12).list_buffer_size
        = 4 + (([(⟨[1, 2, 3, 4], 4⟩ : ObjectKey), ⟨[5, 6, 7, 8], 4⟩].take n).map
            (fun k => 2 + k.key_len + (4 - k.key_len % 4) % 4)).sum ∧
      (nvme_build_kv_list_response sample_header [⟨[1, 2, 3, 4], 4⟩, ⟨[5, 6, 7, 8], 4⟩] 2
          (List.replicate 12 9) 12).list_buffer = [1, 0, 0, 0, 4, 0, 1, 2, 3, 4, 9, 9] :=
  (nvme_build_kv_list_response_layout sample_header [⟨[1, 2, 3, 4], 4⟩, ⟨[5, 6, 7, 8], 4⟩]
    (List.replicate 12 9) 12 (by decide) (by decide) (by decide)).imp
    (fun _ hn => ⟨hn.1, hn.2.2.2.1, by decide⟩)

/-! ## The notifier -/

theorem or_dnr_and (x d : Nat) : (x ||| d) &&& d = d := by
  apply Nat.eq_of_testBit_eq
  intro i
  simp only [Nat.testBit_and, Nat.testBit_or]
  cases x.testBit i <;> cases d.testBit i <;> rfl

theorem notifier_list_switch (h : NvmeHeader) (heap : Nat → Nat) (cache : SelectCache)
    (result : kv_task_result) (ht : result.task_type = KV_TASK_LIST) (hs : 0 ≤ result.status) :
    nvme_kv_notifier_switch h heap cache result =
      match g_malloc heap result.nvme_cmd.host_buffer_size with
      | none => (cache, h.NVME_KV_ERROR, 0, none)
      | some list_buffer =>
        if (nvme_build_kv_list_response h result.result.as_keys result.result_length list_buffer
            result.nvme_cmd.host_buffer_size).status ≠ h.NVME_SUCCESS then
          (cache, (nvme_build_kv_list_response h result.result.as_keys result.result_length
            list_buffer result.nvme_cmd.host_buffer_size).status, 0, none)
        else
          (cache, h.NVME_SUCCESS, result.result_length % 2 ^ 32,
            some (nvme_kv_write_data
              (some (nvme_build_kv_list_response h result.result.as_keys result.result_length
                list_buffer result.nvme_cmd.host_buffer_size).list_buffer)
              (if (nvme_build_kv_list_response h result.result.as_keys result.result_length
                  list_buffer result.nvme_cmd.host_buffer_size).list_buffer_size
                  < result.nvme_cmd.host_buffer_size then
                (nvme_build_kv_list_response h result.result.as_keys result.result_length
                  list_buffer result.nvme_cmd.host_buffer_size).list_buffer_size
              else result.nvme_cmd.host_buffer_size))) := by
  have hns : ¬ result.status < 0 := by omega
  simp only [nvme_kv_notifier_switch, ht, KV_TASK_LIST, KV_TASK_STORE, KV_TASK_DELETE,
    KV_TASK_EXISTS, KV_TASK_RETRIEVE, hns, if_false]
  rfl

theorem notifier_step_status (h : NvmeHeader) (heap : Nat → Nat) (cache : SelectCache)
    (result : kv_task_result) :
    (nvme_kv_notifier_step h heap cache result).2 =
      ⟨result.nvme_cmd,
        if (nvme_kv_notifier_switch h heap cache result).2.1 ≠ h.NVME_SUCCESS then
          (nvme_kv_notifier_switch h heap cache result).2.1 ||| h.NVME_DNR
        else (nvme_kv_notifier_switch h heap cache result).2.1,
        (nvme_kv_notifier_switch h heap cache result).2.2.1,
        (nvme_kv_notifier_switch h heap cache result).2.2.2⟩ := rfl

/-- C13 (failing input): for a LIST result with a non-negative worker status
the notifier completes with `NVME_CMD_SIZE_LIMIT | NVME_DNR` and writes
nothing when `host_buffer_size` is 1, 2 or 3; when it is 0, `g_malloc(0)` is
`NULL` and the completion status is `NVME_KV_ERROR | NVME_DNR` instead (again
nothing is written). -/
theorem nvme_kv_list_small_buffer (h : NvmeHeader) (heap : Nat → Nat) (cache : SelectCache)
    (result : kv_task_result) (ht : result.task_type = KV_TASK_LIST) (hs : 0 ≤ result.status)
    (herr : h.NVME_KV_ERROR ≠ h.NVME_SUCCESS) (hlim : h.NVME_CMD_SIZE_LIMIT ≠ h.NVME_SUCCESS) :
    (result.nvme_cmd.host_buffer_size = 0 →
      (nvme_kv_notifier_step h heap cache result).2
        = ⟨result.nvme_cmd, h.NVME_KV_ERROR ||| h.NVME_DNR, 0, none⟩) ∧
    (0 < result.nvme_cmd.host_buffer_size → result.nvme_cmd.host_buffer_size < 4 →
      (nvme_kv_notifier_step h heap cache result).2
        = ⟨result.nvme_cmd, h.NVME_CMD_SIZE_LIMIT ||| h.NVME_DNR, 0, none⟩) := by
  rw [notifier_step_status, notifier_list_switch h heap cache result ht hs]
  constructor
  · intro h0
    simp [h0, g_malloc, herr]
  · intro hpos hlt
    have hne : result.nvme_cmd.host_buffer_size ≠ 0 := by omega
    simp [g_malloc, hne, nvme_build_kv_list_response, hlt, hlim]

/-- Witness for C13: under the sample header a LIST result with status 0 for
a command with `host_buffer_size = 0` completes with `0x4188`, which is
`NVME_KV_ERROR | NVME_DNR` and not `NVME_CMD_SIZE_LIMIT | NVME_DNR = 0x4183`. -/
theorem nvme_kv_list_small_buffer_witness :
    (nvme_kv_notifier_step sample_header (fun _ => 0) select_results_init
        (list_result (sample_request 0 0) [])).2
      = ⟨sample_request 0 0, 0x4188, 0, none⟩ ∧
    sample_header.NVME_CMD_SIZE_LIMIT ||| sample_header.NVME_DNR = 0x4183 ∧
    (nvme_kv_notifier_step sample_header (fun _ => 0) select_results_init
        (list_result (sample_request 3 0) [])).2
      = ⟨sample_request 3 0, 0x4183, 0, none⟩ :=
  ⟨(nvme_kv_list_small_buffer sample_header (fun _ => 0) select_results_init
      (list_result (sample_request 0 0) []) rfl (by decide) (by decide) (by decide)).1 rfl,
    by decide,
    (nvme_kv_list_small_buffer sample_header (fun _ => 0) select_results_init
      (list_result (sample_request 3 0) []) rfl (by decide) (by decide) (by decide)).2
      (by decide) (by decide)⟩

/-- C14 (counterexample): a LIST result with two keys of four bytes for a
command with `host_buffer_size = 12` completes with `NVME_SUCCESS`; the block
written to the host starts with the count 1 and holds one entry, and the
completion result word is 2. -/
theorem nvme_kv_list_result_counterexample :
    (nvme_kv_notifier_step sample_header (fun _ => 0) select_results_init
        (list_result (sample_request 12 0) [⟨[1, 2, 3, 4], 4⟩, ⟨[5, 6, 7, 8], 4⟩])).2
      = ⟨sample_request 12 0, sample_header.NVME_SUCCESS, 2,
          some [1, 0, 0, 0, 4, 0, 1, 2, 3, 4]⟩ := by
  decide

/-- C14 (amended): for every LIST result with a non-negative worker status
that carries `num_keys` well-formed keys, for a command with
`4 <= host_buffer_size`, the notifier completes with `NVME_SUCCESS`; the
completion result word is `num_keys`, the number of keys the worker found;
the block written to the host is the count `n` of the keys serialized and
their entries, with `n <= num_keys`; and `n = num_keys` iff the entries of all
keys fit in `host_buffer_size - 4` bytes. -/
theorem nvme_kv_list_result_word (h : NvmeHeader) (heap : Nat → Nat) (cache : SelectCache)
    (result : kv_task_result) (objects : List ObjectKey)
    (ht : result.task_type = KV_TASK_LIST) (hs : 0 ≤ result.status)
    (hres : result.result = ResultData.keys objects)
    (hnum : result.result_length = objects.length)
    (hkeys : ∀ k ∈ objects, k.key.length = k.key_len ∧ k.key_len ≤ 16)
    (hmax : 4 ≤ result.nvme_cmd.host_buffer_size)
    (h32 : result.nvme_cmd.host_buffer_size < 2 ^ 32) (hn32 : objects.length < 2 ^ 32) :
    ∃ n, n ≤ objects.length ∧
      (nvme_kv_notifier_step h heap cache result).2
        = ⟨result.nvme_cmd, h.NVME_SUCCESS, objects.length,
            some (le32_bytes n ++ list_entries (objects.take n))⟩ ∧
      (n = objects.length ↔
        4 + (list_entries objects).length ≤ result.nvme_cmd.host_buffer_size) := by
  obtain ⟨n, hn, heq, hle, hnext⟩ := nvme_build_kv_list_response_spec h objects
    ((List.range result.nvme_cmd.host_buffer_size).map heap)
    result.nvme_cmd.host_buffer_size hkeys hmax h32
  refine ⟨n, hn, ?_, ?_⟩
  · rw [notifier_step_status, notifier_list_switch h heap cache result ht hs]
    have hne : result.nvme_cmd.host_buffer_size ≠ 0 := by omega
    have hlen : 4 + (list_entries (objects.take n)).length
        = (le32_bytes n ++ list_entries (objects.take n)).length := by
      simp [le32_bytes_length]
    simp only [g_malloc, hne, if_false, hres, ResultData.as_keys, hnum, heq, ne_eq,
      not_true_eq_false, Nat.mod_eq_of_lt hn32, nvme_kv_write_data, Option.getD_some]
    congr 2
    split
    · rw [hlen, memcpy_take]
    · have : result.nvme_cmd.host_buffer_size = 4 + (list_entries (objects.take n)).length := by
        omega
      rw [this, hlen, memcpy_take]
  · constructor
    · intro hall
      subst hall
      simpa using hle
    · intro hfit
      by_contra hne
      have hlt : n < objects.length := by omega
      have hk := hnext objects[n] (List.getElem?_eq_getElem hlt)
      have hsplit : list_entries objects
          = list_entries (objects.take n) ++ list_entries (objects.drop n) := by
        rw [← list_entries_append, List.take_append_drop]
      have hdrop : objects.drop n = objects[n] :: objects.drop (n + 1) :=
        List.drop_eq_getElem_cons hlt
      have hkey := hkeys objects[n] (List.getElem_mem _)
      rw [hsplit, hdrop, list_entries_cons, List.length_append, List.length_append,
        list_entry_length _ hkey.1] at hfit
      omega

/-- Witness for C14: the keys and the buffer of the counterexample; one entry
is serialized and the result word is 2. -/
theorem nvme_kv_list_result_word_witness :
    ∃ n, n ≤ 2 ∧
      (nvme_kv_notifier_step sample_header (fun _ => 0) select_results_init
          (list_result (sample_request 12 0) [⟨[1, 2, 3, 4], 4⟩, ⟨[5, 6, 7, 8], 4⟩])).2
        = ⟨sample_request 12 0, 0, 2,
            some (le32_bytes n ++
              list_entries ([(⟨[1, 2, 3, 4], 4⟩ : ObjectKey), ⟨[5, 6, 7, 8], 4⟩].take n))⟩ ∧
      ¬ n = 2 :=
  (nvme_kv_list_result_word sample_header (fun _ => 0) select_results_init
    (list_result (sample_request 12 0) [⟨[1, 2, 3, 4], 4⟩, ⟨[5, 6, 7, 8], 4⟩])
    [⟨[1, 2, 3, 4], 4⟩, ⟨[5, 6, 7, 8], 4⟩] rfl (by decide) rfl rfl (by decide) (by decide)
    (by decide) (by decide)).imp
    (fun _ hn => ⟨hn.1, hn.2.1, fun hc => absurd (hn.2.2.mp hc) (by decide)⟩)

/-- C15: for every STORE result the notifier completes with `NVME_SUCCESS`
when the worker status is non-negative, with `NVME_KV_NOT_FOUND | NVME_DNR`
when it is `KV_ERROR_FILE_NOT_FOUND`, with `NVME_KV_EXISTS | NVME_DNR` when it
is `KV_ERROR_FILE_EXISTS`, and with `NVME_KV_ERROR | NVME_DNR` for every other
negative status; a STORE request with both `must_exist` and `must_not_exist`
gets the worker status `KV_ERROR_INVALID_PARAMETER` and so the last of these;
nothing is written to the host and the result word is 0; and, the three error
codes being other than `NVME_SUCCESS` and `NVME_SUCCESS` not carrying the
marker, the marker `NVME_DNR` is set in the completion status iff that status
is not `NVME_SUCCESS`. -/
theorem nvme_kv_store_status (h : NvmeHeader) (heap : Nat → Nat) (cache : SelectCache)
    (result : kv_task_result) (ht : result.task_type = KV_TASK_STORE)
    (hnf : h.NVME_KV_NOT_FOUND ≠ h.NVME_SUCCESS) (hexs : h.NVME_KV_EXISTS ≠ h.NVME_SUCCESS)
    (herr : h.NVME_KV_ERROR ≠ h.NVME_SUCCESS)
    (hdnr : h.NVME_SUCCESS &&& h.NVME_DNR ≠ h.NVME_DNR) :
    (0 ≤ result.status →
      (nvme_kv_notifier_step h heap cache result).2 = ⟨result.nvme_cmd, h.NVME_SUCCESS, 0, none⟩) ∧
    (result.status = KV_ERROR_FILE_NOT_FOUND →
      (nvme_kv_notifier_step h heap cache result).2
        = ⟨result.nvme_cmd, h.NVME_KV_NOT_FOUND ||| h.NVME_DNR, 0, none⟩) ∧
    (result.status = KV_ERROR_FILE_EXISTS →
      (nvme_kv_notifier_step h heap cache result).2
        = ⟨result.nvme_cmd, h.NVME_KV_EXISTS ||| h.NVME_DNR, 0, none⟩) ∧
    (result.status < 0 → result.status ≠ KV_ERROR_FILE_NOT_FOUND →
      result.status ≠ KV_ERROR_FILE_EXISTS →
      (nvme_kv_notifier_step h heap cache result).2
        = ⟨result.nvme_cmd, h.NVME_KV_ERROR ||| h.NVME_DNR, 0, none⟩) ∧
    (∀ (run_query : FS → kv_task_request → FS × QueryResult) (fs : FS)
        (request : kv_task_request),
      request.task_type = KV_TASK_STORE → request.must_exist = true →
      request.must_not_exist = true →
      ∃ fs1 o, kv_task_switch heap run_query fs request = some (fs1, o) ∧
        o.status = KV_ERROR_INVALID_PARAMETER ∧
        (nvme_kv_notifier_step h heap cache
            ⟨request.task_type, request.nvme_cmd, o.status, o.result_data,
              o.result_data_length, o.max_length⟩).2
          = ⟨request.nvme_cmd, h.NVME_KV_ERROR ||| h.NVME_DNR, 0, none⟩) ∧
    ((nvme_kv_notifier_step h heap cache result).2.status &&& h.NVME_DNR = h.NVME_DNR ↔
      (nvme_kv_notifier_step h heap cache result).2.status ≠ h.NVME_SUCCESS) ∧
    (nvme_kv_notifier_step h heap cache result).1 = cache := by
  have hsw : nvme_kv_notifier_switch h heap cache result =
      if result.status < 0 then
        if result.status = KV_ERROR_FILE_NOT_FOUND then (cache, h.NVME_KV_NOT_FOUND, 0, none)
        else if result.status = KV_ERROR_FILE_EXISTS then (cache, h.NVME_KV_EXISTS, 0, none)
        else (cache, h.NVME_KV_ERROR, 0, none)
      else (cache, h.NVME_SUCCESS, 0, none) := by
    simp only [nvme_kv_notifier_switch, ht, if_true]
  have hA : 0 ≤ result.status →
      (nvme_kv_notifier_step h heap cache result).2
        = ⟨result.nvme_cmd, h.NVME_SUCCESS, 0, none⟩ := by
    intro hs
    have hns : ¬ result.status < 0 := by omega
    rw [notifier_step_status, hsw]
    simp [hns]
  have hB : result.status = KV_ERROR_FILE_NOT_FOUND →
      (nvme_kv_notifier_step h heap cache result).2
        = ⟨result.nvme_cmd, h.NVME_KV_NOT_FOUND ||| h.NVME_DNR, 0, none⟩ := by
    intro hs
    rw [notifier_step_status, hsw]
    simp [hs, KV_ERROR_FILE_NOT_FOUND, hnf]
  have hC : result.status = KV_ERROR_FILE_EXISTS →
      (nvme_kv_notifier_step h heap cache result).2
        = ⟨result.nvme_cmd, h.NVME_KV_EXISTS ||| h.NVME_DNR, 0, none⟩ := by
    intro hs
    rw [notifier_step_status, hsw]
    simp [hs, KV_ERROR_FILE_EXISTS, KV_ERROR_FILE_NOT_FOUND, hexs]
  have hD : ∀ r : kv_task_result, r.task_type = KV_TASK_STORE → r.status < 0 →
      r.status ≠ KV_ERROR_FILE_NOT_FOUND → r.status ≠ KV_ERROR_FILE_EXISTS →
      (nvme_kv_notifier_step h heap cache r).2
        = ⟨r.nvme_cmd, h.NVME_KV_ERROR ||| h.NVME_DNR, 0, none⟩ := by
    intro r hrt h1 h2 h3
    rw [notifier_step_status]
    simp only [nvme_kv_notifier_switch, hrt, if_true, h1, h2, h3, if_false]
    simp [herr]
  refine ⟨hA, hB, hC, hD result ht, ?_, ?_, ?_⟩
  · intro run_query fs request hrt hme hmne
    refine ⟨fs, ⟨KV_ERROR_INVALID_PARAMETER, ResultData.null, 0, 0⟩, ?_, rfl, ?_⟩
    · simp [kv_task_switch, hrt, store_object, hme, hmne]
    · exact hD _ hrt (show KV_ERROR_INVALID_PARAMETER < 0 by decide)
        (show KV_ERROR_INVALID_PARAMETER ≠ KV_ERROR_FILE_NOT_FOUND by decide)
        (show KV_ERROR_INVALID_PARAMETER ≠ KV_ERROR_FILE_EXISTS by decide)
  · have hcases : (nvme_kv_notifier_step h heap cache result).2.status = h.NVME_SUCCESS ∨
        ∃ x, (nvme_kv_notifier_step h heap cache result).2.status = x ||| h.NVME_DNR := by
      by_cases hs : result.status < 0
      · right
        by_cases h1 : result.status = KV_ERROR_FILE_NOT_FOUND
        · exact ⟨_, by rw [hB h1]⟩
        · by_cases h2 : result.status = KV_ERROR_FILE_EXISTS
          · exact ⟨_, by rw [hC h2]⟩
          · exact ⟨_, by rw [hD result ht hs h1 h2]⟩
      · left
        rw [hA (by omega)]
    rcases hcases with hsucc | ⟨x, hx⟩
    · rw [hsucc]
      exact ⟨fun hc => absurd hc hdnr, fun hc => absurd rfl hc⟩
    · rw [hx]
      refine ⟨fun _ hc => ?_, fun _ => or_dnr_and _ _⟩
      apply hdnr
      rw [← hc]
      exact or_dnr_and _ _
  · show (nvme_kv_notifier_switch h heap cache result).1 = cache
    rw [hsw]
    split
    · split
      · rfl
      · split <;> rfl
    · rfl

/-- Witness for C15: under the sample header the worker status
`KV_ERROR_FILE_EXISTS` of a STORE completes with `0x4189`, the status
`KV_ERROR_FILE_WRITE` with `0x4188`, and 3 bytes written with 0. -/
theorem nvme_kv_store_status_witness :
    (nvme_kv_notifier_step sample_header (fun _ => 0) select_results_init
        ⟨KV_TASK_STORE, sample_request 3 0, KV_ERROR_FILE_EXISTS, ResultData.null, 0, 0⟩).2
      = ⟨sample_request 3 0, 0x4189, 0, none⟩ ∧
    (nvme_kv_notifier_step sample_header (fun _ => 0) select_results_init
        ⟨KV_TASK_STORE, sample_request 3 0, KV_ERROR_FILE_WRITE, ResultData.null, 0, 0⟩).2
      = ⟨sample_request 3 0, 0x4188, 0, none⟩ ∧
    (nvme_kv_notifier_step sample_header (fun _ => 0) select_results_init
        ⟨KV_TASK_STORE, sample_request 3 0, 3, ResultData.null, 0, 0⟩).2
      = ⟨sample_request 3 0, 0, 0, none⟩ :=
  ⟨(nvme_kv_store_status sample_header (fun _ => 0) select_results_init
      ⟨KV_TASK_STORE, sample_request 3 0, KV_ERROR_FILE_EXISTS, ResultData.null, 0, 0⟩ rfl
      (by decide) (by decide) (by decide) (by decide)).2.2.1 rfl,
    (nvme_kv_store_status sample_header (fun _ => 0) select_results_init
      ⟨KV_TASK_STORE, sample_request 3 0, KV_ERROR_FILE_WRITE, ResultData.null, 0, 0⟩ rfl
      (by decide) (by decide) (by decide) (by decide)).2.2.2.1 (by decide) (by decide)
      (by decide),
    (nvme_kv_store_status sample_header (fun _ => 0) select_results_init
      ⟨KV_TASK_STORE, sample_request 3 0, 3, ResultData.null, 0, 0⟩ rfl
      (by decide) (by decide) (by decide) (by decide)).1 (by decide)⟩

theorem kv_task_switch_retrieve (heap : Nat → Nat)
    (run_query : FS → kv_task_request → FS × QueryResult) (fs : FS) (r : kv_task_request)
    (ht : r.task_type = KV_TASK_RETRIEVE) :
    kv_task_switch heap run_query fs r =
      match g_malloc heap r.max_length with
      | none => some (fs, ⟨-1, ResultData.null, 0, 0⟩)
      | some buffer =>
        if (read_object fs r.bus_number r.namespace_id (r.key.take r.key_length) r.offset
            r.max_length).2.ret > 0 then
          some ((read_object fs r.bus_number r.namespace_id (r.key.take r.key_length) r.offset
              r.max_length).1,
            ⟨(read_object fs r.bus_number r.namespace_id (r.key.take r.key_length) r.offset
                r.max_length).2.ret,
              ResultData.bytes (memcpy buffer
                (read_object fs r.bus_number r.namespace_id (r.key.take r.key_length) r.offset
                  r.max_length).2.buffer),
              if r.max_length < (read_object fs r.bus_number r.namespace_id
                  (r.key.take r.key_length) r.offset r.max_length).2.total_object_size.getD 0
              then r.max_length
              else (read_object fs r.bus_number r.namespace_id (r.key.take r.key_length)
                r.offset r.max_length).2.total_object_size.getD 0,
              (read_object fs r.bus_number r.namespace_id (r.key.take r.key_length) r.offset
                r.max_length).2.total_object_size.getD 0⟩)
        else
          some ((read_object fs r.bus_number r.namespace_id (r.key.take r.key_length) r.offset
              r.max_length).1,
            ⟨(read_object fs r.bus_number r.namespace_id (r.key.take r.key_length) r.offset
                r.max_length).2.ret, ResultData.null, 0, 0⟩) := by
  simp only [kv_task_switch, ht, KV_TASK_RETRIEVE, KV_TASK_STORE]
  rfl

/-- What a worker hands back for a RETRIEVE request on an existing object
with content `c`. -/
theorem retrieve_outcome (heap : Nat → Nat)
    (run_query : FS → kv_task_request → FS × QueryResult) (fs : FS) (r : kv_task_request)
    (c : List Nat) (ht : r.task_type = KV_TASK_RETRIEVE)
    (hobj : object_data fs r.bus_number r.namespace_id (r.key.take r.key_length) = some c)
    (hoff : r.offset < 2 ^ 63) (hseek : r.offset ≤ c.length ∨ r.offset ≤ fs.max_offset) :
    ∃ fs1 o, kv_task_switch heap run_query fs r = some (fs1, o) ∧
      (r.max_length = 0 → o = ⟨-1, ResultData.null, 0, 0⟩) ∧
      (0 < r.max_length → c.length ≤ r.offset → o = ⟨0, ResultData.null, 0, 0⟩) ∧
      (0 < r.max_length → r.offset < c.length →
        ∃ block, o = ⟨((min r.max_length (c.length - r.offset) : Nat) : Int),
            ResultData.bytes block, min r.max_length c.length, c.length⟩ ∧
          block.length = r.max_length ∧
          block.take (min r.max_length (c.length - r.offset))
            = (c.drop r.offset).take r.max_length) := by
  obtain ⟨e, hl, hreg, rfl⟩ := object_data_some _ _ _ _ _ hobj
  obtain ⟨hok, htn⟩ := fseek_set_accepts fs.max_offset e r.offset hoff hseek
  have hread : (read_object fs r.bus_number r.namespace_id (r.key.take r.key_length) r.offset
      r.max_length).2 = ⟨(((e.data.drop r.offset).take r.max_length).length : Int),
        (e.data.drop r.offset).take r.max_length, some e.data.length⟩ := by
    rw [read_object_snd, hl]
    simp only [hok, htn, ne_eq, not_true_eq_false, if_false, fread, hreg, if_true]
  rw [kv_task_switch_retrieve heap run_query fs r ht]
  by_cases hm : r.max_length = 0
  · refine ⟨fs, ⟨-1, ResultData.null, 0, 0⟩, by simp [g_malloc, hm], fun _ => rfl,
      fun hp => by omega, fun hp => by omega⟩
  · have hg : g_malloc heap r.max_length = some ((List.range r.max_length).map heap) := by
      simp [g_malloc, hm]
    rw [hg]
    simp only [hread, Option.getD_some]
    have hlen : ((e.data.drop r.offset).take r.max_length).length
        = min r.max_length (e.data.length - r.offset) := by
      simp [List.length_take, List.length_drop]
    by_cases hpast : e.data.length ≤ r.offset
    · have hz : ((e.data.drop r.offset).take r.max_length).length = 0 := by
        rw [hlen]; omega
      refine ⟨_, _, by rw [if_neg (by rw [hz]; decide)], fun h0 => absurd h0 hm, ?_,
        fun _ hlt => by omega⟩
      intro _ _
      rw [hz]
      rfl
    · have hpos : 0 < ((e.data.drop r.offset).take r.max_length).length := by
        rw [hlen]; omega
      refine ⟨_, _, by rw [if_pos (by exact_mod_cast hpos)], fun h0 => absurd h0 hm,
        fun _ hle => absurd hle hpast, ?_⟩
      intro _ _
      refine ⟨memcpy ((List.range r.max_length).map heap)
        ((e.data.drop r.offset).take r.max_length), ?_, ?_, ?_⟩
      · rw [hlen]
        congr 1
        split <;> omega
      · simp [memcpy, hlen]
      · rw [← hlen]
        exact memcpy_take _ _

theorem notifier_single (h : NvmeHeader) (heap : Nat → Nat) (cache : SelectCache)
    (result : kv_task_result) (requests : List kv_task_request) :
    (nvme_kv_notifier h heap ⟨requests, [result]⟩ cache).2.2
      = [(nvme_kv_notifier_step h heap cache result).2] := rfl

/-- C16 (failing input): a RETRIEVE of an existing object with content `c`,
for a command with a valid key and a mapped host buffer, is enqueued by the
handler, run by a worker and completed by the notifier as follows.  With
`host_buffer_size = 0` it completes with `NVME_KV_ERROR | NVME_DNR`; with a
read offset at or past the end it completes with `NVME_SUCCESS` and the
result word 0, whatever the size of the object; otherwise it completes with
`NVME_SUCCESS`, the result word is the total size and `min(len c,
host_buffer_size)` bytes are written to the host. -/
theorem nvme_kv_retrieve_result_word (h : NvmeHeader) (heap : Nat → Nat)
    (run_query : FS → kv_task_request → FS × QueryResult) (n : NvmeCtrl) (fs : FS)
    (cache : SelectCache) (req : NvmeRequest) (key : List Nat) (key_length : Nat) (c : List Nat)
    (hkey : nvme_kv_get_key req.cmd false = some (key, key_length))
    (hmap : n.map_dptr req req.host_buffer_size = h.NVME_SUCCESS)
    (hobj : object_data fs n.bus_num req.nsid key = some c)
    (hoff : req.read_offset < 2 ^ 32) (herr : h.NVME_KV_ERROR ≠ h.NVME_SUCCESS) :
    (req.host_buffer_size = 0 →
      run_command h heap run_query n KvOpcode.retrieve fs cache req
        = some (h.NVME_NO_COMPLETE, [⟨req, h.NVME_KV_ERROR ||| h.NVME_DNR, 0, none⟩])) ∧
    (0 < req.host_buffer_size → c.length ≤ req.read_offset →
      run_command h heap run_query n KvOpcode.retrieve fs cache req
        = some (h.NVME_NO_COMPLETE, [⟨req, h.NVME_SUCCESS, 0, some []⟩])) ∧
    (0 < req.host_buffer_size → req.read_offset < c.length →
      ∃ w, run_command h heap run_query n KvOpcode.retrieve fs cache req
          = some (h.NVME_NO_COMPLETE, [⟨req, h.NVME_SUCCESS, c.length % 2 ^ 32, some w⟩]) ∧
        w.length = min c.length req.host_buffer_size) := by
  obtain ⟨hkl, h16, h1, hlen⟩ := nvme_kv_get_key_some _ _ _ _ hkey
  obtain ⟨r, hr, hrkl, hrt, hrcmd, hrmax, hroff, _, hrbus, hrns, hrkey⟩ :=
    add_request_requests ⟨[], []⟩ KV_TASK_RETRIEVE n.bus_num req.nsid req key key_length none 0
      req.host_buffer_size false false false req.read_offset 0 0 false false
  have hrkey2 := hrkey (h1 rfl) h16 hlen
  have hhandler : kv_key_handler h n KvOpcode.retrieve req ⟨[], []⟩
      = (⟨[r], []⟩, h.NVME_NO_COMPLETE) := by
    simp only [kv_key_handler, nvme_kv_retrieve, hkey, hmap, ne_eq, not_true_eq_false, if_false,
      hr, List.nil_append]
  obtain ⟨fs1, o, hsw, hzero, hpast, hin⟩ := retrieve_outcome heap run_query fs r c hrt
    (by rw [hrbus, hrns, hrkey2]; exact hobj) (by rw [hroff]; omega)
    (Or.inr (by rw [hroff]; have := fs.large_files; omega))
  have hrun : run_command h heap run_query n KvOpcode.retrieve fs cache req
      = some (h.NVME_NO_COMPLETE,
          [(nvme_kv_notifier_step h heap cache
            ⟨KV_TASK_RETRIEVE, req, o.status, o.result_data, o.result_data_length,
              o.max_length⟩).2]) := by
    simp only [run_command, hhandler, kv_tasks_run_thread, hsw, kv_tasks_send_result, hrt, hrcmd,
      List.nil_append, notifier_single]
  rw [hrun]
  rw [hrmax] at hzero hpast hin
  rw [hroff] at hpast hin
  refine ⟨?_, ?_, ?_⟩
  · intro h0
    rw [hzero h0, notifier_step_status]
    simp [nvme_kv_notifier_switch, KV_TASK_RETRIEVE, KV_TASK_STORE, KV_TASK_DELETE,
      KV_TASK_EXISTS, KV_ERROR_CANNOT_OPEN, herr]
  · intro hp hle
    rw [hpast hp hle, notifier_step_status]
    simp [nvme_kv_notifier_switch, KV_TASK_RETRIEVE, KV_TASK_STORE, KV_TASK_DELETE,
      KV_TASK_EXISTS, nvme_kv_write_data, ResultData.as_bytes]
  · intro hp hlt
    obtain ⟨block, ho, hblen, _⟩ := hin hp hlt
    refine ⟨block.take (min c.length req.host_buffer_size), ?_, ?_⟩
    · rw [ho, notifier_step_status]
      have hmin : (if min req.host_buffer_size c.length < req.host_buffer_size then
          min req.host_buffer_size c.length else req.host_buffer_size)
          = min c.length req.host_buffer_size := by
        split <;> omega
      have hnn : ¬ (((min req.host_buffer_size (c.length - req.read_offset) : Nat) : Int) < 0) := by
        omega
      simp only [nvme_kv_notifier_switch, KV_TASK_RETRIEVE, KV_TASK_STORE, KV_TASK_DELETE,
        KV_TASK_EXISTS, hnn, if_false, nvme_kv_write_data, ResultData.as_bytes, Option.getD_some,
        hmin]
      simp
    · rw [List.length_take, hblen]
      omega

/-- Witness for C16: the object of three bytes under the key `6B`, read with
`host_buffer_size = 8`: at offset 3 the completion reports the size 0, not 3;
with `host_buffer_size = 0` the command fails. -/
theorem nvme_kv_retrieve_result_word_witness :
    run_command sample_header (fun _ => 0) no_query sample_ctrl KvOpcode.retrieve one_object_fs
        select_results_init (sample_request 8 3)
      = some (0xffff, [⟨sample_request 8 3, 0, 0, some []⟩]) ∧
    run_command sample_header (fun _ => 0) no_query sample_ctrl KvOpcode.retrieve one_object_fs
        select_results_init (sample_request 0 0)
      = some (0xffff, [⟨sample_request 0 0, 0x4188, 0, none⟩]) :=
  ⟨(nvme_kv_retrieve_result_word sample_header (fun _ => 0) no_query sample_ctrl one_object_fs
      select_results_init (sample_request 8 3) [107] 1 [10, 20, 30] (by decide) rfl (by decide)
      (by decide) (by decide)).2.1 (by decide) (by decide),
    (nvme_kv_retrieve_result_word sample_header (fun _ => 0) no_query sample_ctrl one_object_fs
      select_results_init (sample_request 0 0) [107] 1 [10, 20, 30] (by decide) rfl (by decide)
      (by decide) (by decide)).1 rfl⟩

/-! ## The worker count -/

/-- C21 (counterexample): a parsed value of 0 gives 5 workers, not 1, and a
parsed value of 2000 gives 5 workers, not 1024. -/
theorem kv_tasks_init_clamp_counterexample :
    kv_tasks_init (some 0) = 5 ∧ kv_tasks_init (some 0) ≠ 1 ∧
    kv_tasks_init (some 2000) = 5 ∧ kv_tasks_init (some 2000) ≠ 1024 := by
  decide

/-- C21 (amended): the worker count chosen by `kv_tasks_init` is the parsed
value of `KV_NUM_THREADS` when that lies in 1..1024, and
`KV_TASK_NUM_THREADS = 5` otherwise: when the variable is unset, when the
value is below 1 and when it is above 1024. -/
theorem kv_tasks_init_num_threads (v : Int) :
    (1 ≤ v ∧ v ≤ 1024 → kv_tasks_init (some v) = v) ∧
    (v < 1 → kv_tasks_init (some v) = 5) ∧
    (1024 < v → kv_tasks_init (some v) = 5) ∧
    kv_tasks_init none = 5 ∧
    (1 ≤ kv_tasks_init (some v) ∧ kv_tasks_init (some v) ≤ 1024) := by
  have h5 : KV_TASK_NUM_THREADS = 5 := rfl
  unfold kv_tasks_init
  simp only [h5]
  refine ⟨?_, ?_, ?_, ?_, ?_⟩
  · intro hv
    rw [if_neg (by omega)]
  · intro hv
    rw [if_pos (by omega)]
  · intro hv
    rw [if_pos (by omega)]
  · decide
  · by_cases hc : v ≤ 0 ∨ v > 1024
    · rw [if_pos hc]; omega
    · rw [if_neg hc]; omega

/-! ## Directories on read paths -/

/-- C22 (failing input): on a file system without any directory,
`read_object` and `list_objects` for bus 1, namespace 1 fail to find anything
and leave the base, bus and namespace directories behind, as `store_object`
does; `file_exist` never changes the file system. -/
theorem read_paths_create_directories :
    (read_object empty_fs 1 1 [107] 0 8).2.ret = KV_ERROR_CANNOT_OPEN ∧
    (read_object empty_fs 1 1 [107] 0 8).1.base = true ∧
    (read_object empty_fs 1 1 [107] 0 8).1.bus_dirs 1 = true ∧
    (read_object empty_fs 1 1 [107] 0 8).1.ns_dirs 1 1 = some fresh_dir ∧
    (list_objects empty_fs 1 1 [] 0 0).2 = ListOutcome.returned 0 [] ∧
    (list_objects empty_fs 1 1 [] 0 0).1.base = true ∧
    (list_objects empty_fs 1 1 [] 0 0).1.bus_dirs 1 = true ∧
    (list_objects empty_fs 1 1 [] 0 0).1.ns_dirs 1 1 = some fresh_dir ∧
    empty_fs.base = false ∧ empty_fs.ns_dirs 1 1 = none ∧
    (∀ (fs : FS) (bus ns : Nat) (key : List Nat), (file_exist fs bus ns key).1 = fs) := by
  refine ⟨by decide, by decide, by decide, by decide, by decide, by decide, by decide,
    by decide, by decide, by decide, ?_⟩
  intro fs bus ns key
  rfl

/-! ## The slots of the select result cache -/

theorem order_inv_init : OrderInv select_results_init [] := by
  intro i _
  refine ⟨Or.inl rfl, ?_⟩
  intro h
  cases h

theorem order_inv_store (st : SelectCache) (issued : List Nat) (results : Option (List Nat))
    (results_len : Nat) (hinv : CacheInv st issued) (hord : OrderInv st issued) :
    OrderInv (select_results_store st results results_len).1
      (issued ++ [(select_results_store st results results_len).2]) := by
  obtain ⟨hnext, hslots, _, _⟩ := hinv
  rcases select_results_store_cases st results results_len hnext with
    ⟨j, hj, hfree, heq⟩ | ⟨o, ho, hall, heq⟩
  · rw [heq]
    intro i hi
    dsimp only
    by_cases hij : i = j
    · subst hij
      rw [set_entry_same]
      simp only [filled_entry]
      refine ⟨?_, fun _ => ⟨by simp, ?_⟩⟩
      · rcases (hord i hi).1 with h1 | h1
        · exact Or.inl h1
        · exact Or.inr (List.mem_append_left _ h1)
      · intro hnw
        have hl : (st.data_cache i).last_id + 32 < 2 ^ 32 := by
          rcases (hord i hi).1 with h1 | h1
          · rw [h1]; omega
          · exact hnw _ (List.mem_append_left _ h1)
        rw [Nat.mod_eq_of_lt hl]
    · rw [set_entry_other _ _ _ _ hij]
      obtain ⟨h1, h2⟩ := hord i hi
      refine ⟨?_, ?_⟩
      · rcases h1 with h1 | h1
        · exact Or.inl h1
        · exact Or.inr (List.mem_append_left _ h1)
      · intro hu
        obtain ⟨h3, h4⟩ := h2 hu
        exact ⟨List.mem_append_left _ h3,
          fun hnw => h4 (fun x hx => hnw x (List.mem_append_left _ hx))⟩
  · rw [heq]
    intro i hi
    dsimp only
    by_cases hio : i = o
    · subst hio
      rw [set_entry_same]
      simp only [evicted_entry]
      obtain ⟨h1, h2⟩ := hord i hi
      obtain ⟨h3, h4⟩ := h2 (hall i hi).1
      refine ⟨?_, fun _ => ⟨by simp, ?_⟩⟩
      · rcases h1 with h1 | h1
        · exact Or.inl h1
        · exact Or.inr (List.mem_append_left _ h1)
      · intro hnw
        have hl : (st.data_cache i).id + 32 < 2 ^ 32 := hnw _ (List.mem_append_left _ h3)
        have := h4 (fun x hx => hnw x (List.mem_append_left _ hx))
        rw [Nat.mod_eq_of_lt hl]
        omega
    · rw [set_entry_other _ _ _ _ hio]
      obtain ⟨h1, h2⟩ := hord i hi
      refine ⟨?_, ?_⟩
      · rcases h1 with h1 | h1
        · exact Or.inl h1
        · exact Or.inr (List.mem_append_left _ h1)
      · intro hu
        obtain ⟨h3, h4⟩ := h2 hu
        exact ⟨List.mem_append_left _ h3,
          fun hnw => h4 (fun x hx => hnw x (List.mem_append_left _ hx))⟩

theorem order_inv_retrieve (st : SelectCache) (issued : List Nat) (id : Nat) (dnr dnrs : Bool)
    (size_check : Nat) (hinv : CacheInv st issued) (hord : OrderInv st issued) :
    OrderInv (select_results_retrieve st id dnr dnrs size_check).1 issued := by
  rcases select_results_retrieve_cases st id dnr dnrs size_check with
    ⟨_, heq⟩ | ⟨data, hdata, hid, _, heq⟩ | ⟨_, _, _, _, heq⟩
  · rw [heq]; exact hord
  · rw [heq]
    intro i hi
    dsimp only
    by_cases hij : i = id % 32
    · subst hij
      rw [set_entry_same]
      simp only [removed_entry]
      have hlt : id % 32 < 32 := Nat.mod_lt _ (by decide)
      have huse : (st.data_cache (id % 32)).in_use = true := by
        by_contra hc
        have hf : (st.data_cache (id % 32)).in_use = false := by
          cases hb : (st.data_cache (id % 32)).in_use
          · rfl
          · exact absurd hb hc
        have := ((hinv.2.1 (id % 32) hlt).2.2.2.2.1 hf).2.1
        rw [hdata] at this
        cases this
      refine ⟨Or.inr ((hord (id % 32) hlt).2 huse).1, ?_⟩
      intro hc
      cases hc
    · rw [set_entry_other _ _ _ _ hij]
      exact hord i hi
  · rw [heq]; exact hord

theorem order_inv_foldl (ops : List CacheOp) :
    ∀ p : SelectCache × List Nat, CacheInv p.1 p.2 → OrderInv p.1 p.2 →
      (∀ op ∈ ops, valid_op op = true) →
      OrderInv (ops.foldl cache_step p).1 (ops.foldl cache_step p).2 := by
  induction ops with
  | nil => intro p _ h _; exact h
  | cons op rest ih =>
    intro p hinv hord hv
    rw [List.foldl_cons]
    apply ih
    · cases op with
      | store results results_len =>
        exact cache_inv_store p.1 p.2 results results_len hinv (hv _ (List.mem_cons_self _ _))
      | retrieve id a b c =>
        exact cache_inv_retrieve p.1 p.2 id a b c hinv
    · cases op with
      | store results results_len =>
        exact order_inv_store p.1 p.2 results results_len hinv hord
      | retrieve id a b c =>
        exact order_inv_retrieve p.1 p.2 id a b c hinv hord
    · intro op1 h1
      exact hv op1 (List.mem_cons_of_mem _ h1)

theorem order_inv_of_reachable (st : SelectCache) (issued : List Nat)
    (h : CacheReachable st issued) : OrderInv st issued := by
  obtain ⟨ops, hv, hrun⟩ := h
  have := order_inv_foldl ops (select_results_init, []) cache_inv_init order_inv_init hv
  unfold cache_run at hrun
  rw [hrun] at this
  exact this

/-- C24 (counterexample): right after `select_results_init` slot 0 holds
`id = 0` and `last_id = 0`, and slot 5 holds `id = 0` and `last_id = 5`; after
a store and a removing retrieve, slot 0 is free with `id = 0` and
`last_id = 32`.  In none of them is `id > last_id`. -/
theorem select_slot_order_counterexample :
    CacheReachable select_results_init [] ∧
    ¬ ((select_results_init.data_cache 0).id > (select_results_init.data_cache 0).last_id) ∧
    ¬ ((select_results_init.data_cache 5).id > (select_results_init.data_cache 5).last_id) ∧
    (∀ op ∈ [CacheOp.store (some [1, 2, 3]) 3, CacheOp.retrieve 32 false false 0],
      valid_op op = true) ∧
    ((cache_run [CacheOp.store (some [1, 2, 3]) 3,
        CacheOp.retrieve 32 false false 0]).1.data_cache 0).in_use = false ∧
    ((cache_run [CacheOp.store (some [1, 2, 3]) 3,
        CacheOp.retrieve 32 false false 0]).1.data_cache 0).id = 0 ∧
    ((cache_run [CacheOp.store (some [1, 2, 3]) 3,
        CacheOp.retrieve 32 false false 0]).1.data_cache 0).last_id = 32 := by
  refine ⟨⟨[], by decide, rfl⟩, by decide, by decide, by decide, by decide, by decide,
    by decide⟩

/-- C24 (amended): in every cache state reachable from `select_results_init`
by store and retrieve calls, every free slot holds `id = 0`, which is not
above its `last_id`; and as long as no id issued so far is within 32 of the
end of the 32-bit range, every slot in use satisfies `id >= last_id + 32`, so
`id > last_id`. -/
theorem select_slot_order (st : SelectCache) (issued : List Nat)
    (hr : CacheReachable st issued) (i : Nat) (hi : i < 32) :
    ((st.data_cache i).in_use = false →
      (st.data_cache i).id = 0 ∧ ¬ ((st.data_cache i).id > (st.data_cache i).last_id)) ∧
    ((∀ h ∈ issued, h + 32 < 2 ^ 32) → (st.data_cache i).in_use = true →
      (st.data_cache i).last_id + 32 ≤ (st.data_cache i).id ∧
      (st.data_cache i).id > (st.data_cache i).last_id) := by
  have hinv := cache_inv_of_reachable st issued hr
  have hord := order_inv_of_reachable st issued hr
  constructor
  · intro hf
    have h0 := ((hinv.2.1 i hi).2.2.2.2.1 hf).1
    rw [h0]
    exact ⟨rfl, by omega⟩
  · intro hnw hu
    have := ((hord i hi).2 hu).2 hnw
    exact ⟨this, by omega⟩

/-- Witness for C24: slot 0 of the cache after one store holds `id = 32` and
`last_id = 0`. -/
theorem select_slot_order_witness :
    (one_store_cache.data_cache 0).last_id + 32 ≤ (one_store_cache.data_cache 0).id ∧
    (one_store_cache.data_cache 0).id > (one_store_cache.data_cache 0).last_id :=
  (select_slot_order one_store_cache [32]
    (cache_run_reachable [CacheOp.store (some [1, 2, 3]) 3] (by decide)) 0 (by decide)).2
    (by decide) (by decide)

/-- C25 (counterexample): right after `select_results_init` slot 1 holds
`id = 0`, and `0 % 32` is not 1. -/
theorem select_slot_index_counterexample :
    CacheReachable select_results_init [] ∧
    (select_results_init.data_cache 1).id = 0 ∧
    ¬ ((select_results_init.data_cache 1).id % 32 = 1) := by
  refine ⟨⟨[], by decide, rfl⟩, by decide, by decide⟩

/-- C25 (amended): in every cache state reachable from `select_results_init`,
every slot in use at index `i` satisfies `id % 32 = i`, every slot satisfies
`last_id % 32 = i`, and a free slot holds `id = 0`; and every id returned by
`select_results_store` is below `2 ^ 32` and is stored, in use and with the
new buffer, in slot `id % 32`, also after the 32-bit id wraps around. -/
theorem select_slot_index (st : SelectCache) (issued : List Nat)
    (hr : CacheReachable st issued) :
    (∀ i < 32,
      ((st.data_cache i).in_use = true → (st.data_cache i).id % 32 = i) ∧
      (st.data_cache i).last_id % 32 = i ∧
      ((st.data_cache i).in_use = false → (st.data_cache i).id = 0)) ∧
    (∀ (results : Option (List Nat)) (results_len : Nat),
      (select_results_store st results results_len).2 < 2 ^ 32 ∧
      ((select_results_store st results results_len).1.data_cache
        ((select_results_store st results results_len).2 % 32)).id
          = (select_results_store st results results_len).2 ∧
      ((select_results_store st results results_len).1.data_cache
        ((select_results_store st results results_len).2 % 32)).in_use = true ∧
      ((select_results_store st results results_len).1.data_cache
        ((select_results_store st results results_len).2 % 32)).data = results) := by
  have hinv := cache_inv_of_reachable st issued hr
  constructor
  · intro i hi
    obtain ⟨h1, _, _, h4, h5, _⟩ := hinv.2.1 i hi
    exact ⟨h4, h1, fun hf => (h5 hf).1⟩
  · intro results results_len
    have hs := select_results_store_slot st issued results results_len hinv
    exact ⟨hs.1, hs.2.2.2.2.2.1, hs.2.2.1, hs.2.2.2.1⟩

/-- Witness for C25: the second store on the cache after one store returns
33, kept in slot 1. -/
theorem select_slot_index_witness :
    (select_results_store one_store_cache (some [4]) 1).2 = 33 ∧
    ((select_results_store one_store_cache (some [4]) 1).1.data_cache
      ((select_results_store one_store_cache (some [4]) 1).2 % 32)).id
        = (select_results_store one_store_cache (some [4]) 1).2 :=
  ⟨rfl, ((select_slot_index one_store_cache [32]
    (cache_run_reachable [CacheOp.store (some [1, 2, 3]) 3] (by decide))).2 (some [4]) 1).2.1⟩

/-! ## The flags of RETRIEVE_SELECT -/

/-- C27 (failing input): the flags `nvme_kv_retrieve_select` decodes depend
only on the low 8 bits of the option/length word, whatever the macros of
`nvme.h` are: two words with the same low 8 bits give the same flags, the same
call of `select_results_retrieve` and the same reply, so no option bit above
bit 7 reaches them. -/
theorem retrieve_select_flags_low_byte (h : NvmeHeader) (n : NvmeCtrl) (cache : SelectCache)
    (req1 req2 : NvmeRequest)
    (hlow : req1.cmd.key_length_and_options % 256 = req2.cmd.key_length_and_options % 256)
    (hsize : req1.host_buffer_size = req2.host_buffer_size)
    (hoff : req1.read_offset = req2.read_offset) (hid : req1.select_id = req2.select_id)
    (hmap : n.map_dptr req1 req1.host_buffer_size = n.map_dptr req2 req2.host_buffer_size) :
    retrieve_select_flags h req1.cmd.key_length_and_options
      = retrieve_select_flags h req2.cmd.key_length_and_options ∧
    nvme_kv_retrieve_select h n req1 cache = nvme_kv_retrieve_select h n req2 cache := by
  have hf : retrieve_select_flags h req1.cmd.key_length_and_options
      = retrieve_select_flags h req2.cmd.key_length_and_options := by
    simp only [retrieve_select_flags]
    have h8 : (2 : Nat) ^ 8 = 256 := by decide
    rw [h8, hlow]
  refine ⟨hf, ?_⟩
  rw [hsize] at hmap
  simp only [nvme_kv_retrieve_select, hf, hsize, hoff, hid, hmap]

/-- Witness for C27: under the sample header, whose macros test bits 0 and 1
of their argument, the word `0x100` (option bit 8 set, key length 0) and the
word `0x300` decode to the flags of the word 0, both false, while the words
`0x01` and `0x02`, which differ only in the key length bits, decode to
different flags. -/
theorem retrieve_select_flags_low_byte_witness :
    retrieve_select_flags sample_header 0x100 = retrieve_select_flags sample_header 0x300 ∧
    retrieve_select_flags sample_header 0x100 = (false, false) ∧
    retrieve_select_flags sample_header 0x01 = (true, false) ∧
    retrieve_select_flags sample_header 0x02 = (false, true) :=
  ⟨(retrieve_select_flags_low_byte sample_header sample_ctrl select_results_init
      ⟨⟨0x100, 0, 0, 0, 0⟩, 1, 8, 0, 32⟩ ⟨⟨0x300, 0, 0, 0, 0⟩, 1, 8, 0, 32⟩
      (by decide) rfl rfl rfl rfl).1,
    by decide, by decide, by decide⟩

/-! ## The length of a RETRIEVE result -/

/-- C28 (failing input): for a RETRIEVE request on an existing object with
content `c`, a buffer of `max_length > 0` bytes and a read offset inside the
object, `read_object` reads `min(max_length, len c - offset)` bytes, the
worker status, but the `result_length` of the task result is
`min(max_length, len c)`; with `0 < offset` and `len c - offset < max_length`
it exceeds the bytes read, and the bytes of the result block after the bytes
read are what the heap block held before. -/
theorem retrieve_result_length (heap : Nat → Nat)
    (run_query : FS → kv_task_request → FS × QueryResult) (fs : FS) (r : kv_task_request)
    (c : List Nat) (ht : r.task_type = KV_TASK_RETRIEVE)
    (hobj : object_data fs r.bus_number r.namespace_id (r.key.take r.key_length) = some c)
    (hmax : 0 < r.max_length) (hpos : 0 < r.offset) (hoff : r.offset < c.length)
    (hroom : c.length - r.offset < r.max_length) (h63 : c.length < 2 ^ 63) :
    ∃ fs1 block,
      kv_task_switch heap run_query fs r
        = some (fs1, ⟨((c.length - r.offset : Nat) : Int), ResultData.bytes block,
            min r.max_length c.length, c.length⟩) ∧
      c.length - r.offset < min r.max_length c.length ∧
      block.take (c.length - r.offset) = c.drop r.offset ∧
      block.drop (c.length - r.offset)
        = ((List.range r.max_length).map heap).drop (c.length - r.offset) := by
  obtain ⟨e, hl, hreg, rfl⟩ := object_data_some _ _ _ _ _ hobj
  obtain ⟨hok, htn⟩ := fseek_set_accepts fs.max_offset e r.offset (by omega)
    (Or.inl (by omega))
  have hread : (read_object fs r.bus_number r.namespace_id (r.key.take r.key_length) r.offset
      r.max_length).2 = ⟨(((e.data.drop r.offset).take r.max_length).length : Int),
        (e.data.drop r.offset).take r.max_length, some e.data.length⟩ := by
    rw [read_object_snd, hl]
    simp only [hok, htn, ne_eq, not_true_eq_false, if_false, fread, hreg, if_true]
  have htake : (e.data.drop r.offset).take r.max_length = e.data.drop r.offset := by
    apply List.take_of_length_le
    rw [List.length_drop]
    omega
  have hlen : (e.data.drop r.offset).length = e.data.length - r.offset := List.length_drop _ _
  have hm : r.max_length ≠ 0 := by omega
  have hg : g_malloc heap r.max_length = some ((List.range r.max_length).map heap) := by
    simp [g_malloc, hm]
  rw [kv_task_switch_retrieve heap run_query fs r ht, hg]
  simp only [hread, htake, hlen, Option.getD_some]
  have hgt : ((e.data.length - r.offset : Nat) : Int) > 0 := by omega
  rw [if_pos hgt]
  refine ⟨(read_object fs r.bus_number r.namespace_id (r.key.take r.key_length) r.offset
    r.max_length).1, memcpy ((List.range r.max_length).map heap) (e.data.drop r.offset),
    ?_, ?_, ?_, ?_⟩
  · congr 3
    split <;> omega
  · omega
  · rw [← hlen]
    exact memcpy_take _ _
  · simp [memcpy, hlen]

/-- Witness for C28: the object of three bytes 10, 20, 30 read at offset 2
into a buffer of 8 bytes on a heap full of `0xAA`: one byte is read, the
result length is 3, and the notifier writes the byte 30 followed by two bytes
of the heap to the host. -/
theorem retrieve_result_length_witness :
    (∃ fs1 block,
      kv_task_switch (fun _ => 0xAA) no_query one_object_fs (sample_retrieve 8 2)
        = some (fs1, ⟨1, ResultData.bytes block, 3, 3⟩) ∧
      block.take 1 = [30]) ∧
    run_command sample_header (fun _ => 0xAA) no_query sample_ctrl KvOpcode.retrieve
        one_object_fs select_results_init (sample_request 8 2)
      = some (0xffff, [⟨sample_request 8 2, 0, 3, some [30, 0xAA, 0xAA]⟩]) :=
  ⟨(retrieve_result_length (fun _ => 0xAA) no_query one_object_fs (sample_retrieve 8 2)
      [10, 20, 30] rfl (by decide) (by decide) (by decide) (by decide) (by decide)
      (by decide)).imp
      (fun _ hf => hf.imp (fun _ hb => ⟨hb.1, hb.2.2.1⟩)),
    by decide⟩

/-! ## The capacity of `dir_list` -/

/-- C29 (failing input): in a round of the `readdir` loop that starts with
`dir_list_size = dir_list_capacity` and `max_to_return + offset` below that
size, the capacity becomes `MIN(2 * dir_list_capacity, max_to_return +
offset)`, which is below `dir_list_size`: `realloc` shrinks the array under
the names collected and the round leaves the heap block, whatever the entry
is. -/
theorem scan_step_capacity_shrinks ( prefix_hex_str : List Char)
    (key_prefix_len offset max_to_return : Nat) (st : ScanState) (entry : Entry)
    (hfull : st.dir_list.length = st.dir_list_capacity)
    (hcap : max_to_return + offset < st.dir_list_capacity) :
    MIN (st.dir_list_capacity * 2 % 2 ^ 64) ((max_to_return + offset) % 2 ^ 64)
      < st.dir_list.length ∧
    scan_step prefix_hex_str key_prefix_len offset max_to_return st entry = none := by
  have hmin : MIN (st.dir_list_capacity * 2 % 2 ^ 64) ((max_to_return + offset) % 2 ^ 64)
      < st.dir_list.length := by
    unfold MIN
    split <;> omega
  refine ⟨hmin, ?_⟩
  unfold scan_step
  simp only [hfull, if_true]
  rw [hfull] at hmin
  rw [if_pos hmin]

set_option maxRecDepth 100000 in
/-- Witness for C29: with 128 names collected in 128 slots, `max_to_return =
1` and `offset = 0`, the next round sets the capacity to `MIN(256, 1) = 1`
and leaves the heap block. -/
theorem scan_step_capacity_shrinks_witness :
    MIN (full_scan_state.dir_list_capacity * 2 % 2 ^ 64) ((1 + 0) % 2 ^ 64) = 1 ∧
    full_scan_state.dir_list.length = 128 ∧
    scan_step [] 0 0 1 full_scan_state ⟨hex [128], DType.DT_REG, []⟩ = none :=
  ⟨by decide, by decide,
    (scan_step_capacity_shrinks [] 0 0 1 full_scan_state ⟨hex [128], DType.DT_REG, []⟩
      (by decide) (by decide)).2⟩

/-! ## Lemmas on the command of `run_query` -/

theorem write_at_tail (p t s : List Char) (n : Nat) (hn : n = p.length)
    (ht : t.length ≤ s.length) : write_at (p ++ t) n s = p ++ s := by
  subst hn
  unfold write_at
  have h1 : (p ++ t).take p.length = p := List.take_left _ _
  have h2 : p.length - (p ++ t).length = 0 := by simp
  have h3 : (p ++ t).drop (p.length + s.length) = [] := by
    apply List.drop_eq_nil_of_le
    simp
    omega
  rw [h1, h2, h3]
  simp

theorem tidy_init : Tidy 0 ([], 0) [] := ⟨rfl, [], rfl, le_refl _⟩

theorem tidy_put_str (k : Nat) (st : List Char × Nat) (p s : List Char) (n : Nat)
    (h : Tidy k st p) (hn : n = s.length) (hk : k ≤ s.length + 1) :
    Tidy 1 (put_str st s n) (p ++ s) := by
  obtain ⟨hpos, t, hmem, ht⟩ := h
  refine ⟨by simp [put_str, hpos, hn], [NUL], ?_, le_refl _⟩
  simp only [put_str, strcpy, hmem]
  rw [write_at_tail p t (s ++ [NUL]) st.2 hpos (by simp; omega)]
  simp

theorem tidy_put_chr (st : List Char × Nat) (p : List Char) (c : Char) (h : Tidy 1 st p) :
    Tidy 1 (put_chr st c) (p ++ [c]) := by
  obtain ⟨hpos, t, hmem, ht⟩ := h
  refine ⟨by simp [put_chr, hpos], [], ?_, by simp⟩
  simp only [put_chr, hmem]
  rw [write_at_tail p t [c] st.2 hpos (by simpa using ht)]
  simp

theorem tidy_emit (st : List Char × Nat) (p : List Char) (piece : Option (List Char × Nat))
    (h : Tidy 1 st p) (hp : ∀ s n, piece = some (s, n) → n = s.length) :
    Tidy 1 (emit st piece) (p ++ piece_text piece) := by
  cases piece with
  | none => simpa [emit, piece_text] using h
  | some sn =>
    obtain ⟨s, n⟩ := sn
    exact tidy_put_str 1 st p s n h (hp s n rfl) (by omega)

theorem tidy_strncpy (st : List Char × Nat) (p sql : List Char) (n : Nat) (h : Tidy 1 st p)
    (hn : n ≤ sql.length) :
    Tidy 1 (strncpy st.1 st.2 sql n, st.2 + n) (p ++ sql.take n) := by
  obtain ⟨hpos, t, hmem, ht⟩ := h
  have hz : n - sql.length = 0 := by omega
  have hl : (sql.take n).length = n := by simp [List.length_take]; omega
  by_cases h0 : n = 0
  · subst h0
    refine ⟨by simp [hpos], t, ?_, ht⟩
    simp only [strncpy, hmem, hz, List.take_zero, List.replicate_zero, List.append_nil]
    unfold write_at
    simp [hpos]
  · refine ⟨by simp [hpos, hl], [], ?_, by simp⟩
    simp only [strncpy, hmem, hz, List.replicate_zero, List.append_nil]
    rw [write_at_tail p t (sql.take n) st.2 hpos (by rw [hl]; omega)]

theorem tidy_second_part (st : List Char × Nat) (p sql : List Char) (spp total : Nat)
    (h : Tidy 1 st p) (hspp : spp ≤ total) (htot : total ≤ sql.length)
    (hlast : sql.length ≤ total + 1) :
    Tidy 2 (strcpy st.1 st.2 (sql.drop spp),
        if spp ≤ total then st.2 + (total - spp) else st.2 - (spp - total))
      (p ++ (sql.take total).drop spp) := by
  obtain ⟨hpos, t, hmem, ht⟩ := h
  have hsplit : sql.drop spp = (sql.take total).drop spp ++ sql.drop total := by
    conv_lhs => rw [← List.take_append_drop total sql]
    rw [List.drop_append_of_le_length (by simp [List.length_take]; omega)]
  have hl : ((sql.take total).drop spp).length = total - spp := by
    simp [List.length_drop, List.length_take]
    omega
  refine ⟨by simp [hspp, hpos, hl], sql.drop total ++ [NUL], ?_, ?_⟩
  · simp only [strcpy, hmem]
    rw [write_at_tail p t (sql.drop spp ++ [NUL]) st.2 hpos (by simp; omega), hsplit]
    simp
  · simp [List.length_drop]
    omega

theorem write_nul_of_tidy (st : List Char × Nat) (p : List Char) (h : Tidy 1 st p) :
    write_at st.1 st.2 [NUL] = p ++ [NUL] := by
  obtain ⟨hpos, t, hmem, ht⟩ := h
  rw [hmem]
  exact write_at_tail p t [NUL] st.2 hpos (by simpa using ht)

theorem second_part_loop_spec (sql : List Char) (total : Nat) :
    ∀ (fuel start : Nat), total ≤ start + fuel →
      start ≤ second_part_loop sql total fuel start ∧
      (start ≤ total → second_part_loop sql total fuel start ≤ total) ∧
      (total < start → second_part_loop sql total fuel start = start) ∧
      (∀ i, start ≤ i → i < second_part_loop sql total fuel start → sql.getD i NUL ≠ ' ') ∧
      (second_part_loop sql total fuel start < total →
        sql.getD (second_part_loop sql total fuel start) NUL = ' ') := by
  intro fuel
  induction fuel with
  | zero =>
    intro start hf
    simp only [second_part_loop]
    exact ⟨le_refl _, fun h => h, fun _ => by trivial, fun i h1 h2 => by omega, fun h => by omega⟩
  | succ fuel ih =>
    intro start hf
    simp only [second_part_loop]
    by_cases hc : start < total ∧ sql.getD start NUL ≠ ' '
    · rw [if_pos hc]
      obtain ⟨h1, h2, _, h4, h5⟩ := ih (start + 1) (by omega)
      refine ⟨by omega, fun _ => h2 (by omega), fun h => by omega, ?_, h5⟩
      intro i hi1 hi2
      by_cases hie : i = start
      · subst hie; exact hc.2
      · exact h4 i (by omega) hi2
    · rw [if_neg hc]
      refine ⟨le_refl _, fun h => h, fun _ => by trivial, fun i h1 h2 => by omega, ?_⟩
      intro hlt
      by_contra hne
      exact hc ⟨hlt, hne⟩

theorem strcasestr_some (needle : List Char) :
    ∀ (sql : List Char) (i : Nat), strcasestr sql needle = some i →
      i + needle.length ≤ sql.length ∧
      ((sql.drop i).take needle.length).map Char.toLower = needle.map Char.toLower := by
  intro sql
  induction sql with
  | nil =>
    intro i h
    simp only [strcasestr] at h
    split at h
    · rename_i he
      simp only [Option.some.injEq] at h
      subst h
      have : needle = [] := by simpa using he
      subst this
      simp
    · cases h
  | cons c rest ih =>
    intro i h
    simp only [strcasestr] at h
    split at h
    · rename_i hp
      simp only [Option.some.injEq] at h
      subst h
      have hpre := List.isPrefixOf_iff_prefix.mp hp
      obtain ⟨t, ht⟩ := hpre
      have hlen : (needle.map Char.toLower).length ≤ ((c :: rest).map Char.toLower).length := by
        rw [← ht]; simp
      simp only [List.length_map] at hlen
      refine ⟨by simpa using hlen, ?_⟩
      simp only [List.drop_zero]
      have : ((c :: rest).map Char.toLower).take needle.length = needle.map Char.toLower := by
        rw [← ht]
        have hl : needle.length = (needle.map Char.toLower).length := by simp
        conv_lhs => rw [hl]
        exact List.take_left _ _
      rw [List.map_take]
      exact this
    · cases hr : strcasestr rest needle with
      | none => rw [hr] at h; cases h
      | some j =>
        rw [hr] at h
        simp only [Option.some.injEq] at h
        subst h
        obtain ⟨h1, h2⟩ := ih j hr
        exact ⟨by simp; omega, by simpa using h2⟩

theorem query_reader_ok (input_format : Nat) :
    (∀ s n, query_reader input_format = some (s, n) → n = s.length) ∧
    (piece_text (query_reader input_format)).length ≤ 16 := by
  unfold query_reader
  split
  · exact ⟨fun s n h => (by cases h; rfl), by decide⟩
  · split
    · exact ⟨fun s n h => (by cases h; rfl), by decide⟩
    · split
      · exact ⟨fun s n h => (by cases h; rfl), by decide⟩
      · exact ⟨fun s n h => (by cases h), by decide⟩

theorem query_header_ok (input_format : Nat) (use_csv_headers_input : Bool) :
    (∀ s n, query_header input_format use_csv_headers_input = some (s, n) → n = s.length) ∧
    (piece_text (query_header input_format use_csv_headers_input)).length ≤ 14 := by
  unfold query_header
  split
  · split
    · exact ⟨fun s n h => (by cases h; rfl), by decide⟩
    · exact ⟨fun s n h => (by cases h; rfl), by decide⟩
  · exact ⟨fun s n h => (by cases h), by decide⟩

theorem query_options_ok (output_format : Nat) (use_csv_headers_output : Bool) :
    (∀ s n, query_options output_format use_csv_headers_output = some (s, n) → n = s.length) ∧
    (piece_text (query_options output_format use_csv_headers_output)).length ≤ 19 := by
  unfold query_options
  split
  · exact ⟨fun s n h => (by cases h; rfl), by decide⟩
  · split
    · exact ⟨fun s n h => (by cases h; rfl), by decide⟩
    · exact ⟨fun s n h => (by cases h), by decide⟩

theorem result_path_length (counter output_format : Nat) :
    (Nat.toDigits 10 (counter % 2 ^ 32) ++ query_extension output_format).length ≤ 18 := by
  have hd : (Nat.toDigits 10 (counter % 2 ^ 32)).length ≤ 10 := by
    unfold Nat.toDigits
    exact Nat.toDigitsCore_length 10 (by decide) _ _ 10 (by omega) (by decide)
  have he : (query_extension output_format).length ≤ 8 := by
    unfold query_extension
    split
    · decide
    · split
      · decide
      · split <;> decide
  rw [List.length_append]
  omega

theorem run_query_offsets_some (sql : List Char) (from_pos : Nat)
    (hfrom : strcasestr sql ['f', 'r', 'o', 'm'] = some from_pos) :
    run_query_offsets sql = some ⟨from_pos + 5,
      if sql.getD (sql.length - 1) NUL = ';' then sql.length - 1 else sql.length,
      second_part_loop sql
        (if sql.getD (sql.length - 1) NUL = ';' then sql.length - 1 else sql.length)
        (if sql.getD (sql.length - 1) NUL = ';' then sql.length - 1 else sql.length)
        (from_pos + 5)⟩ := by
  simp only [run_query_offsets, hfrom]

/-! ## The command of `run_query` -/

set_option maxRecDepth 1000000 in
/-- C26 (counterexample): for the sql text `select * from t<TAB>where a = 1`
the first whitespace character behind the table name is the tab at offset 15,
but the scan for `sql_second_part_pos` only stops at a space: it ends at
offset 21, behind `where`, and the command replaces `t<TAB>where` by the
reader call, so that ` a = 1` follows it and not `<TAB>where a = 1`. -/
theorem run_query_tab_counterexample :
    tab_sql.getD 15 NUL = Char.ofNat 9 ∧
    run_query_offsets tab_sql = some ⟨14, 27, 21⟩ ∧
    (match run_query_command sample_path tab_sql QUERY_TYPE_JSON QUERY_TYPE_JSON false false 7
      with
      | QueryOutcome.built q => c_string q.command
      | _ => [])
      = "copy (select * from read_json_auto(".toList ++ [QUOTE] ++ "./1/1/6B".toList
          ++ [QUOTE] ++ ") a = 1) to ".toList ++ [QUOTE] ++ "7.json".toList ++ [QUOTE] := by
  decide

/-- C26 (amended): for every sql text in which `strcasestr` finds the letters
`from` at offset `from_pos` (the first occurrence, whatever the case, token
or not) and that goes on for at least one char behind them, not counting one
semicolon at the end, `run_query` builds in `command` the text
`copy (` + sql[0..split1] + reader + path + `'` + header + `)` +
sql[split2..total] + `) to '` + result_path + `'` + options and a zero byte,
where `split1 = from_pos + 5`, `total` is the length of the sql text without
one semicolon at the end, `split2` is the offset of the first space (the char
`' '` only, not a tab or a newline) from `split1` on and below `total`, or
`total` when there is none, reader, header and options are as in
`query_reader`, `query_header` and `query_options`, and `result_path` is the
counter in decimal with the extension of the output format; the text fits in
the array.  A sql text without `from` is rejected. -/
theorem run_query_command_layout (path sql : List Char) (input_format output_format : Nat)
    (use_csv_headers_input use_csv_headers_output : Bool) (counter from_pos : Nat)
    (hfrom : strcasestr sql ['f', 'r', 'o', 'm'] = some from_pos)
    (hnext : from_pos + 5
      ≤ (if sql.getD (sql.length - 1) NUL = ';' then sql.length - 1 else sql.length)) :
    ∃ split2 total,
      total = (if sql.getD (sql.length - 1) NUL = ';' then sql.length - 1 else sql.length) ∧
      from_pos + 5 ≤ split2 ∧ split2 ≤ total ∧
      (∀ i, from_pos + 5 ≤ i → i < split2 → sql.getD i NUL ≠ ' ') ∧
      (split2 < total → sql.getD split2 NUL = ' ') ∧
      ∃ q, run_query_command path sql input_format output_format use_csv_headers_input
          use_csv_headers_output counter = QueryOutcome.built q ∧
        q.offsets = ⟨from_pos + 5, total, split2⟩ ∧
        q.result_path = Nat.toDigits 10 (counter % 2 ^ 32) ++ query_extension output_format ∧
        q.command = "copy (".toList ++ sql.take (from_pos + 5)
          ++ piece_text (query_reader input_format) ++ path ++ [QUOTE]
          ++ piece_text (query_header input_format use_csv_headers_input) ++ [')']
          ++ (sql.take total).drop split2 ++ (") to ".toList ++ [QUOTE]) ++ q.result_path
          ++ [QUOTE] ++ piece_text (query_options output_format use_csv_headers_output)
          ++ [NUL] ∧
        q.command.length ≤ q.command_size ∧
        (∀ sql2, strcasestr sql2 ['f', 'r', 'o', 'm'] = none →
          run_query_command path sql2 input_format output_format use_csv_headers_input
            use_csv_headers_output counter = QueryOutcome.invalid_parameter) := by
  have hoff := run_query_offsets_some sql from_pos hfrom
  generalize htotal :
    (if sql.getD (sql.length - 1) NUL = ';' then sql.length - 1 else sql.length) = total
    at hoff hnext
  have htot : total ≤ sql.length := by rw [← htotal]; split <;> omega
  have hlast : sql.length ≤ total + 1 := by rw [← htotal]; split <;> omega
  obtain ⟨h1, h2, _, h4, h5⟩ := second_part_loop_spec sql total total (from_pos + 5) (by omega)
  have hspp := h2 hnext
  generalize hsplit : second_part_loop sql total total (from_pos + 5) = spp
    at hoff h1 h4 h5 hspp
  have hnot : ¬ sql.length < spp := by omega
  have ht := tidy_emit _ _ (query_options output_format use_csv_headers_output)
    (tidy_put_chr _ _ QUOTE
      (tidy_put_str 1 _ _
        (Nat.toDigits 10 (counter % 2 ^ 32) ++ query_extension output_format)
        (Nat.toDigits 10 (counter % 2 ^ 32) ++ query_extension output_format).length
        (tidy_put_str 2 _ _ (") to ".toList ++ [QUOTE]) 6
          (tidy_second_part _ _ sql spp total
            (tidy_put_chr _ _ ')'
              (tidy_emit _ _ (query_header input_format use_csv_headers_input)
                (tidy_put_chr _ _ QUOTE
                  (tidy_put_str 1 _ _ path path.length
                    (tidy_emit _ _ (query_reader input_format)
                      (tidy_strncpy _ _ sql (from_pos + 5)
                        (tidy_put_str 0 _ _ "copy (".toList 6 tidy_init rfl (by decide))
                        (by omega))
                      (query_reader_ok input_format).1)
                    rfl (by omega)))
                (query_header_ok input_format use_csv_headers_input).1))
            hspp htot hlast)
          rfl (by decide))
        rfl (by omega)))
    (query_options_ok output_format use_csv_headers_output).1
  have hcmd := write_nul_of_tidy _ _ ht
  simp only [List.nil_append] at hcmd
  refine ⟨spp, total, rfl, h1, hspp, h4, h5,
    ⟨"copy (".toList ++ sql.take (from_pos + 5)
        ++ piece_text (query_reader input_format) ++ path ++ [QUOTE]
        ++ piece_text (query_header input_format use_csv_headers_input) ++ [')']
        ++ (sql.take total).drop spp ++ (") to ".toList ++ [QUOTE])
        ++ (Nat.toDigits 10 (counter % 2 ^ 32) ++ query_extension output_format)
        ++ [QUOTE] ++ piece_text (query_options output_format use_csv_headers_output)
        ++ [NUL], 6 + (from_pos + 5) + 16 + path.length + 84 + total - spp,
      Nat.toDigits 10 (counter % 2 ^ 32) ++ query_extension output_format,
      ⟨from_pos + 5, total, spp⟩⟩, ?_, rfl, rfl, rfl, ?_, ?_⟩
  · simp only [run_query_command, hoff, if_neg hnot, hspp, if_true]
    simp only [if_pos hspp] at hcmd
    rw [hcmd]
  · have hr := (query_reader_ok input_format).2
    have hh := (query_header_ok input_format use_csv_headers_input).2
    have ho := (query_options_ok output_format use_csv_headers_output).2
    have hp := result_path_length counter output_format
    have hl1 : (sql.take (from_pos + 5)).length = from_pos + 5 := by
      simp [List.length_take]; omega
    have hl2 : ((sql.take total).drop spp).length = total - spp := by
      simp [List.length_drop, List.length_take]; omega
    have hc : "copy (".toList.length = 6 := by decide
    have ht6 : (") to ".toList ++ [QUOTE]).length = 6 := by decide
    rw [List.length_append] at hp
    dsimp only
    simp only [List.length_append, hl1, hl2, hc, ht6, List.length_singleton]
    omega
  · intro sql2 hnone
    simp only [run_query_command, run_query_offsets, hnone]

set_option maxRecDepth 1000000 in
/-- Witness for C26: the sql text `select * from s3object limit 1;` of the
unit tests, JSON in, CSV out with header, counter 7. -/
theorem run_query_command_layout_witness :
    ∃ q, run_query_command sample_path sample_sql QUERY_TYPE_JSON QUERY_TYPE_CSV false true 7
        = QueryOutcome.built q ∧
      q.offsets = ⟨14, 30, 22⟩ ∧
      c_string q.command
        = "copy (select * from read_json_auto(".toList ++ [QUOTE] ++ "./1/1/6B".toList
          ++ [QUOTE] ++ ") limit 1) to ".toList ++ [QUOTE] ++ "7.csv".toList ++ [QUOTE]
          ++ " ( header )".toList := by
  obtain ⟨split2, total, htotal, _, _, _, _, q, hq, hoff, _, _, _, _⟩ :=
    run_query_command_layout sample_path sample_sql QUERY_TYPE_JSON QUERY_TYPE_CSV false true 7
      9 (by decide) (by decide)
  have hrun : run_query_command sample_path sample_sql QUERY_TYPE_JSON QUERY_TYPE_CSV false
      true 7 = QueryOutcome.built
        ⟨"copy (select * from read_json_auto(".toList ++ [QUOTE] ++ "./1/1/6B".toList
          ++ [QUOTE] ++ ") limit 1) to ".toList ++ [QUOTE] ++ "7.csv".toList ++ [QUOTE]
          ++ " ( header )".toList ++ [NUL], 136, "7.csv".toList, ⟨14, 30, 22⟩⟩ := by
    decide
  rw [hrun] at hq
  cases hq
  exact ⟨_, hrun, rfl, by decide⟩

theorem strcasestr_from_last (sql : List Char) (from_pos : Nat)
    (hfrom : strcasestr sql ['f', 'r', 'o', 'm'] = some from_pos) :
    from_pos + 4 ≤ sql.length ∧ sql.getD (from_pos + 3) NUL ≠ ';' := by
  obtain ⟨hlen, hmatch⟩ := strcasestr_some _ sql from_pos hfrom
  refine ⟨hlen, ?_⟩
  intro hsemi
  have h3 := congrArg (fun l => l[3]?) hmatch
  simp only [List.getElem?_map, List.length_cons, List.length_nil] at h3
  rw [List.getElem?_take_of_lt (by decide), List.getElem?_drop] at h3
  have hget : sql[from_pos + 3]? = some ';' := by
    rw [List.getD_eq_getElem?_getD] at hsemi
    cases hx : sql[from_pos + 3]? with
    | none =>
      rw [hx] at hsemi
      exact absurd hsemi (by decide)
    | some c =>
      rw [hx] at hsemi
      simp only [Option.getD_some] at hsemi
      rw [hsemi]
  rw [hget] at h3
  exact absurd h3 (by decide)

/-- C30 (failing input): when the letters `from` found by `strcasestr` end the
sql text, or are followed only by a semicolon, `sql_first_part_len` is
`total_sql_len + 1`, the loop leaves `sql_second_part_pos` at that value, and
`total_sql_len - sql_second_part_pos` is below zero; when the text ends with
`from`, the `strcpy` from `sql + sql_second_part_pos` starts behind the zero
byte of the sql text. -/
theorem run_query_offsets_past_end (sql : List Char) (from_pos : Nat)
    (hfrom : strcasestr sql ['f', 'r', 'o', 'm'] = some from_pos)
    (hend : sql.length = from_pos + 4 ∨
      (sql.length = from_pos + 5 ∧ sql.getD (from_pos + 4) NUL = ';')) :
    run_query_offsets sql = some ⟨from_pos + 5, from_pos + 4, from_pos + 5⟩ ∧
    ¬ (from_pos + 5 ≤ from_pos + 4) ∧
    (sql.length = from_pos + 4 →
      ∀ (path : List Char) (input_format output_format : Nat)
        (use_csv_headers_input use_csv_headers_output : Bool) (counter : Nat),
        run_query_command path sql input_format output_format use_csv_headers_input
          use_csv_headers_output counter
          = QueryOutcome.read_past_sql ⟨from_pos + 5, from_pos + 4, from_pos + 5⟩) := by
  have hoff := run_query_offsets_some sql from_pos hfrom
  obtain ⟨hlen, hlast⟩ := strcasestr_from_last sql from_pos hfrom
  have htotal : (if sql.getD (sql.length - 1) NUL = ';' then sql.length - 1 else sql.length)
      = from_pos + 4 := by
    rcases hend with h4 | ⟨h5, hsemi⟩
    · have : sql.length - 1 = from_pos + 3 := by omega
      rw [this, if_neg hlast, h4]
    · have : sql.length - 1 = from_pos + 4 := by omega
      rw [this, if_pos hsemi]
  rw [htotal] at hoff
  have hloop := (second_part_loop_spec sql (from_pos + 4) (from_pos + 4) (from_pos + 5)
    (by omega)).2.2.1 (by omega)
  rw [hloop] at hoff
  refine ⟨hoff, by omega, ?_⟩
  intro h4 path input_format output_format hin hout counter
  have hpast : sql.length < from_pos + 5 := by omega
  simp only [run_query_command, hoff, if_pos hpast]

set_option maxRecDepth 1000000 in
/-- Witness for C30: the sql texts `select * from` and `select * from;`.  For
the first the construction reads behind the sql text; for the second `pos`
goes back by one and the closing parenthesis of the sub-query is lost. -/
theorem run_query_offsets_past_end_witness :
    run_query_offsets "select * from".toList = some ⟨14, 13, 14⟩ ∧
    run_query_command sample_path "select * from".toList QUERY_TYPE_CSV QUERY_TYPE_CSV false
        false 7 = QueryOutcome.read_past_sql ⟨14, 13, 14⟩ ∧
    run_query_offsets "select * from;".toList = some ⟨14, 13, 14⟩ ∧
    (match run_query_command sample_path "select * from;".toList QUERY_TYPE_JSON
        QUERY_TYPE_JSON false false 7 with
      | QueryOutcome.built q => c_string q.command
      | _ => [])
      = "copy (select * from;read_json_auto(".toList ++ [QUOTE] ++ "./1/1/6B".toList
          ++ [QUOTE] ++ ") to ".toList ++ [QUOTE] ++ "7.json".toList ++ [QUOTE] :=
  have h1 := run_query_offsets_past_end "select * from".toList 9 (by decide)
    (Or.inl (by decide))
  have h2 := run_query_offsets_past_end "select * from;".toList 9 (by decide)
    (Or.inr ⟨by decide, by decide⟩)
  ⟨h1.1, h1.2.2 (by decide) sample_path QUERY_TYPE_CSV QUERY_TYPE_CSV false false 7, h2.1,
    by decide⟩

/-! ## The worker pool -/

/-- The steps of `run_query` that the worker's switch follows are those of
`run_query_command`: for every path, format and counter the construction ends
with `KV_ERROR_INVALID_PARAMETER` when no `from` is found, behind the sql text
when `sql_second_part_pos` exceeds its length, and with a command otherwise. -/
theorem run_query_command_end (path sql : List Char) (input_format output_format : Nat)
    (use_csv_headers_input use_csv_headers_output : Bool) (counter : Nat) :
    (run_query_offsets sql = none →
      run_query_command path sql input_format output_format use_csv_headers_input
        use_csv_headers_output counter = QueryOutcome.invalid_parameter) ∧
    (∀ o, run_query_offsets sql = some o → sql.length < o.sql_second_part_pos →
      run_query_command path sql input_format output_format use_csv_headers_input
        use_csv_headers_output counter = QueryOutcome.read_past_sql o) ∧
    (∀ o, run_query_offsets sql = some o → ¬ sql.length < o.sql_second_part_pos →
      ∃ q, run_query_command path sql input_format output_format use_csv_headers_input
        use_csv_headers_output counter = QueryOutcome.built q) := by
  refine ⟨?_, ?_, ?_⟩
  · intro h
    simp only [run_query_command, h]
  · intro o h hp
    simp only [run_query_command, h, if_pos hp]
  · intro o h hp
    simp only [run_query_command, h, if_neg hp]
    exact ⟨_, rfl⟩

end KV
